import Mathlib

/-!
# repo-analyzer (`interceptd/ra`): text cleanup, target classification, command control flow

A shallow embedding of the Go package `cmd`.

* A Go `string` is modelled as the list of its Unicode code points (`GoString`).  The
  inputs considered are valid UTF-8, where byte-level `strings.ReplaceAll`,
  `strings.HasPrefix`, `strings.Contains` and `strings.Count` with valid UTF-8 patterns
  agree with their code-point-level counterparts and `for _, r := range s` yields
  exactly the code points.
* Functions of the Go standard library and of `pflag`/`cobra`/`viper` are modelled by
  their documented behaviour; the Unicode category tables above Latin-1 are a parameter.
* Standard output is not part of the modelled state.
-/

namespace RA

/-- A Go string, as the sequence of its code points. -/
abbrev GoString := List Char

/-! ## Package `strings` -/

/-- Go `strings.HasPrefix`. -/
def hasPrefix (s pre : GoString) : Bool :=
  pre.isPrefixOf s

/-- Scan of `strings.Contains` with a non-empty pattern: some suffix of `s` starts with `sub`. -/
def containsAux (sub : GoString) : GoString → Bool
  | [] => false
  | c :: cs => sub.isPrefixOf (c :: cs) || containsAux sub cs

/-- Go `strings.Contains`: the empty pattern is contained in every string. -/
def contains (s sub : GoString) : Bool :=
  match sub with
  | [] => true
  | _ :: _ => containsAux sub s

/-- Scan of `strings.Count` with a non-empty pattern: non-overlapping occurrences, leftmost
first.  The first argument is the number of characters still covered by the last match. -/
def countAux (sub : GoString) : Nat → GoString → Nat
  | _, [] => 0
  | skip + 1, _ :: cs => countAux sub skip cs
  | 0, c :: cs =>
    if sub.isPrefixOf (c :: cs) then 1 + countAux sub (sub.length - 1) cs
    else countAux sub 0 cs

/-- Go `strings.Count`: for the empty pattern, one more than the number of code points. -/
def count (s sub : GoString) : Nat :=
  match sub with
  | [] => s.length + 1
  | _ :: _ => countAux sub 0 s

/-- Scan of `strings.ReplaceAll` with a non-empty pattern: every non-overlapping occurrence,
leftmost first, is replaced.  The first argument is the number of characters still covered
by the last match. -/
def replaceAllAux (old new : GoString) : Nat → GoString → GoString
  | _, [] => []
  | skip + 1, _ :: cs => replaceAllAux old new skip cs
  | 0, c :: cs =>
    if old.isPrefixOf (c :: cs) then new ++ replaceAllAux old new (old.length - 1) cs
    else c :: replaceAllAux old new 0 cs

/-- Go `strings.ReplaceAll`: with an empty `old`, `new` is inserted before every code point
and at the end. -/
def replaceAll (s old new : GoString) : GoString :=
  match old with
  | [] => new ++ s.flatMap (fun c => c :: new)
  | _ :: _ => replaceAllAux old new 0 s

/-! ## Package `unicode` -/

/-- The part of Go's Unicode tables that is not reproduced here: membership of a code
point above U+00FF in the categories L, M, N, P, S (`unicode.PrintRanges`). -/
structure UnicodeTables where
  inPrintRanges : Char → Bool

/-- Go `unicode.IsPrint`.  For Latin-1 the `properties` table decides: U+0020..U+007E and
U+00A1..U+00FF without U+00AD (soft hyphen); above Latin-1, `PrintRanges`. -/
def isPrint (T : UnicodeTables) (r : Char) : Bool :=
  if r.toNat ≤ 0xFF then
    (0x20 ≤ r.toNat && r.toNat ≤ 0x7E) || (0xA1 ≤ r.toNat && r.toNat ≠ 0xAD)
  else T.inPrintRanges r

/-- Go `unicode.IsSpace`: for Latin-1 the characters `\t \n \v \f \r`, space, U+0085 and
U+00A0; above Latin-1 the `White_Space` table. -/
def isSpace (r : Char) : Bool :=
  if r.toNat ≤ 0xFF then
    (0x09 ≤ r.toNat && r.toNat ≤ 0x0D) || r.toNat = 0x20 || r.toNat = 0x85 || r.toNat = 0xA0
  else
    r.toNat = 0x1680 || (0x2000 ≤ r.toNat && r.toNat ≤ 0x200A) || r.toNat = 0x2028
      || r.toNat = 0x2029 || r.toNat = 0x202F || r.toNat = 0x205F || r.toNat = 0x3000

/-- Go `unicode.IsControl`: the category Cc, U+0000..U+001F and U+007F..U+009F. -/
def isControl (r : Char) : Bool :=
  r.toNat < 0x20 || (0x7F ≤ r.toNat && r.toNat ≤ 0x9F)

/-! ## `utils.go`: text cleanup -/

/-- Line Separator. -/
def LS : Char := Char.ofNat 0x2028
/-- Paragraph Separator. -/
def PS : Char := Char.ofNat 0x2029
/-- Zero Width Space. -/
def ZWSP : Char := Char.ofNat 0x200B
/-- Zero Width Non-Joiner. -/
def ZWNJ : Char := Char.ofNat 0x200C
/-- Zero Width Joiner. -/
def ZWJ : Char := Char.ofNat 0x200D
/-- Zero Width No-Break Space (byte order mark). -/
def BOM : Char := Char.ofNat 0xFEFF
/-- Carriage return. -/
def CR : Char := Char.ofNat 0x0D
/-- Line feed. -/
def LF : Char := Char.ofNat 0x0A
/-- Horizontal tab. -/
def TAB : Char := Char.ofNat 0x09
/-- The ASCII space. -/
def SP : Char := Char.ofNat 0x20
/-- The two characters backslash and `n` that `writeCleanJSONFile` substitutes. -/
def escapedNewline : GoString := [Char.ofNat 0x5C, 'n']

/-- Embedding of `cleanTextContent`: the eight `strings.ReplaceAll` calls in source order. -/
def cleanTextContent (content : GoString) : GoString :=
  let content := replaceAll content [LS] [LF]
  let content := replaceAll content [PS] [LF]
  let content := replaceAll content [ZWSP] []
  let content := replaceAll content [ZWNJ] []
  let content := replaceAll content [ZWJ] []
  let content := replaceAll content [BOM] []
  let content := replaceAll content [CR, LF] [LF]
  let content := replaceAll content [CR] [LF]
  content

/-- The loop body of `cleanTextForFile`: what one rune contributes to the builder. -/
def cleanRune (T : UnicodeTables) (r : Char) : GoString :=
  if isPrint T r || r == LF || r == TAB || r == SP then [r]
  else if isSpace r then [SP]
  else []

/-- Embedding of `cleanTextForFile`: `cleanTextContent`, then the rune loop. -/
def cleanTextForFile (T : UnicodeTables) (content : GoString) : GoString :=
  (cleanTextContent content).flatMap (cleanRune T)

/-! ## `analyze.go`: classification of the target -/

/-- Embedding of `isRemoteRepository`. -/
def isRemoteRepository (path : GoString) : Bool :=
  if hasPrefix path "https://".toList || hasPrefix path "http://".toList then
    true
  else if hasPrefix path "./".toList || hasPrefix path "/".toList
      || hasPrefix path "../".toList then
    false
  else if contains path "/".toList && count path "/".toList == 1
      && !contains path ".".toList then
    true
  else
    false

/-! ## Effects

Every interaction with the operating system is recorded as an `Event`; what the system
answers may depend on everything that happened before, so each oracle of `Env` receives
the history of events.
-/

/-- What the program inspects of an `os.Stat` result. -/
inductive StatResult where
  /-- `err == nil`, with `IsDir()` of the file info. -/
  | found (isDir : Bool)
  /-- An error for which `os.IsNotExist` holds (`ENOENT`: the last element of the path, or
  a directory on the way to it, is not there). -/
  | notExist
  /-- Any other error: `ENOTDIR` for a path that leads through a regular file (`README.md/x`,
  where `README.md` is a file; that path does not exist either), `EACCES`, `ELOOP`. -/
  | failed
  deriving DecidableEq, Repr

/-- Go `os.IsNotExist(err)` on the error of a stat call. -/
def StatResult.isNotExist : StatResult → Bool
  | .notExist => true
  | _ => false

/-- Test `err == nil` on the error of a stat call. -/
def StatResult.isOk : StatResult → Bool
  | .found _ => true
  | _ => false

/-- Test `err == nil && stat.IsDir()`. -/
def StatResult.isDir : StatResult → Bool
  | .found d => d
  | _ => false

/-- An interaction with the operating system. -/
inductive Event where
  | stat (name : GoString)
  | mkdirAll (path : GoString)
  | writeFile (name data : GoString)
  | readFile (name : GoString)
  | remove (name : GoString)
  | getwd
  | abs (path : GoString)
  | now
  | lookPath (file : GoString)
  /-- Entry into the named function of the program. -/
  | call (fn : GoString)
  /-- The call `exec.Command(name, args...).Run()` with `cmd.Dir = dir`. -/
  | run (name : GoString) (args : List GoString) (dir : GoString)
  deriving DecidableEq, Repr

/-- What the program inspects of a finished subprocess. -/
structure RunResult where
  /-- The error text of `cmd.Run()`, `none` for `nil`. -/
  err : Option GoString
  stdout : GoString
  stderr : GoString

/-- A decoded JSON value (`interface{}` after `json.Unmarshal`). -/
inductive JSONValue where
  | null
  | bool (b : Bool)
  | number
  | string (s : GoString)
  | array
  | object (fields : List (GoString × JSONValue))

/-- The environment: operating system, platform and library functions that are not
reproduced. -/
structure Env where
  stat : List Event → GoString → StatResult
  mkdirAll : List Event → GoString → Option GoString
  writeFile : List Event → GoString → GoString → Option GoString
  readFile : List Event → GoString → Except GoString GoString
  getwd : List Event → Except GoString GoString
  abs : List Event → GoString → Except GoString GoString
  /-- The value of `time.Now().Format("20060102_150405")`. -/
  now : List Event → GoString
  /-- Whether `exec.LookPath` finds the file (`err == nil`). -/
  lookPath : List Event → GoString → Bool
  run : List Event → GoString → List GoString → GoString → RunResult
  /-- Test `runtime.GOOS == "windows"`. -/
  windows : Bool
  /-- The value of `os.TempDir()`. -/
  tempDir : GoString
  /-- Go `filepath.Join`. -/
  join : List GoString → GoString
  /-- Go `filepath.Base`. -/
  base : GoString → GoString
  /-- Go `filepath.Dir`. -/
  dir : GoString → GoString
  /-- The Python script of `runGitingestAnalysis`: the `fmt.Sprintf` of its template with
  the target path, the `json_only` literal and the temporary file. -/
  script : GoString → GoString → GoString → GoString
  /-- Go `json.Unmarshal` into a `map[string]interface{}`. -/
  jsonUnmarshal : GoString → Except GoString (List (GoString × JSONValue))
  unicode : UnicodeTables

/-- The package-level variables of `cmd`, with Go's zero values as defaults. -/
structure Globals where
  analyzePath : GoString := []
  analyzeOutput : GoString := []
  analyzeGitingest : Bool := false
  analyzeRepomix : Bool := false
  analyzeHeaderText : GoString := []
  gitingestPath : GoString := []
  gitingestOutput : GoString := []
  gitingestJSONOnly : Bool := false
  repomixPath : GoString := []
  repomixOutput : GoString := []
  repomixRemote : GoString := []
  repomixIncludePatterns : GoString := []
  repomixIgnorePatterns : GoString := []
  repomixIncludeFileSummary : Bool := false
  repomixIncludeDirectoryStructure : Bool := false
  repomixShowLineNumbers : Bool := false
  repomixOutputParsableFormat : Bool := false
  repomixRemoveComments : Bool := false
  repomixRemoveEmptyLines : Bool := false
  repomixTopFilesLength : Int := 0
  repomixHeaderText : GoString := []
  deriving DecidableEq, Repr

/-- The state of a run: the package variables and the events so far. -/
structure Machine where
  globals : Globals := {}
  trace : List Event := []
  deriving DecidableEq, Repr

/-- Computations of the program. -/
abbrev Act := StateM Machine

/-- A Go `error` value: `none` is `nil`, otherwise the text of `Error()`. -/
abbrev GoError := Option GoString

/-- How a command function ends. -/
inductive Result where
  | nil
  | error (msg : GoString)
  /-- A run-time panic (failed type assertion). -/
  | panic
  deriving DecidableEq, Repr

/-- Record an event and take the answer of the environment from the history before it. -/
def perform {α : Type} (e : Event) (answer : List Event → α) : Act α :=
  fun m => (answer m.trace, { m with trace := m.trace ++ [e] })

/-- Read the package variables. -/
def getGlobals : Act Globals :=
  fun m => (m.globals, m)

/-- Assign to package variables. -/
def setGlobals (f : Globals → Globals) : Act Unit :=
  fun m => ((), { m with globals := f m.globals })

/-- Go `os.Stat`. -/
def osStat (E : Env) (name : GoString) : Act StatResult :=
  perform (.stat name) (fun h => E.stat h name)

/-- Go `os.MkdirAll`. -/
def osMkdirAll (E : Env) (path : GoString) : Act GoError :=
  perform (.mkdirAll path) (fun h => E.mkdirAll h path)

/-- Go `os.WriteFile`. -/
def osWriteFile (E : Env) (name data : GoString) : Act GoError :=
  perform (.writeFile name data) (fun h => E.writeFile h name data)

/-- Go `os.ReadFile`. -/
def osReadFile (E : Env) (name : GoString) : Act (Except GoString GoString) :=
  perform (.readFile name) (fun h => E.readFile h name)

/-- Go `os.Remove`, its result ignored. -/
def osRemove (name : GoString) : Act Unit :=
  perform (.remove name) (fun _ => ())

/-- Go `os.Getwd`. -/
def osGetwd (E : Env) : Act (Except GoString GoString) :=
  perform .getwd E.getwd

/-- Go `filepath.Abs`. -/
def filepathAbs (E : Env) (path : GoString) : Act (Except GoString GoString) :=
  perform (.abs path) (fun h => E.abs h path)

/-- Go `exec.LookPath`, as the test `err == nil`. -/
def execLookPath (E : Env) (file : GoString) : Act Bool :=
  perform (.lookPath file) (fun h => E.lookPath h file)

/-- Go `exec.Command(name, args...)` with `Dir = dir`, then `Run()`. -/
def execRun (E : Env) (name : GoString) (args : List GoString) (dir : GoString) :
    Act RunResult :=
  perform (.run name args dir) (fun h => E.run h name args dir)

/-! ## `utils.go`: files and paths -/

/-- Embedding of `createOutputDir`. -/
def createOutputDir (E : Env) (outputDir : GoString) : Act GoError := do
  let st ← osStat E outputDir
  if st.isNotExist then
    match ← osMkdirAll E outputDir with
    | some err => return some ("failed to create output directory: ".toList ++ err)
    | none => pure ()
  return none

/-- Embedding of `getTimestamp`. -/
def getTimestamp (E : Env) : Act GoString :=
  perform .now E.now

/-- Embedding of `writeCleanFile`. -/
def writeCleanFile (E : Env) (filename content : GoString) : Act GoError := do
  let cleanedContent := cleanTextForFile E.unicode content
  match ← osWriteFile E filename cleanedContent with
  | some err =>
    return some ("failed to write file ".toList ++ filename ++ ": ".toList ++ err)
  | none => return none

/-- Embedding of `writeCleanJSONFile`. -/
def writeCleanJSONFile (E : Env) (filename content : GoString) : Act GoError := do
  let cleanedContent := replaceAll content [LS] escapedNewline
  let cleanedContent := replaceAll cleanedContent [PS] escapedNewline
  match ← osWriteFile E filename cleanedContent with
  | some err =>
    return some ("failed to write JSON file ".toList ++ filename ++ ": ".toList ++ err)
  | none => return none

/-- Embedding of `getVenvPath`. -/
def getVenvPath (E : Env) : Act GoString := do
  let st ← osStat E "/app/.venv".toList
  if st.isOk then
    return "/app/.venv".toList
  match ← osGetwd E with
  | .error _ => return ".venv".toList
  | .ok cwd => return E.join [cwd, ".venv".toList]

/-- Embedding of `getVenvPython`. -/
def getVenvPython (E : Env) : Act GoString := do
  let venvPath ← getVenvPath E
  if E.windows then
    return E.join [venvPath, "Scripts".toList, "python.exe".toList]
  return E.join [venvPath, "bin".toList, "python".toList]

/-! ## `gitingest.go` -/

/-- Embedding of `checkPythonAvailable`. -/
def checkPythonAvailable (E : Env) : Act GoError := do
  let venvPython ← getVenvPython E
  let st ← osStat E venvPython
  if st.isNotExist then
    return some
      "Python virtual environment not found. Please run: ./repo-analyzer setup".toList
  let r ← execRun E venvPython ["--version".toList] []
  if r.err.isSome then
    return some
      "virtual environment Python is not working. Please run: ./repo-analyzer setup".toList
  return none

/-- Embedding of `checkGitingestAvailable`. -/
def checkGitingestAvailable (E : Env) : Act GoError := do
  let venvPython ← getVenvPython E
  let st ← osStat E venvPython
  if st.isNotExist then
    return some
      "Python virtual environment not found. Please run: ./repo-analyzer setup".toList
  let r ← execRun E venvPython
    ["-c".toList, "import gitingest; print(\x27gitingest available\x27)".toList] []
  if r.err.isSome then
    return some ("gitingest is not available in virtual environment. "
      ++ "Please run: ./repo-analyzer setup").toList
  return none

/-- Map index `results[key]` on the decoded object. -/
def jsonLookup (fields : List (GoString × JSONValue)) (key : GoString) : Option JSONValue :=
  (fields.find? (fun kv => kv.1 == key)).map (fun kv => kv.2)

/-- Type assertion `results[key].(string)`; `none` is the panic. -/
def assertString (fields : List (GoString × JSONValue)) (key : GoString) : Option GoString :=
  match jsonLookup fields key with
  | some (.string s) => some s
  | _ => none

/-- Type assertion `results[key].(bool)`; `none` is the panic. -/
def assertBool (fields : List (GoString × JSONValue)) (key : GoString) : Option Bool :=
  match jsonLookup fields key with
  | some (.bool b) => some b
  | _ => none

/-- Type assertion `results[key].(map[string]interface{})`; `none` is the panic. -/
def assertObject (fields : List (GoString × JSONValue)) (key : GoString) :
    Option (List (GoString × JSONValue)) :=
  match jsonLookup fields key with
  | some (.object o) => some o
  | _ => none

/-- The part of `runGitingestAnalysis` after the results were decoded: the output files. -/
def writeGitingestResults (E : Env) (jsonData : GoString)
    (timestamp baseName summary tree content : GoString) (jsonOnly : Bool) : Act Result := do
  let g ← getGlobals
  let summaryFile :=
    E.join [g.gitingestOutput, baseName ++ "_summary_".toList ++ timestamp ++ ".txt".toList]
  let treeFile :=
    E.join [g.gitingestOutput, baseName ++ "_tree_".toList ++ timestamp ++ ".txt".toList]
  let contentFile :=
    E.join [g.gitingestOutput, baseName ++ "_content_".toList ++ timestamp ++ ".txt".toList]
  let jsonFile :=
    E.join [g.gitingestOutput, baseName ++ "_results_".toList ++ timestamp ++ ".json".toList]
  if !jsonOnly then
    match ← writeCleanFile E summaryFile summary with
    | some err => return .error ("failed to write summary file: ".toList ++ err)
    | none => pure ()
    match ← writeCleanFile E treeFile tree with
    | some err => return .error ("failed to write tree file: ".toList ++ err)
    | none => pure ()
    match ← writeCleanFile E contentFile content with
    | some err => return .error ("failed to write content file: ".toList ++ err)
    | none => pure ()
  match ← writeCleanJSONFile E jsonFile jsonData with
  | some err => return .error ("failed to write JSON file: ".toList ++ err)
  | none => return .nil

/-- The body of `runGitingestAnalysis`, before the deferred `os.Remove(tempFile)`. -/
def runGitingestAnalysisBody (E : Env) (targetPath tempFile : GoString) : Act Result := do
  let g ← getGlobals
  let jsonOnlyStr := if g.gitingestJSONOnly then "True".toList else "False".toList
  let pythonScript := E.script targetPath jsonOnlyStr tempFile
  let venvPython ← getVenvPython E
  let r ← execRun E venvPython ["-c".toList, pythonScript] []
  match r.err with
  | some err => return .error err
  | none => pure ()
  let output := r.stdout
  if !contains output "GITINGEST_COMPLETED".toList then
    return .error "gitingest analysis did not complete successfully".toList
  match ← osReadFile E tempFile with
  | .error err => return .error ("failed to read JSON results file: ".toList ++ err)
  | .ok jsonData =>
    match E.jsonUnmarshal jsonData with
    | .error err => return .error ("failed to parse JSON results: ".toList ++ err)
    | .ok results =>
      match assertString results "timestamp".toList, assertString results "base_name".toList,
        assertString results "summary".toList, assertString results "tree".toList,
        assertString results "content".toList, assertBool results "json_only".toList,
        assertObject results "stats".toList with
      | some timestamp, some baseName, some summary, some tree, some content, some jsonOnly,
        some _ =>
        writeGitingestResults E jsonData timestamp baseName summary tree content jsonOnly
      | _, _, _, _, _, _, _ => return .panic

/-- Embedding of `runGitingestAnalysis`. -/
def runGitingestAnalysis (E : Env) (targetPath : GoString) : Act Result := do
  let tempFile := E.join [E.tempDir, "gitingest_results.json".toList]
  let r ← runGitingestAnalysisBody E targetPath tempFile
  osRemove tempFile
  return r

/-- Embedding of `runGitingest`; `args` are the positional arguments, of which the first,
when there is one, replaces the flag value. -/
def runGitingest (E : Env) (args : List GoString) : Act Result := do
  let g ← getGlobals
  let targetPath := args.headD g.gitingestPath
  let st ← osStat E targetPath
  if st.isNotExist then
    return .error ("target path does not exist: ".toList ++ targetPath)
  match ← filepathAbs E targetPath with
  | .error err => return .error ("failed to get absolute path: ".toList ++ err)
  | .ok absPath =>
    match ← createOutputDir E g.gitingestOutput with
    | some err => return .error ("failed to create output directory: ".toList ++ err)
    | none => pure ()
    match ← checkPythonAvailable E with
    | some err => return .error ("Python is not available: ".toList ++ err)
    | none => pure ()
    match ← checkGitingestAvailable E with
    | some err => return .error ("gitingest is not available: ".toList ++ err)
    | none => pure ()
    match ← runGitingestAnalysis E absPath with
    | .error err => return .error ("failed to run gitingest analysis: ".toList ++ err)
    | .panic => return .panic
    | .nil => return .nil

/-! ## `repomix.go` -/

/-- Embedding of `checkNodeAvailable`. -/
def checkNodeAvailable (E : Env) : Act GoError := do
  if ← execLookPath E "npx".toList then
    return none
  if ← execLookPath E "npm".toList then
    return none
  if ← execLookPath E "node".toList then
    return none
  return some "Node.js ecosystem not found. Please install Node.js and npm".toList

/-- The argument list that `runRepomixAnalysis` builds for `npx`. -/
def repomixArgs (g : Globals) (targetPath outputFile : GoString) : List GoString :=
  let args := ["repomix".toList]
  let args :=
    if g.repomixRemote ≠ [] then args ++ ["--remote".toList, g.repomixRemote]
    else args ++ [targetPath]
  let args := args ++ ["--style".toList, "markdown".toList]
  let args := args ++ ["--output".toList, outputFile]
  let args :=
    if g.repomixIncludePatterns ≠ [] then args ++ ["--include".toList, g.repomixIncludePatterns]
    else args
  let args :=
    if g.repomixIgnorePatterns ≠ [] then args ++ ["--ignore".toList, g.repomixIgnorePatterns]
    else args
  let args := if !g.repomixIncludeFileSummary then args ++ ["--no-file-summary".toList] else args
  let args :=
    if !g.repomixIncludeDirectoryStructure then args ++ ["--no-directory-structure".toList]
    else args
  let args :=
    if g.repomixShowLineNumbers then args ++ ["--output-show-line-numbers".toList] else args
  let args := if g.repomixOutputParsableFormat then args ++ ["--parsable-style".toList] else args
  let args := if g.repomixRemoveComments then args ++ ["--remove-comments".toList] else args
  let args := if g.repomixRemoveEmptyLines then args ++ ["--remove-empty-lines".toList] else args
  let args :=
    if g.repomixTopFilesLength ≠ 5 then
      args ++ ["--top-files-len".toList, (toString g.repomixTopFilesLength).toList]
    else args
  let args :=
    if g.repomixHeaderText ≠ [] then args ++ ["--header-text".toList, g.repomixHeaderText]
    else args
  args

/-- Embedding of `runRepomixAnalysis`. -/
def runRepomixAnalysis (E : Env) (targetPath : GoString) : Act Result := do
  let g ← getGlobals
  let timestamp ← getTimestamp E
  let baseName :=
    if g.repomixRemote ≠ [] then
      replaceAll (replaceAll g.repomixRemote "/".toList "_".toList) ":".toList "_".toList
    else
      let baseName := E.base targetPath
      if baseName = ".".toList then "current".toList else baseName
  let outputFile :=
    E.join [g.repomixOutput, baseName ++ "_repomix_".toList ++ timestamp ++ ".md".toList]
  let args := repomixArgs g targetPath outputFile
  let mut dir : GoString := []
  if g.repomixRemote = [] then
    let st ← osStat E targetPath
    if st.isDir then
      dir := targetPath
    else
      dir := E.dir targetPath
  let r ← execRun E "npx".toList args dir
  match r.err with
  | some err => return .error ("repomix command failed: ".toList ++ err)
  | none => pure ()
  let _ ← osStat E outputFile
  return .nil

/-- Embedding of `runRepomix`; `args` are the positional arguments. -/
def runRepomix (E : Env) (args : List GoString) : Act Result := do
  let g ← getGlobals
  let targetPath := args.headD g.repomixPath
  if g.repomixRemote = [] then
    let st ← osStat E targetPath
    if st.isNotExist then
      return .error ("target path does not exist: ".toList ++ targetPath)
  match ← createOutputDir E g.repomixOutput with
  | some err => return .error ("failed to create output directory: ".toList ++ err)
  | none => pure ()
  match ← checkNodeAvailable E with
  | some err => return .error ("Node.js/npm is not available: ".toList ++ err)
  | none => pure ()
  if g.repomixRemote = [] then
    let _ ← filepathAbs E targetPath
  match ← runRepomixAnalysis E targetPath with
  | .error err => return .error ("failed to run repomix analysis: ".toList ++ err)
  | .panic => return .panic
  | .nil => return .nil

/-! ## `viper` and `pflag` -/

/-- The values that `viper` finds for the keys the program reads, in the sources other
than command-line flags (environment, config file); `none` when a key is set nowhere. -/
structure Config where
  analyzeOutputDir : Option GoString := none
  analyzeEnableGitingest : Option Bool := none
  analyzeEnableRepomix : Option Bool := none
  analyzeHeaderText : Option GoString := none
  repomixIncludeFileSummary : Option Bool := none
  repomixIncludeDirectoryStructure : Option Bool := none
  repomixShowLineNumbers : Option Bool := none
  repomixOutputParsableFormat : Option Bool := none
  repomixRemoveComments : Option Bool := none
  repomixRemoveEmptyLines : Option Bool := none
  repomixTopFilesLength : Option Int := none
  repomixHeaderText : Option GoString := none
  deriving DecidableEq, Repr

/-- Go `viper.IsSet` for a key bound to a flag: the flag was changed on the command line, or
another source has the key.  The default of an unchanged flag does not count. -/
def viperIsSet {α : Type} (flagChanged : Bool) (conf : Option α) : Bool :=
  flagChanged || conf.isSome

/-- Go `viper.Get...` for a key bound to a flag: a changed flag wins, then the other
sources, last the value of the unchanged flag. -/
def viperGet {α : Type} (flagChanged : Bool) (flagValue : α) (conf : Option α) : α :=
  if flagChanged then flagValue else conf.getD flagValue

/-- Go `viper.Get...` for a key bound to no flag: the value found, or the zero value. -/
def viperGetUnbound {α : Type} (zero : α) (conf : Option α) : α :=
  conf.getD zero

/-- The conversion of an integer to the 64-bit Go `int`: the value modulo `2^64`, taken in
the range from `-2^63` to `2^63 - 1`. -/
def toGoInt (n : Int) : Int :=
  (n + 2 ^ 63) % 2 ^ 64 - 2 ^ 63

/-- Go `viper.GetInt` for a key bound to no flag: the value found, converted to `int`, or
zero. -/
def viperGetInt (conf : Option Int) : Int :=
  toGoInt (viperGetUnbound 0 conf)

/-- The flags given on the command line, in order: long name and value text.  A boolean
flag written without a value has the text `true` (`NoOptDefVal`). -/
abbrev FlagArgs := List (GoString × GoString)

/-- Go `cmd.Flags().Changed(name)`. -/
def changed (flags : FlagArgs) (name : String) : Bool :=
  flags.any (fun f => f.1 == name.toList)

/-- Go `strconv.ParseBool`, by which a boolean flag reads its value. -/
def parseBool (s : GoString) : Option Bool :=
  if s ∈ ["1".toList, "t".toList, "T".toList, "TRUE".toList, "true".toList, "True".toList] then
    some true
  else if s ∈ ["0".toList, "f".toList, "F".toList, "FALSE".toList, "false".toList,
      "False".toList] then
    some false
  else none

/-- Parse the flags in order with the setter of a command; the first error stops. -/
def parseFlags (setFlag : Globals → GoString × GoString → Except GoString Globals) :
    FlagArgs → Globals → Except GoString Globals
  | [], g => .ok g
  | f :: fs, g =>
    match setFlag g f with
    | .error err => .error err
    | .ok g1 => parseFlags setFlag fs g1

/-- Error of `pflag` for a flag that is not defined. -/
def unknownFlag (name : GoString) : GoString :=
  "unknown flag: --".toList ++ name

/-- Error of `pflag` for a boolean flag whose value text does not parse. -/
def invalidBool (name value : GoString) : GoString :=
  "invalid argument \"".toList ++ value ++ "\" for \"--".toList ++ name
    ++ "\" flag: strconv.ParseBool: parsing \"".toList ++ value ++ "\": invalid syntax".toList

/-- Go `cobra`'s check of a group marked with `MarkFlagsMutuallyExclusive(a, b)`. -/
def mutuallyExclusive (flags : FlagArgs) (a b : String) : GoError :=
  if changed flags a && changed flags b then
    some ("if any flags in the group [".toList ++ a.toList ++ " ".toList ++ b.toList
      ++ "] are set none of the others can be; [".toList ++ b.toList ++ " ".toList ++ a.toList
      ++ "] were all set".toList)
  else none

/-! ## `analyze.go`: the command -/

/-- The flag registrations of `init` in `analyze.go`, in source order: `StringVarP`,
`BoolVar` and `StringVar` store the default in the variable they are given. -/
def analyze_init (g : Globals) : Globals :=
  let g := { g with analyzePath := ".".toList }
  let g := { g with analyzeOutput := "analysis-results".toList }
  let g := { g with analyzeGitingest := true }
  let g := { g with analyzeRepomix := true }
  let g := { g with analyzeHeaderText := [] }
  let g := { g with analyzeGitingest := false }
  let g := { g with analyzeRepomix := false }
  g

/-- The flag registrations of `init` in `gitingest.go`. -/
def gitingest_init (g : Globals) : Globals :=
  let g := { g with gitingestPath := ".".toList }
  let g := { g with gitingestOutput := "output".toList }
  let g := { g with gitingestJSONOnly := false }
  g

/-- The flag registrations of `init` in `repomix.go`. -/
def repomix_init (g : Globals) : Globals :=
  let g := { g with repomixPath := ".".toList }
  let g := { g with repomixOutput := "output".toList }
  let g := { g with repomixRemote := [] }
  let g := { g with repomixIncludePatterns := [] }
  let g := { g with repomixIgnorePatterns := [] }
  let g := { g with repomixIncludeFileSummary := true }
  let g := { g with repomixIncludeDirectoryStructure := true }
  let g := { g with repomixShowLineNumbers := true }
  let g := { g with repomixOutputParsableFormat := true }
  let g := { g with repomixRemoveComments := true }
  let g := { g with repomixRemoveEmptyLines := true }
  let g := { g with repomixTopFilesLength := 5 }
  let g := { g with repomixHeaderText := [] }
  g

/-- The program state when a command line is parsed: all `init` functions have run. -/
def startMachine : Machine :=
  { globals := repomix_init (gitingest_init (analyze_init {})), trace := [] }

/-- What one flag of the `analyze` command does when parsed: the value is stored in the
variable the flag was registered with.  The persistent flags of the root command (`config`,
`verbose`, lines 46 and 47 of `root.go`) and the `help` flag that `cobra` adds are accepted
too; their variables `cfgFile` and `verbose` are not part of `Globals` (the config that is
read is the parameter `Config`, and standard output is not modelled). -/
def analyzeSetFlag (g : Globals) (f : GoString × GoString) : Except GoString Globals :=
  if f.1 = "path".toList then .ok { g with analyzePath := f.2 }
  else if f.1 = "output".toList then .ok { g with analyzeOutput := f.2 }
  else if f.1 = "header-text".toList then .ok { g with analyzeHeaderText := f.2 }
  else if f.1 = "config".toList then .ok g
  else if f.1 = "verbose".toList || f.1 = "help".toList then
    match parseBool f.2 with
    | some _ => .ok g
    | none => .error (invalidBool f.1 f.2)
  else if f.1 = "enable-gitingest".toList || f.1 = "disable-gitingest".toList then
    match parseBool f.2 with
    | some b => .ok { g with analyzeGitingest := b }
    | none => .error (invalidBool f.1 f.2)
  else if f.1 = "enable-repomix".toList || f.1 = "disable-repomix".toList then
    match parseBool f.2 with
    | some b => .ok { g with analyzeRepomix := b }
    | none => .error (invalidBool f.1 f.2)
  else .error (unknownFlag f.1)

/-- Embedding of `runGitingestForAnalyze`. -/
def runGitingestForAnalyze (E : Env) (targetPath : GoString) (_isRemote : Bool) :
    Act Result := do
  perform (.call "runGitingestForAnalyze".toList) (fun _ => ())
  setGlobals (fun g => { g with gitingestPath := targetPath })
  setGlobals (fun g => { g with gitingestOutput := g.analyzeOutput })
  setGlobals (fun g => { g with gitingestJSONOnly := false })
  match ← checkPythonAvailable E with
  | some err => return .error ("Python is not available: ".toList ++ err)
  | none => pure ()
  match ← checkGitingestAvailable E with
  | some err => return .error ("gitingest is not available: ".toList ++ err)
  | none => pure ()
  runGitingestAnalysis E targetPath

/-- Embedding of `runRepomixForAnalyze`. -/
def runRepomixForAnalyze (E : Env) (cfg : Config) (targetPath : GoString) (isRemote : Bool) :
    Act Result := do
  perform (.call "runRepomixForAnalyze".toList) (fun _ => ())
  setGlobals (fun g => { g with repomixPath := targetPath })
  setGlobals (fun g => { g with repomixOutput := g.analyzeOutput })
  setGlobals (fun g => { g with
    repomixIncludeFileSummary := viperGetUnbound false cfg.repomixIncludeFileSummary })
  setGlobals (fun g => { g with
    repomixIncludeDirectoryStructure :=
      viperGetUnbound false cfg.repomixIncludeDirectoryStructure })
  setGlobals (fun g => { g with
    repomixShowLineNumbers := viperGetUnbound false cfg.repomixShowLineNumbers })
  setGlobals (fun g => { g with
    repomixOutputParsableFormat := viperGetUnbound false cfg.repomixOutputParsableFormat })
  setGlobals (fun g => { g with
    repomixRemoveComments := viperGetUnbound false cfg.repomixRemoveComments })
  setGlobals (fun g => { g with
    repomixRemoveEmptyLines := viperGetUnbound false cfg.repomixRemoveEmptyLines })
  setGlobals (fun g => { g with repomixTopFilesLength := viperGetInt cfg.repomixTopFilesLength })
  if isRemote then
    setGlobals (fun g => { g with repomixRemote := targetPath })
  else
    setGlobals (fun g => { g with repomixRemote := [] })
  let g ← getGlobals
  if g.analyzeHeaderText ≠ [] then
    setGlobals (fun g => { g with repomixHeaderText := g.analyzeHeaderText })
  else
    setGlobals (fun g => { g with
      repomixHeaderText := viperGetUnbound [] cfg.repomixHeaderText })
  match ← checkNodeAvailable E with
  | some err => return .error ("Node.js/npm is not available: ".toList ++ err)
  | none => pure ()
  runRepomixAnalysis E targetPath

/-- Lines 85 to 90 of `runAnalyze`: the output directory from the config. -/
def resolveOutput (cfg : Config) (flags : FlagArgs) : Act Unit := do
  if !changed flags "output" then
    let configOutput := viperGetUnbound [] cfg.analyzeOutputDir
    if configOutput ≠ [] then
      setGlobals (fun g => { g with analyzeOutput := configOutput })

/-- Lines 92 to 100 of `runAnalyze`: the gitingest switch. -/
def resolveGitingest (cfg : Config) (flags : FlagArgs) : Act Unit := do
  if changed flags "disable-gitingest" then
    setGlobals (fun g => { g with analyzeGitingest := false })
  else if !changed flags "enable-gitingest" then
    if viperIsSet (changed flags "enable-gitingest") cfg.analyzeEnableGitingest then
      let conf := cfg.analyzeEnableGitingest
      setGlobals (fun g => { g with
        analyzeGitingest := viperGet (changed flags "enable-gitingest") g.analyzeGitingest conf })

/-- Lines 102 to 109 of `runAnalyze`: the repomix switch. -/
def resolveRepomix (cfg : Config) (flags : FlagArgs) : Act Unit := do
  if changed flags "disable-repomix" then
    setGlobals (fun g => { g with analyzeRepomix := false })
  else if !changed flags "enable-repomix" then
    if viperIsSet (changed flags "enable-repomix") cfg.analyzeEnableRepomix then
      let conf := cfg.analyzeEnableRepomix
      setGlobals (fun g => { g with
        analyzeRepomix := viperGet (changed flags "enable-repomix") g.analyzeRepomix conf })

/-- Lines 111 to 115 of `runAnalyze`: the header text from the config. -/
def resolveHeaderText (cfg : Config) (flags : FlagArgs) : Act Unit := do
  if !changed flags "header-text" then
    let g ← getGlobals
    let configHeader :=
      viperGet (changed flags "header-text") g.analyzeHeaderText cfg.analyzeHeaderText
    if configHeader ≠ [] then
      setGlobals (fun g => { g with analyzeHeaderText := configHeader })

/-- The flag and config resolution at the head of `runAnalyze` (lines 85 to 115). -/
def resolveAnalyze (cfg : Config) (flags : FlagArgs) : Act Unit := do
  resolveOutput cfg flags
  resolveGitingest cfg flags
  resolveRepomix cfg flags
  resolveHeaderText cfg flags

/-- The tool phase of `runAnalyze` (from line 154): the validation and the two tools. -/
def analyzeTools (E : Env) (cfg : Config) (absPath : GoString) (isRemote : Bool) :
    Act Result := do
  let g ← getGlobals
  if !g.analyzeGitingest && !g.analyzeRepomix then
    return .error "at least one analysis tool must be enabled".toList
  let mut hasErrors := false
  if g.analyzeGitingest then
    match ← runGitingestForAnalyze E absPath isRemote with
    | .panic => return .panic
    | .error _ => hasErrors := true
    | .nil => pure ()
  if (← getGlobals).analyzeRepomix then
    match ← runRepomixForAnalyze E cfg absPath isRemote with
    | .panic => return .panic
    | .error _ => hasErrors := true
    | .nil => pure ()
  if hasErrors then
    return .error "analysis completed with errors".toList
  return .nil

/-- Embedding of `runAnalyze`; `flags` are the flags of the command line (for
`cmd.Flags().Changed`), `args` the positional arguments. -/
def runAnalyze (E : Env) (cfg : Config) (flags : FlagArgs) (args : List GoString) :
    Act Result := do
  let g ← getGlobals
  let targetPath := args.headD g.analyzePath
  resolveAnalyze cfg flags
  let isRemote := isRemoteRepository targetPath
  let mut absPath : GoString := []
  if isRemote then
    absPath := targetPath
  else
    let st ← osStat E targetPath
    if st.isNotExist then
      return .error ("target path does not exist: ".toList ++ targetPath)
    match ← filepathAbs E targetPath with
    | .error err => return .error ("failed to get absolute path: ".toList ++ err)
    | .ok p => absPath := p
  match ← createOutputDir E (← getGlobals).analyzeOutput with
  | some err => return .error ("failed to create output directory: ".toList ++ err)
  | none => pure ()
  analyzeTools E cfg absPath isRemote

/-- The value of the `help` flag after parsing: the last value given, `false` when the flag
is absent. -/
def helpRequested (flags : FlagArgs) : Bool :=
  flags.foldl
    (fun acc f => if f.1 = "help".toList then (parseBool f.2).getD acc else acc) false

/-- The `analyze` command as `cobra` executes it: the flags are parsed into the variables,
a `help` flag that is true ends the execution with the help text and no error, the groups of
mutually exclusive flags are checked, then `RunE` runs. -/
def executeAnalyze (E : Env) (cfg : Config) (flags : FlagArgs) (args : List GoString) :
    Act Result := do
  match parseFlags analyzeSetFlag flags (← getGlobals) with
  | .error err => return .error err
  | .ok g =>
    setGlobals (fun _ => g)
    if helpRequested flags then
      return .nil
    match mutuallyExclusive flags "enable-gitingest" "disable-gitingest" with
    | some err => return .error err
    | none => pure ()
    match mutuallyExclusive flags "enable-repomix" "disable-repomix" with
    | some err => return .error err
    | none => pure ()
    runAnalyze E cfg flags args

/-! ## Sample environments -/

/-- An environment with an empty filesystem and no tools: nothing exists, directories can
be created, files cannot be read, no executable is found and every subprocess fails. -/
def bareEnv : Env where
  stat := fun _ _ => .notExist
  mkdirAll := fun _ _ => none
  writeFile := fun _ _ _ => none
  readFile := fun _ _ => .error "no such file or directory".toList
  getwd := fun _ => .ok "/work".toList
  abs := fun _ p => .ok ("/work/".toList ++ p)
  now := fun _ => "20240101_000000".toList
  lookPath := fun _ _ => false
  run := fun _ _ _ _ => ⟨some "executable file not found".toList, [], []⟩
  windows := false
  tempDir := "/tmp".toList
  join := fun parts => "/".toList.intercalate parts
  base := fun p => p
  dir := fun _ => ".".toList
  script := fun a b c => a ++ b ++ c
  jsonUnmarshal := fun _ => .error "unexpected end of JSON input".toList
  unicode := ⟨fun _ => false⟩

/-- An environment where every path exists as a directory and every tool fails to start. -/
def dirEnv : Env :=
  { bareEnv with stat := fun _ _ => .found true }

/-- An environment whose only file is the regular file `README.md`; else like `bareEnv`. -/
def fileEnv : Env :=
  { bareEnv with
    stat := fun _ p => if p = "README.md".toList then .found false else .notExist }

/-- The environment `fileEnv` as `os.Stat` sees it at a path below the file: the stat of
`README.md/x` fails with `ENOTDIR`, for which `os.IsNotExist` does not hold. -/
def notDirEnv : Env :=
  { bareEnv with
    stat := fun _ p =>
      if p = "README.md".toList then .found false
      else if p = "README.md/x".toList then .failed
      else .notExist }

/-- An environment like `dirEnv` in which `node` is the only executable that is found. -/
def nodeOnlyEnv : Env :=
  { dirEnv with lookPath := fun _ f => f == "node".toList }

/-- The decoded object of a gitingest run with `json_only` false. -/
def sampleResults : List (GoString × JSONValue) :=
  [("timestamp".toList, .string "T".toList), ("base_name".toList, .string "B".toList),
    ("summary".toList, .string "s".toList), ("tree".toList, .string "t".toList),
    ("content".toList, .string "c".toList), ("json_only".toList, .bool false),
    ("stats".toList, .object [])]

/-- An environment in which the gitingest script succeeds and its result file decodes to
`sampleResults`; every write succeeds. -/
def gitingestEnv : Env :=
  { bareEnv with
    run := fun _ _ _ _ => ⟨none, "GITINGEST_COMPLETED".toList, []⟩
    readFile := fun _ _ => .ok "data".toList
    jsonUnmarshal := fun _ => .ok sampleResults }

/-- The environment `gitingestEnv` with an output directory that cannot be written. -/
def readOnlyEnv : Env :=
  { gitingestEnv with writeFile := fun _ _ _ => some "permission denied".toList }

/-- The environment `gitingestEnv` with a disk that is full when the tree file is written:
that write fails, every other write succeeds. -/
def treeFailEnv : Env :=
  { gitingestEnv with
    writeFile := fun _ name _ =>
      if name = "output/B_tree_T.txt".toList then some "no space left on device".toList
      else none }

/-- An environment where the working directory and the output directory of `analyze` are
there and nothing else is: no virtual environment, no Node.js; else like `bareEnv`. -/
def homeEnv : Env :=
  { bareEnv with
    stat := fun _ p =>
      if p = ".".toList ∨ p = "analysis-results".toList then .found true else .notExist }

/-- An environment where both tools are ready: every path but the output directory of
`analyze` exists, the directory can be created, every executable is on `PATH`, and every
subprocess succeeds (as in `gitingestEnv`). -/
def readyEnv : Env :=
  { gitingestEnv with
    stat := fun _ p => if p = "analysis-results".toList then .notExist else .found true
    lookPath := fun _ _ => true }

/-! ## Definitions for the statements -/

/-- The temporary file of `runGitingestAnalysis`. -/
def gitingestTempFile (E : Env) : GoString :=
  E.join [E.tempDir, "gitingest_results.json".toList]

/-- The arguments with which `runGitingestAnalysis` starts Python. -/
def gitingestCommand (E : Env) (g : Globals) (targetPath : GoString) : List GoString :=
  ["-c".toList,
    E.script targetPath (if g.gitingestJSONOnly then "True".toList else "False".toList)
      (gitingestTempFile E)]

/-- The history of `runGitingestAnalysis` when the script has run with the interpreter `py`
from the state `m1` and the result file has been read. -/
def gitingestHistory (E : Env) (m1 : Machine) (py : GoString) (g : Globals)
    (targetPath : GoString) : List Event :=
  m1.trace
    ++ [Event.run py (gitingestCommand E g targetPath) [], Event.readFile (gitingestTempFile E)]

/-- The events that are calls of `os.WriteFile`. -/
def Event.isWriteFile : Event → Bool
  | .writeFile _ _ => true
  | _ => false

/-- The file writes that the spec lists for a decoded gitingest result, in order: unless
`json_only`, the summary, tree and content files with the cleaned fields; then the JSON
file. -/
def expectedWrites (E : Env) (output jsonData timestamp baseName summary tree content : GoString)
    (jsonOnly : Bool) : List Event :=
  (if jsonOnly then []
    else
      [Event.writeFile
          (E.join [output, baseName ++ "_summary_".toList ++ timestamp ++ ".txt".toList])
          (cleanTextForFile E.unicode summary),
        Event.writeFile
          (E.join [output, baseName ++ "_tree_".toList ++ timestamp ++ ".txt".toList])
          (cleanTextForFile E.unicode tree),
        Event.writeFile
          (E.join [output, baseName ++ "_content_".toList ++ timestamp ++ ".txt".toList])
          (cleanTextForFile E.unicode content)])
    ++ [Event.writeFile
          (E.join [output, baseName ++ "_results_".toList ++ timestamp ++ ".json".toList])
          (replaceAll (replaceAll jsonData [LS] escapedNewline) [PS] escapedNewline)]

/-- One file of a gitingest result, as the spec lists it: the name, the data, and the two
texts that precede the file name and the system error when its write fails (the text that
`runGitingestAnalysis` adds, then the text that `writeCleanFile` or `writeCleanJSONFile`
adds). -/
structure PlannedWrite where
  outer : GoString
  inner : GoString
  name : GoString
  data : GoString

/-- The `os.WriteFile` call of a planned write. -/
def PlannedWrite.event (w : PlannedWrite) : Event :=
  Event.writeFile w.name w.data

/-- The error with which the run ends when the planned write fails with the system error
`err`. -/
def PlannedWrite.failure (w : PlannedWrite) (err : GoString) : Result :=
  .error (w.outer ++ (w.inner ++ w.name ++ ": ".toList ++ err))

/-- The files that the spec lists for a decoded gitingest result, in order, each with its
error texts: unless `json_only`, the summary, tree and content files with the cleaned
fields; then the JSON file. -/
def plannedWrites (E : Env) (output jsonData timestamp baseName summary tree content : GoString)
    (jsonOnly : Bool) : List PlannedWrite :=
  (if jsonOnly then []
    else
      [{ outer := "failed to write summary file: ".toList
         inner := "failed to write file ".toList
         name := E.join [output, baseName ++ "_summary_".toList ++ timestamp ++ ".txt".toList]
         data := cleanTextForFile E.unicode summary },
        { outer := "failed to write tree file: ".toList
          inner := "failed to write file ".toList
          name := E.join [output, baseName ++ "_tree_".toList ++ timestamp ++ ".txt".toList]
          data := cleanTextForFile E.unicode tree },
        { outer := "failed to write content file: ".toList
          inner := "failed to write file ".toList
          name := E.join [output, baseName ++ "_content_".toList ++ timestamp ++ ".txt".toList]
          data := cleanTextForFile E.unicode content }])
    ++ [{ outer := "failed to write JSON file: ".toList
          inner := "failed to write JSON file ".toList
          name := E.join [output, baseName ++ "_results_".toList ++ timestamp ++ ".json".toList]
          data := replaceAll (replaceAll jsonData [LS] escapedNewline) [PS] escapedNewline }]

/-- The planned writes done one after the other from the history `h`, each only when the
ones before it succeeded: the result, which is the error of the first write that fails, and
the `os.WriteFile` calls made, of which that write is the last. -/
def writeInOrder (E : Env) : List Event → List PlannedWrite → Result × List Event
  | _, [] => (.nil, [])
  | h, w :: ws =>
    match E.writeFile h w.name w.data with
    | some err => (w.failure err, [w.event])
    | none =>
      ((writeInOrder E (h ++ [w.event]) ws).1, w.event :: (writeInOrder E (h ++ [w.event]) ws).2)

/-- The arguments that the spec says come first on the `npx` command line: `repomix`, the
remote (after `--remote`) or else the target path, then the forced style and the output. -/
def repomixHead (remote targetPath outputFile : GoString) : List GoString :=
  "repomix".toList :: (if remote ≠ [] then ["--remote".toList, remote] else [targetPath])
    ++ ["--style".toList, "markdown".toList, "--output".toList, outputFile]

/-- The optional arguments that `runRepomixAnalysis` appends after the output file. -/
def repomixOptions (g : Globals) : List GoString :=
  (if g.repomixIncludePatterns ≠ [] then ["--include".toList, g.repomixIncludePatterns] else [])
    ++ (if g.repomixIgnorePatterns ≠ [] then ["--ignore".toList, g.repomixIgnorePatterns]
      else [])
    ++ (if !g.repomixIncludeFileSummary then ["--no-file-summary".toList] else [])
    ++ (if !g.repomixIncludeDirectoryStructure then ["--no-directory-structure".toList] else [])
    ++ (if g.repomixShowLineNumbers then ["--output-show-line-numbers".toList] else [])
    ++ (if g.repomixOutputParsableFormat then ["--parsable-style".toList] else [])
    ++ (if g.repomixRemoveComments then ["--remove-comments".toList] else [])
    ++ (if g.repomixRemoveEmptyLines then ["--remove-empty-lines".toList] else [])
    ++ (if g.repomixTopFilesLength ≠ 5 then
        ["--top-files-len".toList, (toString g.repomixTopFilesLength).toList]
      else [])
    ++ (if g.repomixHeaderText ≠ [] then ["--header-text".toList, g.repomixHeaderText] else [])

/-- The output file of `runRepomixAnalysis` (lines 164 to 177) for a given timestamp. -/
def repomixOutputFile (E : Env) (g : Globals) (targetPath timestamp : GoString) : GoString :=
  E.join [g.repomixOutput,
    (if g.repomixRemote ≠ [] then
        replaceAll (replaceAll g.repomixRemote "/".toList "_".toList) ":".toList "_".toList
      else if E.base targetPath = ".".toList then "current".toList else E.base targetPath)
      ++ "_repomix_".toList ++ timestamp ++ ".md".toList]


/-- What the spec says `writeCleanJSONFile` writes: every U+2028 and every U+2029 becomes
backslash `n`, every other character stays, in order. -/
def escapeSeparators (content : GoString) : GoString :=
  content.flatMap (fun c => if c = LS ∨ c = PS then escapedNewline else [c])

/-- The characters the spec says `cleanTextForFile` keeps: newline, tab, carriage return. -/
def keptBySpec (c : Char) : Bool :=
  c == LF || c == TAB || c == CR

/-- Newline and tab. -/
def newlineOrTab (c : Char) : Bool :=
  c == LF || c == TAB

/-- The names of the two tool drivers of `analyze`, as they appear in `Event.call`. -/
def gitingestDriver : GoString := "runGitingestForAnalyze".toList

/-- See `gitingestDriver`. -/
def repomixDriver : GoString := "runRepomixForAnalyze".toList

/-- The events that a run of `analyze` with gitingest as its only tool can produce: the
system calls of the checks before the tool phase, the entry into the gitingest driver and
the system calls of the gitingest code.  A lookup on `PATH`, a reading of the clock, the
entry into another driver and a subprocess whose first argument is `repomix` are not among
them. -/
def Event.ofGitingestRun : Event → Bool
  | .stat _ | .abs _ | .mkdirAll _ | .getwd | .readFile _ | .writeFile _ _ | .remove _ => true
  | .run _ args _ => args.head? != some "repomix".toList
  | .call fn => fn == gitingestDriver
  | .lookPath _ | .now => false

/-- The events that a run of `analyze` with repomix as its only tool can produce: the system
calls of the checks before the tool phase, the entry into the repomix driver, the lookups
on `PATH`, the reading of the clock and the subprocess `npx repomix ...`.  The working
directory, a read, write or removal of a file, the entry into another driver and any other
subprocess are not among them. -/
def Event.ofRepomixRun : Event → Bool
  | .stat _ | .abs _ | .mkdirAll _ | .lookPath _ | .now => true
  | .run name args _ => name == "npx".toList && args.head? == some "repomix".toList
  | .call fn => fn == repomixDriver
  | .getwd | .readFile _ | .writeFile _ _ | .remove _ => false

/-- See `Event.ofGitingestRun`. -/
def GitingestOnly (e : Event) : Prop :=
  e.ofGitingestRun = true

/-- See `Event.ofRepomixRun`. -/
def RepomixOnly (e : Event) : Prop :=
  e.ofRepomixRun = true

/-- An event other than the entry into a function. -/
def NotCall (e : Event) : Prop :=
  ∀ fn, e ≠ Event.call fn

/-- The computation `x` only appends events that satisfy `P`, and it leaves the two tool
switches `analyzeGitingest` and `analyzeRepomix` as they are. -/
@[irreducible]
def Emits {α : Type} (P : Event → Prop) (x : Act α) : Prop :=
  ∀ m : Machine, ∃ evs : List Event,
    (x.run m).2.trace = m.trace ++ evs ∧ (∀ e ∈ evs, P e)
      ∧ (x.run m).2.globals.analyzeGitingest = m.globals.analyzeGitingest
      ∧ (x.run m).2.globals.analyzeRepomix = m.globals.analyzeRepomix

/-- The system error that stops the preparation of the output directory `d` at the history
`h`: the error of `os.MkdirAll`, which is called when `os.Stat` reports that `d` does not
exist; `none` when the directory is there or has been created. -/
def outputDirError (E : Env) (h : List Event) (d : GoString) : GoError :=
  if (E.stat h d).isNotExist then E.mkdirAll (h ++ [Event.stat d]) d else none

/-- The system calls of the preparation of the output directory `d` at the history `h`:
the stat, and the creation when the stat reports that `d` does not exist. -/
def outputDirEvents (E : Env) (h : List Event) (d : GoString) : List Event :=
  Event.stat d :: (if (E.stat h d).isNotExist then [Event.mkdirAll d] else [])

/-- The result is one of the three errors of `runAnalyze` that precede the tool phase. -/
def isPreToolError : Result → Bool
  | .error msg =>
    hasPrefix msg "target path does not exist: ".toList
      || hasPrefix msg "failed to get absolute path: ".toList
      || hasPrefix msg "failed to create output directory: ".toList
  | _ => false

/-- The command line `--enable-gitingest --disable-repomix`. -/
def onlyGitingest : FlagArgs :=
  [("enable-gitingest".toList, "true".toList), ("disable-repomix".toList, "true".toList)]

/-- The command line `--enable-repomix --disable-gitingest`. -/
def onlyRepomix : FlagArgs :=
  [("enable-repomix".toList, "true".toList), ("disable-gitingest".toList, "true".toList)]

/-- The command line `--disable-gitingest --disable-repomix`. -/
def noTool : FlagArgs :=
  [("disable-gitingest".toList, "true".toList), ("disable-repomix".toList, "true".toList)]

/-- The result of `analyze` from the result of its only tool. -/
def toolOutcome : Result → Result
  | .nil => .nil
  | .error _ => .error "analysis completed with errors".toList
  | .panic => .panic

/-- The interpreter of the virtual environment, from what the filesystem answers: the
environment of the container when `/app/.venv` is there, else `.venv` below the working
directory (or the relative `.venv` when that directory is unknown). -/
def venvPythonOf (E : Env) (inContainer : Bool) (cwd : Except GoString GoString) : GoString :=
  if E.windows then
    E.join [if inContainer then "/app/.venv".toList
        else match cwd with
          | .error _ => ".venv".toList
          | .ok c => E.join [c, ".venv".toList],
      "Scripts".toList, "python.exe".toList]
  else
    E.join [if inContainer then "/app/.venv".toList
        else match cwd with
          | .error _ => ".venv".toList
          | .ok c => E.join [c, ".venv".toList],
      "bin".toList, "python".toList]

/-- The system calls by which `getVenvPython` finds the interpreter. -/
def venvEvents (inContainer : Bool) : List Event :=
  Event.stat "/app/.venv".toList :: (if inContainer then [] else [Event.getwd])

/-- The interpreter `py` is there and has gitingest: its stat never reports it missing,
and its version command and its import of gitingest exit without error. -/
def PythonReady (E : Env) (py : GoString) : Prop :=
  (∀ h, (E.stat h py).isNotExist = false)
    ∧ (∀ h, (E.run h py ["--version".toList] []).err = none)
    ∧ (∀ h, (E.run h py
        ["-c".toList, "import gitingest; print(\x27gitingest available\x27)".toList] []).err
          = none)

/-- The lookups of `checkNodeAvailable` on a `PATH` that does not change: `npx`, then `npm`
when `npx` is not found, then `node` when `npm` is not found either. -/
def nodeLookups (path : GoString → Bool) : List Event :=
  Event.lookPath "npx".toList
    :: (if path "npx".toList then []
      else Event.lookPath "npm".toList
        :: (if path "npm".toList then [] else [Event.lookPath "node".toList]))

/-- The target is ready for the tools, which get the path `toolPath`: a remote target, passed
as it is, or a local target that `os.Stat` never reports missing and of which `filepath.Abs`
gives `toolPath`. -/
def TargetReady (E : Env) (target toolPath : GoString) : Prop :=
  (isRemoteRepository target = true ∧ toolPath = target)
    ∨ (isRemoteRepository target = false ∧ (∀ h, (E.stat h target).isNotExist = false)
      ∧ ∀ h, E.abs h target = .ok toolPath)

/-- The system calls of `runAnalyze` before the tool phase, from the history `h`, when no
check fails: for a local target its stat and `filepath.Abs`; then the output directory. -/
def preToolEvents (E : Env) (h : List Event) (target out : GoString) : List Event :=
  if isRemoteRepository target then outputDirEvents E h out
  else
    [Event.stat target, Event.abs target]
      ++ outputDirEvents E (h ++ [Event.stat target, Event.abs target]) out

/-- The output directory of `analyze` when no `--output` flag is given: the value of the
config when it is not empty, else the default of the flag. -/
def analyzeOutputDir (cfg : Config) : GoString :=
  if viperGetUnbound [] cfg.analyzeOutputDir ≠ [] then viperGetUnbound [] cfg.analyzeOutputDir
  else "analysis-results".toList

/-! ## Lemmas on `strings` -/

theorem isPrefixOf_single (a c : Char) (cs : GoString) :
    [a].isPrefixOf (c :: cs) = (a == c) := by
  simp [List.isPrefixOf]

theorem replaceAllAux_single (a : Char) (new s : GoString) :
    replaceAllAux [a] new 0 s = s.flatMap (fun c => if c = a then new else [c]) := by
  induction s with
  | nil => rfl
  | cons c cs ih =>
    by_cases h : c = a
    · subst h
      simp [replaceAllAux, List.isPrefixOf, ih]
    · have h2 : ¬ a = c := fun e => h e.symm
      simp [replaceAllAux, List.isPrefixOf, ih, h, h2]

theorem replaceAll_single (a : Char) (new s : GoString) :
    replaceAll s [a] new = s.flatMap (fun c => if c = a then new else [c]) := by
  simp [replaceAll, replaceAllAux_single]

theorem mem_replaceAllAux (old new : GoString) (x : Char) :
    ∀ (s : GoString) (k : Nat), x ∈ replaceAllAux old new k s → x ∈ s ∨ x ∈ new := by
  intro s
  induction s with
  | nil => intro k h; simp [replaceAllAux] at h
  | cons c cs ih =>
    intro k h
    cases k with
    | zero =>
      simp only [replaceAllAux] at h
      split at h
      · rcases List.mem_append.mp h with h1 | h1
        · exact Or.inr h1
        · rcases ih _ h1 with h2 | h2
          · exact Or.inl (List.mem_cons_of_mem _ h2)
          · exact Or.inr h2
      · rcases List.mem_cons.mp h with h1 | h1
        · exact Or.inl (h1 ▸ List.mem_cons_self _ _)
        · rcases ih _ h1 with h2 | h2
          · exact Or.inl (List.mem_cons_of_mem _ h2)
          · exact Or.inr h2
    | succ k =>
      simp only [replaceAllAux] at h
      rcases ih _ h with h2 | h2
      · exact Or.inl (List.mem_cons_of_mem _ h2)
      · exact Or.inr h2

theorem mem_replaceAll (s old new : GoString) (x : Char) (h : x ∈ replaceAll s old new) :
    x ∈ s ∨ x ∈ new := by
  cases old with
  | nil =>
    simp only [replaceAll, List.mem_append, List.mem_flatMap] at h
    rcases h with h | ⟨a, ha, h⟩
    · exact Or.inr h
    · rcases List.mem_cons.mp h with h1 | h1
      · exact Or.inl (h1 ▸ ha)
      · exact Or.inr h1
  | cons o os => exact mem_replaceAllAux _ _ _ _ _ h

/-- A character absent from the input and from the replacement is absent from the result. -/
theorem absent_step {s old new : GoString} {x : Char} (hn : x ∉ new) (hs : x ∉ s) :
    x ∉ replaceAll s old new := by
  intro h
  rcases mem_replaceAll _ _ _ _ h with h1 | h1
  · exact hs h1
  · exact hn h1

/-- Replacing a single character by a text without it removes the character. -/
theorem absent_single {s new : GoString} {x : Char} (hn : x ∉ new) :
    x ∉ replaceAll s [x] new := by
  rw [replaceAll_single]
  intro h
  rcases List.mem_flatMap.mp h with ⟨c, _, hc⟩
  by_cases e : c = x
  · rw [if_pos e] at hc
    exact hn hc
  · rw [if_neg e] at hc
    exact e (List.mem_singleton.mp hc).symm

/-! ## Text cleanup -/

theorem cleanTextContent_absent (content : GoString) :
    CR ∉ cleanTextContent content ∧ LS ∉ cleanTextContent content
      ∧ PS ∉ cleanTextContent content ∧ ZWSP ∉ cleanTextContent content
      ∧ ZWNJ ∉ cleanTextContent content ∧ ZWJ ∉ cleanTextContent content
      ∧ BOM ∉ cleanTextContent content := by
  unfold cleanTextContent
  refine ⟨?_, ?_, ?_, ?_, ?_, ?_, ?_⟩
  · exact absent_single (by decide)
  · exact absent_step (by decide) (absent_step (by decide) (absent_step (by decide)
      (absent_step (by decide) (absent_step (by decide) (absent_step (by decide)
      (absent_step (by decide) (absent_single (by decide))))))))
  · exact absent_step (by decide) (absent_step (by decide) (absent_step (by decide)
      (absent_step (by decide) (absent_step (by decide) (absent_step (by decide)
      (absent_single (by decide)))))))
  · exact absent_step (by decide) (absent_step (by decide) (absent_step (by decide)
      (absent_step (by decide) (absent_step (by decide) (absent_single (by decide))))))
  · exact absent_step (by decide) (absent_step (by decide) (absent_step (by decide)
      (absent_step (by decide) (absent_single (by decide)))))
  · exact absent_step (by decide) (absent_step (by decide) (absent_step (by decide)
      (absent_single (by decide))))
  · exact absent_step (by decide) (absent_step (by decide) (absent_single (by decide)))

/-- C1: the result of `cleanTextContent` contains none of CR, U+2028, U+2029, U+200B,
U+200C, U+200D and U+FEFF, whatever the input. -/
theorem cleanTextContent_removes_unusual (content : GoString) :
    CR ∉ cleanTextContent content ∧ LS ∉ cleanTextContent content
      ∧ PS ∉ cleanTextContent content ∧ ZWSP ∉ cleanTextContent content
      ∧ ZWNJ ∉ cleanTextContent content ∧ ZWJ ∉ cleanTextContent content
      ∧ BOM ∉ cleanTextContent content :=
  cleanTextContent_absent content

/-- What the rune loop lets through: the rune itself when printable, newline, tab or space,
a space otherwise. -/
theorem mem_cleanRune {T : UnicodeTables} {r c : Char} (h : c ∈ cleanRune T r) :
    (c = r ∧ (isPrint T c = true ∨ c = LF ∨ c = TAB)) ∨ c = SP := by
  unfold cleanRune at h
  split at h
  · rename_i hk
    have e : c = r := List.mem_singleton.mp h
    subst e
    simp only [Bool.or_eq_true, beq_iff_eq] at hk
    rcases hk with ((hk | hk) | hk) | hk
    · exact Or.inl ⟨rfl, Or.inl hk⟩
    · exact Or.inl ⟨rfl, Or.inr (Or.inl hk)⟩
    · exact Or.inl ⟨rfl, Or.inr (Or.inr hk)⟩
    · exact Or.inr hk
  · split at h
    · exact Or.inr (List.mem_singleton.mp h)
    · simp at h

theorem isPrint_SP (T : UnicodeTables) : isPrint T SP = true := rfl

/-- A printable character is not a control character. -/
theorem not_isControl_of_isPrint {T : UnicodeTables} {c : Char} (h : isPrint T c = true) :
    isControl c = false := by
  unfold isPrint at h
  unfold isControl
  split at h
  · simp only [Bool.or_eq_true, Bool.and_eq_true, decide_eq_true_eq] at h
    simp only [Bool.or_eq_false_iff, Bool.and_eq_false_iff, decide_eq_false_iff_not]
    omega
  · simp only [Bool.or_eq_false_iff, Bool.and_eq_false_iff, decide_eq_false_iff_not]
    omega

/-- C2: every character of the result of `cleanTextForFile`, which is the text that
`writeCleanFile` hands to `os.WriteFile`, is printable (`unicode.IsPrint`) or a newline or
a tab. -/
theorem cleanTextForFile_printable (E : Env) (filename content : GoString) (m : Machine) :
    ((writeCleanFile E filename content).run m).2.trace
        = m.trace ++ [Event.writeFile filename (cleanTextForFile E.unicode content)]
      ∧ ∀ c ∈ cleanTextForFile E.unicode content,
          isPrint E.unicode c = true ∨ c = LF ∨ c = TAB := by
  constructor
  · simp only [writeCleanFile, osWriteFile, perform, bind, StateT.bind, StateT.run]
    cases E.writeFile m.trace filename (cleanTextForFile E.unicode content) <;> rfl
  · intro c hc
    rcases List.mem_flatMap.mp hc with ⟨r, _, hr⟩
    rcases mem_cleanRune hr with ⟨_, h⟩ | h
    · exact h
    · exact Or.inl (h ▸ isPrint_SP _)

/-- Instance of C2 at the text `a`, CR. -/
theorem cleanTextForFile_printable_witness :
    'a' ∈ cleanTextForFile bareEnv.unicode ['a', CR]
      ∧ (isPrint bareEnv.unicode 'a' = true ∨ 'a' = LF ∨ 'a' = TAB) :=
  ⟨by decide, (cleanTextForFile_printable bareEnv [] ['a', CR] {}).2 'a' (by decide)⟩

/-! ### Newlines, tabs and carriage returns -/

theorem keep_single {a : Char} (ha : newlineOrTab a = false) (new s : GoString) :
    (s.filter newlineOrTab).Sublist ((replaceAll s [a] new).filter newlineOrTab) := by
  rw [replaceAll_single]
  induction s with
  | nil => simp
  | cons c cs ih =>
    by_cases e : c = a
    · subst e
      simp only [List.filter_cons, ha, List.flatMap_cons, if_true, List.filter_append]
      exact ih.trans (List.sublist_append_right _ _)
    · simp only [List.flatMap_cons, if_neg e, List.singleton_append, List.filter_cons]
      split
      · exact ih.cons₂ _
      · exact ih

theorem keep_crlf_aux : ∀ (s : GoString) (k : Nat),
    ((s.drop k).filter newlineOrTab).Sublist
      ((replaceAllAux [CR, LF] [LF] k s).filter newlineOrTab) := by
  intro s
  induction s with
  | nil => intro k; simp [replaceAllAux]
  | cons c cs ih =>
    intro k
    cases k with
    | succ k => simpa [replaceAllAux] using ih k
    | zero =>
      simp only [replaceAllAux, List.drop_zero]
      split
      · rename_i hp
        cases cs with
        | nil => simp [List.isPrefixOf] at hp
        | cons d ds =>
          simp only [List.isPrefixOf, Bool.and_eq_true, beq_iff_eq, Bool.and_true] at hp
          obtain ⟨h1, h2⟩ := hp
          subst h1 h2
          have h := ih 1
          simp only [List.drop_succ_cons, List.drop_zero] at h
          have e1 : (CR :: LF :: ds).filter newlineOrTab = LF :: ds.filter newlineOrTab := by
            simp [List.filter_cons, show newlineOrTab CR = false from rfl,
              show newlineOrTab LF = true from rfl]
          have e2 : ([LF] ++ replaceAllAux [CR, LF] [LF] ([CR, LF].length - 1) (LF :: ds)).filter
              newlineOrTab
              = LF :: (replaceAllAux [CR, LF] [LF] 1 (LF :: ds)).filter newlineOrTab := by
            simp [List.filter_cons, show newlineOrTab LF = true from rfl]
          rw [e1, e2]
          exact h.cons₂ _
      · have h := ih 0
        simp only [List.drop_zero] at h
        simp only [List.filter_cons]
        split
        · exact h.cons₂ _
        · exact h

theorem keep_crlf (s : GoString) :
    (s.filter newlineOrTab).Sublist ((replaceAll s [CR, LF] [LF]).filter newlineOrTab) := by
  simpa [replaceAll] using keep_crlf_aux s 0

theorem keep_cleanRune (T : UnicodeTables) (s : GoString) :
    (s.filter newlineOrTab).Sublist (s.flatMap (cleanRune T)) := by
  induction s with
  | nil => simp
  | cons c cs ih =>
    simp only [List.flatMap_cons, List.filter_cons]
    split
    · rename_i hk
      have e : cleanRune T c = [c] := by
        unfold newlineOrTab at hk
        simp only [Bool.or_eq_true, beq_iff_eq] at hk
        unfold cleanRune
        rcases hk with hk | hk <;> simp [hk]
      rw [e]
      exact ih.cons₂ _
    · exact ih.trans (List.sublist_append_right _ _)

theorem keep_cleanTextForFile (T : UnicodeTables) (content : GoString) :
    (content.filter newlineOrTab).Sublist (cleanTextForFile T content) := by
  unfold cleanTextForFile cleanTextContent
  refine List.Sublist.trans ?_ (keep_cleanRune T _)
  dsimp only
  refine (keep_single (a := LS) (by decide) [LF] content).trans ?_
  refine (keep_single (a := PS) (by decide) [LF] _).trans ?_
  refine (keep_single (a := ZWSP) (by decide) [] _).trans ?_
  refine (keep_single (a := ZWNJ) (by decide) [] _).trans ?_
  refine (keep_single (a := ZWJ) (by decide) [] _).trans ?_
  refine (keep_single (a := BOM) (by decide) [] _).trans ?_
  refine (keep_crlf _).trans ?_
  exact keep_single (a := CR) (by decide) [LF] _

/-- C3, as stated, fails: a carriage return of the input is not kept; the text made of one
CR is cleaned to one LF. -/
theorem cleanTextForFile_drops_CR :
    ¬ ∀ (T : UnicodeTables) (content : GoString),
      (content.filter keptBySpec).Sublist (cleanTextForFile T content) := by
  intro h
  have h1 := h ⟨fun _ => false⟩ [CR]
  have h2 : CR ∈ cleanTextForFile ⟨fun _ => false⟩ [CR] := h1.subset (by decide)
  exact absurd h2 (by decide)

/-- C3, amended: every newline and tab of the input is kept as that character, in order;
the only control characters of the result are newline and tab; no carriage return is
kept. -/
theorem cleanTextForFile_keeps_newline_tab (T : UnicodeTables) (content : GoString) :
    (content.filter newlineOrTab).Sublist (cleanTextForFile T content)
      ∧ (∀ c ∈ cleanTextForFile T content, isControl c = true → c = LF ∨ c = TAB)
      ∧ CR ∉ cleanTextForFile T content := by
  refine ⟨keep_cleanTextForFile T content, ?_, ?_⟩
  · intro c hc hctl
    rcases List.mem_flatMap.mp hc with ⟨r, _, hr⟩
    rcases mem_cleanRune hr with ⟨_, h | h⟩ | h
    · rw [not_isControl_of_isPrint h] at hctl
      exact absurd hctl (by decide)
    · exact h
    · rw [h] at hctl
      exact absurd hctl (by decide)
  · intro hc
    rcases List.mem_flatMap.mp hc with ⟨r, hr, hcr⟩
    rcases mem_cleanRune hcr with ⟨e, _⟩ | h
    · exact (cleanTextContent_absent content).1 (e ▸ hr)
    · exact absurd h (by decide)

/-- Instance of amended C3 at the text LF, VT, TAB, CR: the vertical tab becomes a space. -/
theorem cleanTextForFile_keeps_newline_tab_witness :
    LF ∈ cleanTextForFile ⟨fun _ => false⟩ [LF, Char.ofNat 0x0B, TAB, CR]
      ∧ isControl LF = true ∧ (LF = LF ∨ LF = TAB) :=
  ⟨by decide, by decide,
    (cleanTextForFile_keeps_newline_tab ⟨fun _ => false⟩ [LF, Char.ofNat 0x0B, TAB, CR]).2.1
      LF (by decide) (by decide)⟩

/-! ### JSON files -/

theorem cleanJSON_eq (content : GoString) :
    replaceAll (replaceAll content [LS] escapedNewline) [PS] escapedNewline
      = escapeSeparators content := by
  rw [replaceAll_single, replaceAll_single, List.flatMap_assoc]
  unfold escapeSeparators
  congr 1
  funext c
  by_cases h1 : c = LS
  · subst h1
    simp only [if_true, true_or]
    decide
  · by_cases h2 : c = PS
    · subst h2
      simp only [if_neg h1, if_true, or_true, List.flatMap_cons, List.flatMap_nil,
        List.append_nil]
    · simp [h1, h2]

theorem escapeSeparators_absent (content : GoString) :
    LS ∉ escapeSeparators content ∧ PS ∉ escapeSeparators content := by
  constructor <;>
  · intro h
    rcases List.mem_flatMap.mp h with ⟨c, _, hc⟩
    split at hc
    · exact absurd hc (by decide)
    · rename_i hn
      have e := List.mem_singleton.mp hc
      subst e
      simp at hn

theorem escapeSeparators_id (content : GoString) (h1 : LS ∉ content) (h2 : PS ∉ content) :
    escapeSeparators content = content := by
  unfold escapeSeparators
  induction content with
  | nil => rfl
  | cons c cs ih =>
    have hc : ¬ (c = LS ∨ c = PS) := by
      rintro (e | e)
      · exact h1 (e ▸ List.mem_cons_self _ _)
      · exact h2 (e ▸ List.mem_cons_self _ _)
    simp only [List.flatMap_cons, if_neg hc, List.singleton_append]
    rw [ih (fun h => h1 (List.mem_cons_of_mem _ h)) (fun h => h2 (List.mem_cons_of_mem _ h))]

/-- C4: the content that `writeCleanJSONFile` hands to `os.WriteFile` is the input with each
U+2028 and each U+2029 replaced by backslash `n` and every other character unchanged and
in order; it contains neither separator, and it is the input when the input has neither. -/
theorem writeCleanJSONFile_writes (E : Env) (filename content : GoString) (m : Machine) :
    ((writeCleanJSONFile E filename content).run m).2.trace
        = m.trace ++ [Event.writeFile filename (escapeSeparators content)]
      ∧ LS ∉ escapeSeparators content ∧ PS ∉ escapeSeparators content
      ∧ (LS ∉ content → PS ∉ content → escapeSeparators content = content) := by
  refine ⟨?_, (escapeSeparators_absent content).1, (escapeSeparators_absent content).2,
    escapeSeparators_id content⟩
  simp only [writeCleanJSONFile, osWriteFile, perform, bind, StateT.bind, StateT.run,
    cleanJSON_eq]
  cases E.writeFile m.trace filename (escapeSeparators content) <;> rfl

/-- Instance of C4 at a text with CR, LF and a zero-width space and no separator: it is
written unchanged. -/
theorem writeCleanJSONFile_writes_witness :
    LS ∉ ['a', CR, LF, ZWSP] ∧ PS ∉ ['a', CR, LF, ZWSP]
      ∧ escapeSeparators ['a', CR, LF, ZWSP] = ['a', CR, LF, ZWSP] :=
  ⟨by decide, by decide,
    (writeCleanJSONFile_writes bareEnv [] ['a', CR, LF, ZWSP] {}).2.2.2 (by decide)
      (by decide)⟩

/-! ## Classification of the target -/

theorem hasPrefix_iff (s pre : GoString) : hasPrefix s pre = true ↔ pre <+: s := by
  simp [hasPrefix, List.isPrefixOf_iff_prefix]

theorem containsAux_single (a : Char) (s : GoString) : containsAux [a] s = true ↔ a ∈ s := by
  induction s with
  | nil => simp [containsAux]
  | cons c cs ih =>
    simp only [containsAux, Bool.or_eq_true, ih, isPrefixOf_single, beq_iff_eq,
      List.mem_cons]

theorem contains_single (a : Char) (s : GoString) : contains s [a] = true ↔ a ∈ s := by
  simp [contains, containsAux_single]

theorem countAux_single (a : Char) (s : GoString) : countAux [a] 0 s = s.count a := by
  induction s with
  | nil => rfl
  | cons c cs ih =>
    by_cases h : c = a
    · subst h
      simp [countAux, List.isPrefixOf, ih, Nat.add_comm]
    · have h2 : ¬ a = c := fun e => h e.symm
      simp [countAux, List.isPrefixOf, ih, h, h2, List.count_cons]

theorem count_single (a : Char) (s : GoString) : count s [a] = s.count a := by
  simp [count, countAux_single]

/-- C5: a path that starts with `https://` or `http://` is classified as remote. -/
theorem isRemoteRepository_url (path : GoString)
    (h : "https://".toList <+: path ∨ "http://".toList <+: path) :
    isRemoteRepository path = true := by
  unfold isRemoteRepository
  rw [if_pos]
  simpa only [Bool.or_eq_true, hasPrefix_iff] using h

/-- Instance of C5 at `http://example.org/a/b.git`. -/
theorem isRemoteRepository_url_witness :
    ("https://".toList <+: "http://example.org/a/b.git".toList
        ∨ "http://".toList <+: "http://example.org/a/b.git".toList)
      ∧ isRemoteRepository "http://example.org/a/b.git".toList = true :=
  ⟨Or.inr ⟨"example.org/a/b.git".toList, by decide⟩,
    isRemoteRepository_url _ (Or.inr ⟨"example.org/a/b.git".toList, by decide⟩)⟩

/-- C6: a path that starts with neither `https://` nor `http://` is classified as remote
exactly when it does not start with `./`, `/` or `../`, contains exactly one `/` and
contains no `.`; so every path starting with `./`, `/` or `../` is local. -/
theorem isRemoteRepository_shorthand (path : GoString)
    (h : ¬ ("https://".toList <+: path ∨ "http://".toList <+: path)) :
    (isRemoteRepository path = true ↔
        ¬ ("./".toList <+: path ∨ "/".toList <+: path ∨ "../".toList <+: path)
          ∧ path.count '/' = 1 ∧ '.' ∉ path)
      ∧ (("./".toList <+: path ∨ "/".toList <+: path ∨ "../".toList <+: path) →
          isRemoteRepository path = false) := by
  have h0 : ¬ ((hasPrefix path "https://".toList || hasPrefix path "http://".toList) = true) := by
    simpa only [Bool.or_eq_true, hasPrefix_iff] using h
  have hl : ((hasPrefix path "./".toList || hasPrefix path "/".toList
      || hasPrefix path "../".toList) = true)
      ↔ ("./".toList <+: path ∨ "/".toList <+: path ∨ "../".toList <+: path) := by
    simp only [Bool.or_eq_true, hasPrefix_iff, or_assoc]
  have e1 : "/".toList = ['/'] := rfl
  have e2 : ".".toList = ['.'] := rfl
  unfold isRemoteRepository
  rw [if_neg h0]
  constructor
  · by_cases hp : "./".toList <+: path ∨ "/".toList <+: path ∨ "../".toList <+: path
    · rw [if_pos (hl.mpr hp)]
      constructor
      · intro hh
        exact absurd hh (by decide)
      · intro hh
        exact absurd hp hh.1
    · rw [if_neg (fun hh => hp (hl.mp hh))]
      rw [e1, e2, count_single]
      constructor
      · intro hh
        split at hh
        · rename_i hc
          simp only [Bool.and_eq_true, beq_iff_eq, Bool.not_eq_true', contains_single] at hc
          refine ⟨hp, hc.1.2, ?_⟩
          intro hm
          have := (contains_single '.' path).mpr hm
          rw [this] at hc
          exact absurd hc.2 (by decide)
        · exact absurd hh (by decide)
      · rintro ⟨_, hcnt, hdot⟩
        have hs : contains path ['/'] = true :=
          (contains_single '/' path).mpr (List.count_pos_iff.mp (by omega))
        have hd : contains path ['.'] = false := by
          cases hv : contains path ['.'] with
          | false => rfl
          | true => exact absurd ((contains_single '.' path).mp hv) hdot
        simp [hs, hd, hcnt]
  · intro hp
    rw [if_pos (hl.mpr hp)]

/-- Instance of C6 at `user/repo`, which is remote, with the premises checked. -/
theorem isRemoteRepository_shorthand_witness :
    ¬ ("https://".toList <+: "user/repo".toList ∨ "http://".toList <+: "user/repo".toList)
      ∧ (isRemoteRepository "user/repo".toList = true ↔
        ¬ ("./".toList <+: "user/repo".toList ∨ "/".toList <+: "user/repo".toList
            ∨ "../".toList <+: "user/repo".toList)
          ∧ "user/repo".toList.count '/' = 1 ∧ '.' ∉ "user/repo".toList) :=
  ⟨by decide, (isRemoteRepository_shorthand "user/repo".toList (by decide)).1⟩

/-! ## Events of the functions -/

theorem Emits.pure {α : Type} {P : Event → Prop} (a : α) : Emits P (Pure.pure a : Act α) := by
  unfold Emits
  exact fun _ => ⟨[], by simp [StateT.run, Pure.pure, StateT.pure], by simp, rfl, rfl⟩

theorem Emits.bind {α β : Type} {P : Event → Prop} {x : Act α} {f : α → Act β}
    (hx : Emits P x) (hf : ∀ a, Emits P (f a)) : Emits P (x >>= f) := by
  unfold Emits at hx hf ⊢
  intro m
  obtain ⟨e1, h1, p1, g1, r1⟩ := hx m
  obtain ⟨e2, h2, p2, g2, r2⟩ := hf (x.run m).1 (x.run m).2
  refine ⟨e1 ++ e2, ?_, ?_, ?_, ?_⟩
  · show ((f (x.run m).1).run (x.run m).2).2.trace = _
    rw [h2, h1, List.append_assoc]
  · intro e he
    rcases List.mem_append.mp he with h | h
    · exact p1 e h
    · exact p2 e h
  · show ((f (x.run m).1).run (x.run m).2).2.globals.analyzeGitingest = _
    rw [g2, g1]
  · show ((f (x.run m).1).run (x.run m).2).2.globals.analyzeRepomix = _
    rw [r2, r1]

theorem Emits.perform {α : Type} {P : Event → Prop} (e : Event) (ans : List Event → α)
    (h : P e) : Emits P (perform e ans) := by
  unfold Emits
  exact fun _ => ⟨[e], rfl, by simpa using h, rfl, rfl⟩

theorem Emits.getGlobals {P : Event → Prop} : Emits P getGlobals := by
  unfold Emits
  exact fun _ => ⟨[], by simp [StateT.run, RA.getGlobals], by simp, rfl, rfl⟩

theorem Emits.setGlobals {P : Event → Prop} (f : Globals → Globals)
    (h1 : ∀ g, (f g).analyzeGitingest = g.analyzeGitingest)
    (h2 : ∀ g, (f g).analyzeRepomix = g.analyzeRepomix) : Emits P (setGlobals f) := by
  unfold Emits
  exact fun m => ⟨[], by simp [StateT.run, RA.setGlobals], by simp, h1 m.globals, h2 m.globals⟩

theorem Emits.mono {α : Type} {P Q : Event → Prop} {x : Act α} (h : Emits P x)
    (hPQ : ∀ e, P e → Q e) : Emits Q x := by
  unfold Emits at h ⊢
  intro m
  obtain ⟨evs, h1, h2, h3, h4⟩ := h m
  exact ⟨evs, h1, fun e he => hPQ e (h2 e he), h3, h4⟩

theorem createOutputDir_emits (E : Env) (d : GoString) :
    Emits NotCall (createOutputDir E d) := by
  unfold createOutputDir osStat osMkdirAll
  repeat' first
    | with_reducible apply Emits.pure
    | with_reducible apply Emits.perform
    | with_reducible apply Emits.getGlobals
    | with_reducible apply Emits.bind
    | dsimp only
    | split
    | intro _
  all_goals contradiction

theorem getVenvPython_emits (E : Env) :
    Emits NotCall (getVenvPython E) := by
  unfold getVenvPython getVenvPath osStat osGetwd
  repeat' first
    | with_reducible apply Emits.pure
    | with_reducible apply Emits.perform
    | with_reducible apply Emits.getGlobals
    | with_reducible apply Emits.bind
    | dsimp only
    | split
    | intro _
  all_goals contradiction

theorem checkPythonAvailable_emits (E : Env) :
    Emits NotCall (checkPythonAvailable E) := by
  unfold checkPythonAvailable osStat execRun
  repeat' first
    | with_reducible apply getVenvPython_emits
    | with_reducible apply Emits.pure
    | with_reducible apply Emits.perform
    | with_reducible apply Emits.getGlobals
    | with_reducible apply Emits.bind
    | dsimp only
    | split
    | intro _
  all_goals contradiction

theorem checkGitingestAvailable_emits (E : Env) :
    Emits NotCall (checkGitingestAvailable E) := by
  unfold checkGitingestAvailable osStat execRun
  repeat' first
    | with_reducible apply getVenvPython_emits
    | with_reducible apply Emits.pure
    | with_reducible apply Emits.perform
    | with_reducible apply Emits.getGlobals
    | with_reducible apply Emits.bind
    | dsimp only
    | split
    | intro _
  all_goals contradiction

theorem writeCleanFile_emits (E : Env) (f c : GoString) :
    Emits NotCall (writeCleanFile E f c) := by
  unfold writeCleanFile osWriteFile
  repeat' first
    | with_reducible apply Emits.pure
    | with_reducible apply Emits.perform
    | with_reducible apply Emits.getGlobals
    | with_reducible apply Emits.bind
    | dsimp only
    | split
    | intro _
  all_goals contradiction

theorem writeCleanJSONFile_emits (E : Env) (f c : GoString) :
    Emits NotCall (writeCleanJSONFile E f c) := by
  unfold writeCleanJSONFile osWriteFile
  repeat' first
    | with_reducible apply Emits.pure
    | with_reducible apply Emits.perform
    | with_reducible apply Emits.getGlobals
    | with_reducible apply Emits.bind
    | dsimp only
    | split
    | intro _
  all_goals contradiction

theorem writeGitingestResults_emits (E : Env) (j t b s tr c : GoString) (o : Bool) :
    Emits NotCall (writeGitingestResults E j t b s tr c o) := by
  unfold writeGitingestResults
  repeat' first
    | with_reducible apply writeCleanFile_emits
    | with_reducible apply writeCleanJSONFile_emits
    | with_reducible apply Emits.pure
    | with_reducible apply Emits.perform
    | with_reducible apply Emits.getGlobals
    | with_reducible apply Emits.bind
    | dsimp only
    | split
    | intro _

theorem runGitingestAnalysis_emits (E : Env) (p : GoString) :
    Emits NotCall (runGitingestAnalysis E p) := by
  unfold runGitingestAnalysis runGitingestAnalysisBody osReadFile osRemove execRun
  repeat' first
    | with_reducible apply getVenvPython_emits
    | with_reducible apply writeGitingestResults_emits
    | with_reducible apply Emits.pure
    | with_reducible apply Emits.perform
    | with_reducible apply Emits.getGlobals
    | with_reducible apply Emits.bind
    | dsimp only
    | split
    | intro _
  all_goals contradiction

theorem checkNodeAvailable_emits (E : Env) : Emits NotCall (checkNodeAvailable E) := by
  unfold checkNodeAvailable execLookPath
  repeat' first
    | rfl
    | with_reducible apply Emits.pure
    | with_reducible apply Emits.perform
    | with_reducible apply Emits.getGlobals
    | with_reducible apply Emits.setGlobals
    | with_reducible apply Emits.bind
    | dsimp only
    | split
    | intro _
  all_goals contradiction

theorem runRepomixAnalysis_emits (E : Env) (p : GoString) :
    Emits NotCall (runRepomixAnalysis E p) := by
  unfold runRepomixAnalysis getTimestamp osStat execRun
  repeat' first
    | rfl
    | with_reducible apply Emits.pure
    | with_reducible apply Emits.perform
    | with_reducible apply Emits.getGlobals
    | with_reducible apply Emits.setGlobals
    | with_reducible apply Emits.bind
    | dsimp only
    | split
    | intro _
  all_goals contradiction

/-- A computation that starts with an event `e` and goes on with computations that emit
only events satisfying `P`. -/
theorem after_perform_events {α β : Type} {P : Event → Prop} (e : Event)
    (ans : List Event → α) {f : α → Act β} (hf : ∀ a, Emits P (f a)) (m : Machine) :
    ∃ evs : List Event,
      ((perform e ans >>= f).run m).2.trace = m.trace ++ e :: evs ∧ (∀ x ∈ evs, P x)
        ∧ ((perform e ans >>= f).run m).2.globals.analyzeGitingest = m.globals.analyzeGitingest
        ∧ ((perform e ans >>= f).run m).2.globals.analyzeRepomix = m.globals.analyzeRepomix := by
  have h := hf (ans m.trace)
  unfold Emits at h
  obtain ⟨evs, h1, h2, h3, h4⟩ := h { m with trace := m.trace ++ [e] }
  refine ⟨evs, ?_, h2, ?_, ?_⟩
  · show ((f (ans m.trace)).run { m with trace := m.trace ++ [e] }).2.trace = _
    rw [h1]
    simp
  · exact h3
  · exact h4

/-- The gitingest driver records its entry and then emits no further entry. -/
theorem runGitingestForAnalyze_events (E : Env) (p : GoString) (r : Bool) (m : Machine) :
    ∃ evs : List Event,
      ((runGitingestForAnalyze E p r).run m).2.trace
          = m.trace ++ Event.call gitingestDriver :: evs
        ∧ (∀ x ∈ evs, NotCall x)
        ∧ ((runGitingestForAnalyze E p r).run m).2.globals.analyzeGitingest
            = m.globals.analyzeGitingest
        ∧ ((runGitingestForAnalyze E p r).run m).2.globals.analyzeRepomix
            = m.globals.analyzeRepomix := by
  unfold runGitingestForAnalyze
  apply after_perform_events
  repeat' first
    | rfl
    | with_reducible apply checkPythonAvailable_emits
    | with_reducible apply checkGitingestAvailable_emits
    | with_reducible apply runGitingestAnalysis_emits
    | with_reducible apply Emits.pure
    | with_reducible apply Emits.perform
    | with_reducible apply Emits.getGlobals
    | with_reducible apply Emits.setGlobals
    | with_reducible apply Emits.bind
    | dsimp only
    | split
    | intro _

/-- The repomix driver records its entry and then emits no further entry. -/
theorem runRepomixForAnalyze_events (E : Env) (cfg : Config) (p : GoString) (r : Bool)
    (m : Machine) :
    ∃ evs : List Event,
      ((runRepomixForAnalyze E cfg p r).run m).2.trace
          = m.trace ++ Event.call repomixDriver :: evs
        ∧ (∀ x ∈ evs, NotCall x)
        ∧ ((runRepomixForAnalyze E cfg p r).run m).2.globals.analyzeGitingest
            = m.globals.analyzeGitingest
        ∧ ((runRepomixForAnalyze E cfg p r).run m).2.globals.analyzeRepomix
            = m.globals.analyzeRepomix := by
  unfold runRepomixForAnalyze
  apply after_perform_events
  repeat' first
    | rfl
    | with_reducible apply checkNodeAvailable_emits
    | with_reducible apply runRepomixAnalysis_emits
    | with_reducible apply Emits.pure
    | with_reducible apply Emits.perform
    | with_reducible apply Emits.getGlobals
    | with_reducible apply Emits.setGlobals
    | with_reducible apply Emits.bind
    | dsimp only
    | split
    | intro _

/-! ## Running a computation -/

theorem run_bind {α β : Type} (x : Act α) (f : α → Act β) (m : Machine) :
    (x >>= f).run m = (f (x.run m).1).run (x.run m).2 := rfl

theorem run_pure {α : Type} (a : α) (m : Machine) : (pure a : Act α).run m = (a, m) := rfl

theorem run_getGlobals (m : Machine) : getGlobals.run m = (m.globals, m) := rfl

theorem run_setGlobals (f : Globals → Globals) (m : Machine) :
    (setGlobals f).run m = ((), { m with globals := f m.globals }) := rfl

theorem run_perform {α : Type} (e : Event) (ans : List Event → α) (m : Machine) :
    (perform e ans).run m = (ans m.trace, { m with trace := m.trace ++ [e] }) := rfl

theorem run_ite {α : Type} (c : Prop) [Decidable c] (x y : Act α) (m : Machine) :
    (if c then x else y).run m = if c then x.run m else y.run m := by
  split <;> rfl

/-! ## The `analyze` command -/

theorem resolveOutput_run (cfg : Config) (flags : FlagArgs) (m : Machine) :
    ((resolveOutput cfg flags).run m).2.trace = m.trace
      ∧ ((resolveOutput cfg flags).run m).2.globals.analyzeGitingest
          = m.globals.analyzeGitingest
      ∧ ((resolveOutput cfg flags).run m).2.globals.analyzeRepomix
          = m.globals.analyzeRepomix := by
  simp only [resolveOutput, run_bind, run_ite, run_pure, run_setGlobals, run_getGlobals]
  split_ifs <;> exact ⟨rfl, rfl, rfl⟩

theorem resolveHeaderText_run (cfg : Config) (flags : FlagArgs) (m : Machine) :
    ((resolveHeaderText cfg flags).run m).2.trace = m.trace
      ∧ ((resolveHeaderText cfg flags).run m).2.globals.analyzeGitingest
          = m.globals.analyzeGitingest
      ∧ ((resolveHeaderText cfg flags).run m).2.globals.analyzeRepomix
          = m.globals.analyzeRepomix := by
  simp only [resolveHeaderText, run_bind, run_ite, run_pure, run_setGlobals, run_getGlobals]
  split_ifs <;> exact ⟨rfl, rfl, rfl⟩

theorem resolveGitingest_run (cfg : Config) (flags : FlagArgs) (m : Machine) :
    ((resolveGitingest cfg flags).run m).2.trace = m.trace
      ∧ ((resolveGitingest cfg flags).run m).2.globals.analyzeGitingest
          = (if changed flags "disable-gitingest" then false
            else if changed flags "enable-gitingest" then m.globals.analyzeGitingest
            else cfg.analyzeEnableGitingest.getD m.globals.analyzeGitingest)
      ∧ ((resolveGitingest cfg flags).run m).2.globals.analyzeRepomix
          = m.globals.analyzeRepomix := by
  simp only [resolveGitingest, run_bind, run_ite, run_pure, run_setGlobals, run_getGlobals]
  cases h : cfg.analyzeEnableGitingest <;>
    split_ifs <;> simp_all [viperIsSet, viperGet]

theorem resolveRepomix_run (cfg : Config) (flags : FlagArgs) (m : Machine) :
    ((resolveRepomix cfg flags).run m).2.trace = m.trace
      ∧ ((resolveRepomix cfg flags).run m).2.globals.analyzeGitingest
          = m.globals.analyzeGitingest
      ∧ ((resolveRepomix cfg flags).run m).2.globals.analyzeRepomix
          = (if changed flags "disable-repomix" then false
            else if changed flags "enable-repomix" then m.globals.analyzeRepomix
            else cfg.analyzeEnableRepomix.getD m.globals.analyzeRepomix) := by
  simp only [resolveRepomix, run_bind, run_ite, run_pure, run_setGlobals, run_getGlobals]
  cases h : cfg.analyzeEnableRepomix <;>
    split_ifs <;> simp_all [viperIsSet, viperGet]

/-- The resolution of flags and config touches no file and runs nothing; the two tool
switches come from the disable flag, else the enable flag, else the config, else they stay. -/
theorem resolveAnalyze_run (cfg : Config) (flags : FlagArgs) (m : Machine) :
    ((resolveAnalyze cfg flags).run m).2.trace = m.trace
      ∧ ((resolveAnalyze cfg flags).run m).2.globals.analyzeGitingest
          = (if changed flags "disable-gitingest" then false
            else if changed flags "enable-gitingest" then m.globals.analyzeGitingest
            else cfg.analyzeEnableGitingest.getD m.globals.analyzeGitingest)
      ∧ ((resolveAnalyze cfg flags).run m).2.globals.analyzeRepomix
          = (if changed flags "disable-repomix" then false
            else if changed flags "enable-repomix" then m.globals.analyzeRepomix
            else cfg.analyzeEnableRepomix.getD m.globals.analyzeRepomix) := by
  simp only [resolveAnalyze, run_bind]
  obtain ⟨a1, a2, a3⟩ := resolveOutput_run cfg flags m
  obtain ⟨b1, b2, b3⟩ := resolveGitingest_run cfg flags ((resolveOutput cfg flags).run m).2
  obtain ⟨c1, c2, c3⟩ := resolveRepomix_run cfg flags
    ((resolveGitingest cfg flags).run ((resolveOutput cfg flags).run m).2).2
  obtain ⟨d1, d2, d3⟩ := resolveHeaderText_run cfg flags
    ((resolveRepomix cfg flags).run
      ((resolveGitingest cfg flags).run ((resolveOutput cfg flags).run m).2).2).2
  refine ⟨?_, ?_, ?_⟩
  · rw [d1, c1, b1, a1]
  · rw [d2, c2, b2, a2]
  · rw [d3, c3, b3, a3]

theorem hasPrefix_append (pre s : GoString) : hasPrefix (pre ++ s) pre = true := by
  simp [hasPrefix_iff]

theorem isPreToolError_target (t : GoString) :
    isPreToolError (.error ("target path does not exist: ".toList ++ t)) = true := by
  simp only [isPreToolError, hasPrefix_append, Bool.true_or]

theorem isPreToolError_abs (t : GoString) :
    isPreToolError (.error ("failed to get absolute path: ".toList ++ t)) = true := by
  simp only [isPreToolError, hasPrefix_append, Bool.true_or, Bool.or_true]

theorem isPreToolError_output (t : GoString) :
    isPreToolError (.error ("failed to create output directory: ".toList ++ t)) = true := by
  simp only [isPreToolError, hasPrefix_append, Bool.or_true]

theorem isPreToolError_completed :
    isPreToolError (.error "analysis completed with errors".toList) = false := by
  decide

theorem isPreToolError_nil : isPreToolError .nil = false := rfl

theorem isPreToolError_panic : isPreToolError .panic = false := rfl

theorem isPreToolError_validation :
    isPreToolError (.error "at least one analysis tool must be enabled".toList) = false := by
  decide

/-- The tool phase with both switches off: the validation error, and nothing else happens. -/
theorem analyzeTools_off (E : Env) (cfg : Config) (p : GoString) (r : Bool) (m : Machine)
    (hG : m.globals.analyzeGitingest = false) (hR : m.globals.analyzeRepomix = false) :
    (analyzeTools E cfg p r).run m
      = (.error "at least one analysis tool must be enabled".toList, m) := by
  simp [analyzeTools, run_bind, run_getGlobals, run_pure, run_ite, hG, hR]

theorem createOutputDir_run (E : Env) (d : GoString) (m : Machine) :
    ∃ evs : List Event,
      ((createOutputDir E d).run m).2.trace = m.trace ++ evs ∧ (∀ e ∈ evs, NotCall e)
        ∧ ((createOutputDir E d).run m).2.globals.analyzeGitingest = m.globals.analyzeGitingest
        ∧ ((createOutputDir E d).run m).2.globals.analyzeRepomix = m.globals.analyzeRepomix := by
  have h := createOutputDir_emits E d
  unfold Emits at h
  exact h m

theorem notCall_stat (p : GoString) : NotCall (Event.stat p) := by
  intro fn h
  cases h

theorem notCall_abs (p : GoString) : NotCall (Event.abs p) := by
  intro fn h
  cases h

/-- The two ways `runAnalyze` goes: it stops at one of the three checks before the tool
phase, having entered no driver, or it reaches the tool phase with the switches as
resolved. -/
theorem runAnalyze_cases (E : Env) (cfg : Config) (flags : FlagArgs) (args : List GoString)
    (m : Machine) :
    (isPreToolError ((runAnalyze E cfg flags args).run m).1 = true
        ∧ (∃ evs : List Event, ((runAnalyze E cfg flags args).run m).2.trace = m.trace ++ evs
            ∧ ∀ e ∈ evs, NotCall e)
        ∧ ((runAnalyze E cfg flags args).run m).2.globals.analyzeGitingest
            = ((resolveAnalyze cfg flags).run m).2.globals.analyzeGitingest
        ∧ ((runAnalyze E cfg flags args).run m).2.globals.analyzeRepomix
            = ((resolveAnalyze cfg flags).run m).2.globals.analyzeRepomix)
      ∨ ∃ (m2 : Machine) (p : GoString) (rem : Bool),
          (∃ evs : List Event, m2.trace = m.trace ++ evs ∧ ∀ e ∈ evs, NotCall e)
            ∧ m2.globals.analyzeGitingest
                = ((resolveAnalyze cfg flags).run m).2.globals.analyzeGitingest
            ∧ m2.globals.analyzeRepomix
                = ((resolveAnalyze cfg flags).run m).2.globals.analyzeRepomix
            ∧ (runAnalyze E cfg flags args).run m = (analyzeTools E cfg p rem).run m2 := by
  obtain ⟨ht, -, -⟩ := resolveAnalyze_run cfg flags m
  simp only [runAnalyze, run_bind, run_getGlobals, run_pure, run_ite]
  generalize (resolveAnalyze cfg flags).run m = x at ht ⊢
  obtain ⟨u, m1⟩ := x
  simp only at ht ⊢
  generalize args.headD m.globals.analyzePath = target
  split
  · obtain ⟨evs, c1, c2, c3, c4⟩ := createOutputDir_run E m1.globals.analyzeOutput m1
    generalize (createOutputDir E m1.globals.analyzeOutput).run m1 = y at c1 c3 c4 ⊢
    obtain ⟨o, m2⟩ := y
    simp only at c1 c3 c4 ⊢
    cases o with
    | some err =>
      left
      simp only [run_pure]
      exact ⟨isPreToolError_output _, ⟨evs, by rw [c1, ht], c2⟩, c3, c4⟩
    | none =>
      right
      exact ⟨m2, _, _, ⟨evs, by rw [c1, ht], c2⟩, c3, c4, rfl⟩
  · simp only [osStat, filepathAbs, run_perform]
    split
    · left
      refine ⟨isPreToolError_target _, ⟨[Event.stat target], by rw [ht], ?_⟩, rfl, rfl⟩
      intro e he
      rw [List.mem_singleton.mp he]
      exact notCall_stat _
    · cases hA : E.abs (m1.trace ++ [Event.stat target]) target with
      | error err =>
        left
        simp only [run_pure]
        refine ⟨isPreToolError_abs _,
          ⟨[Event.stat target, Event.abs target], by rw [ht]; simp, ?_⟩, trivial, trivial⟩
        intro e he
        simp only [List.mem_cons, List.mem_singleton, List.not_mem_nil, or_false] at he
        rcases he with he | he
        · rw [he]; exact notCall_stat _
        · rw [he]; exact notCall_abs _
      | ok p =>
        simp only [run_bind, run_pure, run_getGlobals]
        obtain ⟨evs, c1, c2, c3, c4⟩ := createOutputDir_run E m1.globals.analyzeOutput
          { m1 with trace := m1.trace ++ [Event.stat target] ++ [Event.abs target] }
        generalize (createOutputDir E m1.globals.analyzeOutput).run
          { m1 with trace := m1.trace ++ [Event.stat target] ++ [Event.abs target] } = y
          at c1 c3 c4 ⊢
        obtain ⟨o, m2⟩ := y
        simp only at c1 c3 c4 ⊢
        have hev : ∀ e ∈ Event.stat target :: Event.abs target :: evs, NotCall e := by
          intro e he
          simp only [List.mem_cons] at he
          rcases he with he | he | he
          · rw [he]; exact notCall_stat _
          · rw [he]; exact notCall_abs _
          · exact c2 e he
        cases o with
        | some err =>
          left
          simp only [run_pure]
          exact ⟨isPreToolError_output _,
            ⟨Event.stat target :: Event.abs target :: evs, by rw [c1, ht]; simp, hev⟩, c3, c4⟩
        | none =>
          right
          exact ⟨m2, _, _,
            ⟨Event.stat target :: Event.abs target :: evs, by rw [c1, ht]; simp, hev⟩,
            c3, c4, rfl⟩

/-- With both switches off after the resolution, `runAnalyze` enters no driver and ends in
the validation error or in the error of an earlier check. -/
theorem runAnalyze_off (E : Env) (cfg : Config) (flags : FlagArgs) (args : List GoString)
    (m : Machine)
    (hG : ((resolveAnalyze cfg flags).run m).2.globals.analyzeGitingest = false)
    (hR : ((resolveAnalyze cfg flags).run m).2.globals.analyzeRepomix = false) :
    (∃ evs : List Event, ((runAnalyze E cfg flags args).run m).2.trace = m.trace ++ evs
        ∧ ∀ e ∈ evs, NotCall e)
      ∧ (((runAnalyze E cfg flags args).run m).1
            = .error "at least one analysis tool must be enabled".toList
          ∨ isPreToolError ((runAnalyze E cfg flags args).run m).1 = true)
      ∧ ((runAnalyze E cfg flags args).run m).2.globals.analyzeGitingest = false
      ∧ ((runAnalyze E cfg flags args).run m).2.globals.analyzeRepomix = false := by
  rcases runAnalyze_cases E cfg flags args m with ⟨h1, h2, h3, h4⟩ | ⟨m2, p, rem, h2, h3, h4, h5⟩
  · exact ⟨h2, Or.inr h1, h3.trans hG, h4.trans hR⟩
  · rw [h5, analyzeTools_off E cfg p rem m2 (h3.trans hG) (h4.trans hR)]
    exact ⟨h2, Or.inl rfl, h3.trans hG, h4.trans hR⟩

/-- The state in which `RunE` starts for the command line `--enable-gitingest
--disable-repomix`: each of the two flags has stored `true` in its variable. -/
theorem executeAnalyze_onlyGitingest (E : Env) (cfg : Config) (args : List GoString) :
    (executeAnalyze E cfg onlyGitingest args).run startMachine
      = (runAnalyze E cfg onlyGitingest args).run
          { startMachine with globals :=
              { startMachine.globals with analyzeGitingest := true, analyzeRepomix := true } } :=
  rfl

/-- The state in which `RunE` starts for the command line `--enable-repomix
--disable-gitingest`. -/
theorem executeAnalyze_onlyRepomix (E : Env) (cfg : Config) (args : List GoString) :
    (executeAnalyze E cfg onlyRepomix args).run startMachine
      = (runAnalyze E cfg onlyRepomix args).run
          { startMachine with globals :=
              { startMachine.globals with analyzeGitingest := true, analyzeRepomix := true } } :=
  rfl

/-- The state in which `RunE` starts for a command line without flags: the state after the
`init` functions. -/
theorem executeAnalyze_noFlags (E : Env) (cfg : Config) (args : List GoString) :
    (executeAnalyze E cfg [] args).run startMachine
      = (runAnalyze E cfg [] args).run startMachine :=
  rfl

/-! ## The checks of `runAnalyze` before the tool phase -/

theorem createOutputDir_eq (E : Env) (d : GoString) (m : Machine) :
    (createOutputDir E d).run m
      = ((outputDirError E m.trace d).map
            (fun err => "failed to create output directory: ".toList ++ err),
          { m with trace := m.trace ++ outputDirEvents E m.trace d }) := by
  simp only [createOutputDir, outputDirError, outputDirEvents, osStat, osMkdirAll, run_bind,
    run_perform, run_ite, run_pure]
  cases hs : (E.stat m.trace d).isNotExist with
  | false => simp only [Bool.false_eq_true, if_false, run_pure, Option.map]
  | true =>
    simp only [if_true, run_bind, run_perform, run_pure, List.append_assoc,
      List.singleton_append]
    cases E.mkdirAll (m.trace ++ [Event.stat d]) d <;> rfl

/-- The run of `runAnalyze` for a remote target: the output directory is prepared, then
the tool phase runs. -/
theorem runAnalyze_remote (E : Env) (cfg : Config) (flags : FlagArgs) (args : List GoString)
    (m : Machine) (hrem : isRemoteRepository (args.headD m.globals.analyzePath) = true) :
    (runAnalyze E cfg flags args).run m
      = match outputDirError E m.trace
            ((resolveAnalyze cfg flags).run m).2.globals.analyzeOutput with
        | some err =>
          (.error ("failed to create output directory: ".toList
              ++ ("failed to create output directory: ".toList ++ err)),
            { globals := ((resolveAnalyze cfg flags).run m).2.globals,
              trace := m.trace ++ outputDirEvents E m.trace
                ((resolveAnalyze cfg flags).run m).2.globals.analyzeOutput })
        | none =>
          (analyzeTools E cfg (args.headD m.globals.analyzePath) true).run
            { globals := ((resolveAnalyze cfg flags).run m).2.globals,
              trace := m.trace ++ outputDirEvents E m.trace
                ((resolveAnalyze cfg flags).run m).2.globals.analyzeOutput } := by
  obtain ⟨ht, -, -⟩ := resolveAnalyze_run cfg flags m
  simp only [runAnalyze, run_bind, run_getGlobals, run_pure, run_ite, hrem, if_true,
    createOutputDir_eq]
  generalize (resolveAnalyze cfg flags).run m = x at ht ⊢
  obtain ⟨u, m1⟩ := x
  simp only at ht ⊢
  rw [ht]
  cases outputDirError E m.trace m1.globals.analyzeOutput <;> rfl

/-- The run of `runAnalyze` for a local target: the stat of the target, the absolute path,
the output directory, then the tool phase; each check that fails ends the run. -/
theorem runAnalyze_local (E : Env) (cfg : Config) (flags : FlagArgs) (args : List GoString)
    (m : Machine) (hloc : isRemoteRepository (args.headD m.globals.analyzePath) = false) :
    (runAnalyze E cfg flags args).run m
      = if (E.stat m.trace (args.headD m.globals.analyzePath)).isNotExist then
          (.error ("target path does not exist: ".toList ++ args.headD m.globals.analyzePath),
            { globals := ((resolveAnalyze cfg flags).run m).2.globals,
              trace := m.trace ++ [Event.stat (args.headD m.globals.analyzePath)] })
        else
          match E.abs (m.trace ++ [Event.stat (args.headD m.globals.analyzePath)])
              (args.headD m.globals.analyzePath) with
          | .error err =>
            (.error ("failed to get absolute path: ".toList ++ err),
              { globals := ((resolveAnalyze cfg flags).run m).2.globals,
                trace := m.trace ++ [Event.stat (args.headD m.globals.analyzePath),
                  Event.abs (args.headD m.globals.analyzePath)] })
          | .ok p =>
            match outputDirError E
                (m.trace ++ [Event.stat (args.headD m.globals.analyzePath),
                  Event.abs (args.headD m.globals.analyzePath)])
                ((resolveAnalyze cfg flags).run m).2.globals.analyzeOutput with
            | some err =>
              (.error ("failed to create output directory: ".toList
                  ++ ("failed to create output directory: ".toList ++ err)),
                { globals := ((resolveAnalyze cfg flags).run m).2.globals,
                  trace := m.trace ++ [Event.stat (args.headD m.globals.analyzePath),
                      Event.abs (args.headD m.globals.analyzePath)]
                    ++ outputDirEvents E
                      (m.trace ++ [Event.stat (args.headD m.globals.analyzePath),
                        Event.abs (args.headD m.globals.analyzePath)])
                      ((resolveAnalyze cfg flags).run m).2.globals.analyzeOutput })
            | none =>
              (analyzeTools E cfg p false).run
                { globals := ((resolveAnalyze cfg flags).run m).2.globals,
                  trace := m.trace ++ [Event.stat (args.headD m.globals.analyzePath),
                      Event.abs (args.headD m.globals.analyzePath)]
                    ++ outputDirEvents E
                      (m.trace ++ [Event.stat (args.headD m.globals.analyzePath),
                        Event.abs (args.headD m.globals.analyzePath)])
                      ((resolveAnalyze cfg flags).run m).2.globals.analyzeOutput } := by
  obtain ⟨ht, -, -⟩ := resolveAnalyze_run cfg flags m
  simp only [runAnalyze, run_bind, run_getGlobals, run_pure, run_ite, hloc, osStat,
    filepathAbs, run_perform, createOutputDir_eq, Bool.false_eq_true, if_false]
  generalize (resolveAnalyze cfg flags).run m = x at ht ⊢
  obtain ⟨u, m1⟩ := x
  simp only at ht ⊢
  rw [ht]
  generalize args.headD m.globals.analyzePath = target
  cases (E.stat m.trace target).isNotExist with
  | true => simp only [if_true]
  | false =>
    simp only [Bool.false_eq_true, if_false]
    cases E.abs (m.trace ++ [Event.stat target]) target with
    | error err => simp only [run_pure, List.append_assoc, List.singleton_append]
    | ok p =>
      simp only [run_bind, run_pure, run_getGlobals, createOutputDir_eq, List.append_assoc,
        List.singleton_append, List.cons_append, List.nil_append]
      cases outputDirError E (m.trace ++ [Event.stat target, Event.abs target])
        m1.globals.analyzeOutput <;> rfl

/-- A computation that only appends events extends every history it starts from. -/
theorem trace_grows {α : Type} (P : Event → Prop) {x : Act α} (h : Emits P x) (m : Machine) :
    ∃ evs : List Event, (x.run m).2.trace = m.trace ++ evs := by
  unfold Emits at h
  obtain ⟨evs, h1, -⟩ := h m
  exact ⟨evs, h1⟩

theorem runGitingestForAnalyze_emits_any (E : Env) (p : GoString) (r : Bool) :
    Emits (fun _ => True) (runGitingestForAnalyze E p r) := by
  unfold runGitingestForAnalyze
  repeat' first
    | rfl
    | exact trivial
    | with_reducible exact (checkPythonAvailable_emits E).mono (fun _ _ => trivial)
    | with_reducible exact (checkGitingestAvailable_emits E).mono (fun _ _ => trivial)
    | with_reducible exact (runGitingestAnalysis_emits E _).mono (fun _ _ => trivial)
    | with_reducible apply Emits.pure
    | with_reducible apply Emits.perform
    | with_reducible apply Emits.getGlobals
    | with_reducible apply Emits.setGlobals
    | with_reducible apply Emits.bind
    | dsimp only
    | split
    | intro _

theorem runRepomixForAnalyze_emits_any (E : Env) (cfg : Config) (p : GoString) (r : Bool) :
    Emits (fun _ => True) (runRepomixForAnalyze E cfg p r) := by
  unfold runRepomixForAnalyze
  repeat' first
    | rfl
    | exact trivial
    | with_reducible exact (checkNodeAvailable_emits E).mono (fun _ _ => trivial)
    | with_reducible exact (runRepomixAnalysis_emits E _).mono (fun _ _ => trivial)
    | with_reducible apply Emits.pure
    | with_reducible apply Emits.perform
    | with_reducible apply Emits.getGlobals
    | with_reducible apply Emits.setGlobals
    | with_reducible apply Emits.bind
    | dsimp only
    | split
    | intro _

theorem analyzeTools_emits_any (E : Env) (cfg : Config) (p : GoString) (r : Bool) :
    Emits (fun _ => True) (analyzeTools E cfg p r) := by
  unfold analyzeTools
  repeat' first
    | rfl
    | exact trivial
    | with_reducible exact runGitingestForAnalyze_emits_any E _ _
    | with_reducible exact runRepomixForAnalyze_emits_any E cfg _ _
    | with_reducible apply Emits.pure
    | with_reducible apply Emits.perform
    | with_reducible apply Emits.getGlobals
    | with_reducible apply Emits.setGlobals
    | with_reducible apply Emits.bind
    | dsimp only
    | split
    | intro _

/-- After a stat of the target that fails with an error other than not-exist,
`runGitingest` goes on to `filepath.Abs`. -/
theorem runGitingest_stat_failed (E : Env) (args : List GoString) (m : Machine)
    (h : E.stat m.trace (args.headD m.globals.gitingestPath) = .failed) :
    ∃ evs : List Event,
      ((runGitingest E args).run m).2.trace
        = m.trace ++ Event.stat (args.headD m.globals.gitingestPath)
            :: Event.abs (args.headD m.globals.gitingestPath) :: evs := by
  simp only [runGitingest, osStat, filepathAbs, run_bind, run_getGlobals, run_pure, run_ite,
    run_perform, h, StatResult.isNotExist, Bool.false_eq_true, if_false]
  generalize args.headD m.globals.gitingestPath = target
  have key : ∀ x : Act Result, Emits NotCall x →
      ∃ evs : List Event,
        (x.run { m with trace := m.trace ++ [Event.stat target] ++ [Event.abs target] }).2.trace
          = m.trace ++ Event.stat target :: Event.abs target :: evs := by
    intro x hx
    obtain ⟨evs, he⟩ := trace_grows NotCall hx
      { m with trace := m.trace ++ [Event.stat target] ++ [Event.abs target] }
    exact ⟨evs, by rw [he]; simp⟩
  apply key
  repeat' first
    | rfl
    | with_reducible apply createOutputDir_emits
    | with_reducible apply checkPythonAvailable_emits
    | with_reducible apply checkGitingestAvailable_emits
    | with_reducible apply runGitingestAnalysis_emits
    | with_reducible apply Emits.pure
    | with_reducible apply Emits.perform
    | with_reducible apply Emits.getGlobals
    | with_reducible apply Emits.setGlobals
    | with_reducible apply Emits.bind
    | dsimp only
    | split
    | intro _
/-- After a stat of the target that fails with an error other than not-exist, `runRepomix`
goes on to the output directory. -/
theorem runRepomix_stat_failed (E : Env) (args : List GoString) (m : Machine)
    (hr : m.globals.repomixRemote = [])
    (h : E.stat m.trace (args.headD m.globals.repomixPath) = .failed) :
    ∃ evs : List Event,
      ((runRepomix E args).run m).2.trace
        = m.trace ++ Event.stat (args.headD m.globals.repomixPath)
            :: Event.stat m.globals.repomixOutput :: evs := by
  simp only [runRepomix, osStat, run_bind, run_getGlobals, run_pure, run_ite,
    run_perform, h, hr, StatResult.isNotExist, Bool.false_eq_true, if_false, if_true,
    createOutputDir_eq, outputDirEvents, filepathAbs]
  generalize args.headD m.globals.repomixPath = target
  have key : ∀ (x : Act Result) (l : List Event), Emits NotCall x →
      ∃ evs : List Event,
        (x.run { m with trace := m.trace ++ [Event.stat target]
            ++ Event.stat m.globals.repomixOutput :: l }).2.trace
          = m.trace ++ Event.stat target :: Event.stat m.globals.repomixOutput :: evs := by
    intro x l hx
    obtain ⟨evs, he⟩ := trace_grows NotCall hx
      { m with trace := m.trace ++ [Event.stat target]
        ++ Event.stat m.globals.repomixOutput :: l }
    exact ⟨l ++ evs, by rw [he]; simp⟩
  apply key
  repeat' first
    | rfl
    | with_reducible apply checkNodeAvailable_emits
    | with_reducible apply runRepomixAnalysis_emits
    | with_reducible apply Emits.pure
    | with_reducible apply Emits.perform
    | with_reducible apply Emits.getGlobals
    | with_reducible apply Emits.setGlobals
    | with_reducible apply Emits.bind
    | dsimp only
    | split
    | intro _
  all_goals contradiction

/-- After a stat of a local target that fails with an error other than not-exist,
`runAnalyze` goes on to `filepath.Abs`. -/
theorem runAnalyze_stat_failed (E : Env) (cfg : Config) (flags : FlagArgs)
    (args : List GoString) (m : Machine)
    (hloc : isRemoteRepository (args.headD m.globals.analyzePath) = false)
    (h : E.stat m.trace (args.headD m.globals.analyzePath) = .failed) :
    ∃ evs : List Event,
      ((runAnalyze E cfg flags args).run m).2.trace
        = m.trace ++ Event.stat (args.headD m.globals.analyzePath)
            :: Event.abs (args.headD m.globals.analyzePath) :: evs := by
  rw [runAnalyze_local E cfg flags args m hloc]
  simp only [h, StatResult.isNotExist, Bool.false_eq_true, if_false]
  generalize args.headD m.globals.analyzePath = target
  cases E.abs (m.trace ++ [Event.stat target]) target with
  | error err => exact ⟨[], by simp⟩
  | ok p =>
    simp only []
    cases outputDirError E (m.trace ++ [Event.stat target, Event.abs target])
        ((resolveAnalyze cfg flags).run m).2.globals.analyzeOutput with
    | some err =>
      exact ⟨outputDirEvents E (m.trace ++ [Event.stat target, Event.abs target])
        ((resolveAnalyze cfg flags).run m).2.globals.analyzeOutput, by simp⟩
    | none =>
      simp only []
      obtain ⟨evs, he⟩ := trace_grows (fun _ => True) (analyzeTools_emits_any E cfg p false)
        { globals := ((resolveAnalyze cfg flags).run m).2.globals,
          trace := m.trace ++ [Event.stat target, Event.abs target]
            ++ outputDirEvents E (m.trace ++ [Event.stat target, Event.abs target])
              ((resolveAnalyze cfg flags).run m).2.globals.analyzeOutput }
      exact ⟨outputDirEvents E (m.trace ++ [Event.stat target, Event.abs target])
        ((resolveAnalyze cfg flags).run m).2.globals.analyzeOutput ++ evs, by rw [he]; simp⟩

/-! ## The claims on the commands -/

/-- C7, evaluated on the code: with no flag on the command line and a config that sets
neither `analyze.enable_gitingest` nor `analyze.enable_repomix`, both switches are false
when `runAnalyze` validates them (the registration of the `disable-` flags has stored
`false` in the shared variables), no tool driver is entered, and the run ends in the error
`at least one analysis tool must be enabled` unless an earlier check fails. -/
theorem analyze_default_enables_nothing (E : Env) (cfg : Config) (args : List GoString)
    (h1 : cfg.analyzeEnableGitingest = none) (h2 : cfg.analyzeEnableRepomix = none) :
    ((executeAnalyze E cfg [] args).run startMachine).2.globals.analyzeGitingest = false
      ∧ ((executeAnalyze E cfg [] args).run startMachine).2.globals.analyzeRepomix = false
      ∧ (∀ fn, Event.call fn ∉ ((executeAnalyze E cfg [] args).run startMachine).2.trace)
      ∧ (((executeAnalyze E cfg [] args).run startMachine).1
            = .error "at least one analysis tool must be enabled".toList
          ∨ isPreToolError ((executeAnalyze E cfg [] args).run startMachine).1 = true) := by
  rw [executeAnalyze_noFlags]
  have hG : ((resolveAnalyze cfg []).run startMachine).2.globals.analyzeGitingest = false := by
    rw [(resolveAnalyze_run cfg [] startMachine).2.1, h1]
    rfl
  have hR : ((resolveAnalyze cfg []).run startMachine).2.globals.analyzeRepomix = false := by
    rw [(resolveAnalyze_run cfg [] startMachine).2.2, h2]
    rfl
  obtain ⟨⟨evs, t1, t2⟩, hres, g1, g2⟩ := runAnalyze_off E cfg [] args startMachine hG hR
  refine ⟨g1, g2, ?_, hres⟩
  intro fn hc
  rw [t1] at hc
  exact t2 _ (by simpa [startMachine] using hc) fn rfl

/-- Instance of C7 in a directory where every path exists, with an empty config: the
command `analyze` without flags fails with `at least one analysis tool must be enabled`. -/
theorem analyze_default_enables_nothing_witness :
    ({} : Config).analyzeEnableGitingest = none ∧ ({} : Config).analyzeEnableRepomix = none
      ∧ ((executeAnalyze dirEnv {} [] []).run startMachine).1
          = .error "at least one analysis tool must be enabled".toList :=
  ⟨rfl, rfl,
    (analyze_default_enables_nothing dirEnv {} [] rfl rfl).2.2.2.resolve_right (by decide)⟩

/-- C9, as stated, fails: with both tools disabled and a local target that does not exist,
both switches are false after the resolution and `runAnalyze` returns the error of the
target check, not `at least one analysis tool must be enabled`. -/
theorem tools_off_missing_target_counterexample :
    ((resolveAnalyze {} noTool).run startMachine).2.globals.analyzeGitingest = false
      ∧ ((resolveAnalyze {} noTool).run startMachine).2.globals.analyzeRepomix = false
      ∧ ((runAnalyze bareEnv {} noTool ["nope".toList]).run startMachine).1
          = .error "target path does not exist: nope".toList
      ∧ ((runAnalyze bareEnv {} noTool ["nope".toList]).run startMachine).1
          ≠ .error "at least one analysis tool must be enabled".toList := by
  decide

/-- C9, amended: whenever both switches are false after the flag and config resolution,
`runAnalyze` enters neither tool driver, and its result is decided by the checks that
precede the validation.  For a remote target: the error of the output directory when it
cannot be created, else the error `at least one analysis tool must be enabled`.  For a local
target: the error of the target check when `os.Stat` reports that the target does not exist;
else the error of `filepath.Abs` when it fails; else the error of the output directory when
it cannot be created; else, and so whenever the target is there (a directory or a file) and
the output directory is there or can be created, the error `at least one analysis tool must
be enabled`. -/
theorem runAnalyze_tools_off (E : Env) (cfg : Config) (flags : FlagArgs)
    (args : List GoString) (m : Machine) (target out : GoString)
    (hG : ((resolveAnalyze cfg flags).run m).2.globals.analyzeGitingest = false)
    (hR : ((resolveAnalyze cfg flags).run m).2.globals.analyzeRepomix = false)
    (htarget : target = args.headD m.globals.analyzePath)
    (hout : out = ((resolveAnalyze cfg flags).run m).2.globals.analyzeOutput) :
    (∃ evs : List Event, ((runAnalyze E cfg flags args).run m).2.trace = m.trace ++ evs
        ∧ ∀ e ∈ evs, NotCall e)
      ∧ (((runAnalyze E cfg flags args).run m).1
            = .error "at least one analysis tool must be enabled".toList
          ∨ isPreToolError ((runAnalyze E cfg flags args).run m).1 = true)
      ∧ (isRemoteRepository target = true →
          (∀ err, outputDirError E m.trace out = some err →
            ((runAnalyze E cfg flags args).run m).1
                = .error ("failed to create output directory: ".toList
                    ++ ("failed to create output directory: ".toList ++ err))
              ∧ ((runAnalyze E cfg flags args).run m).2.trace
                = m.trace ++ outputDirEvents E m.trace out)
          ∧ (outputDirError E m.trace out = none →
            ((runAnalyze E cfg flags args).run m).1
                = .error "at least one analysis tool must be enabled".toList
              ∧ ((runAnalyze E cfg flags args).run m).2.trace
                = m.trace ++ outputDirEvents E m.trace out))
      ∧ (isRemoteRepository target = false →
          ((E.stat m.trace target).isNotExist = true →
            ((runAnalyze E cfg flags args).run m).1
                = .error ("target path does not exist: ".toList ++ target)
              ∧ ((runAnalyze E cfg flags args).run m).2.trace
                = m.trace ++ [Event.stat target])
          ∧ ((E.stat m.trace target).isNotExist = false →
            (∀ err, E.abs (m.trace ++ [Event.stat target]) target = .error err →
              ((runAnalyze E cfg flags args).run m).1
                  = .error ("failed to get absolute path: ".toList ++ err)
                ∧ ((runAnalyze E cfg flags args).run m).2.trace
                  = m.trace ++ [Event.stat target, Event.abs target])
            ∧ (∀ p, E.abs (m.trace ++ [Event.stat target]) target = .ok p →
              (∀ err,
                outputDirError E (m.trace ++ [Event.stat target, Event.abs target]) out
                  = some err →
                ((runAnalyze E cfg flags args).run m).1
                    = .error ("failed to create output directory: ".toList
                        ++ ("failed to create output directory: ".toList ++ err))
                  ∧ ((runAnalyze E cfg flags args).run m).2.trace
                    = m.trace ++ [Event.stat target, Event.abs target]
                      ++ outputDirEvents E
                        (m.trace ++ [Event.stat target, Event.abs target]) out)
              ∧ (outputDirError E (m.trace ++ [Event.stat target, Event.abs target]) out
                  = none →
                ((runAnalyze E cfg flags args).run m).1
                    = .error "at least one analysis tool must be enabled".toList
                  ∧ ((runAnalyze E cfg flags args).run m).2.trace
                    = m.trace ++ [Event.stat target, Event.abs target]
                      ++ outputDirEvents E
                        (m.trace ++ [Event.stat target, Event.abs target]) out)))) := by
  subst htarget hout
  refine ⟨(runAnalyze_off E cfg flags args m hG hR).1,
    (runAnalyze_off E cfg flags args m hG hR).2.1, ?_, ?_⟩
  · intro hrem
    rw [runAnalyze_remote E cfg flags args m hrem]
    refine ⟨?_, ?_⟩
    · intro err he
      rw [he]
      exact ⟨rfl, rfl⟩
    · intro he
      rw [he]
      have h := analyzeTools_off E cfg (args.headD m.globals.analyzePath) true
        { globals := ((resolveAnalyze cfg flags).run m).2.globals,
          trace := m.trace ++ outputDirEvents E m.trace
            ((resolveAnalyze cfg flags).run m).2.globals.analyzeOutput } hG hR
      simp only [h, and_self]
  · intro hloc
    rw [runAnalyze_local E cfg flags args m hloc]
    refine ⟨?_, ?_⟩
    · intro hs
      rw [if_pos hs]
      exact ⟨rfl, rfl⟩
    · intro hs
      rw [if_neg (by rw [hs]; exact Bool.false_ne_true)]
      refine ⟨?_, ?_⟩
      · intro err ha
        rw [ha]
        exact ⟨rfl, rfl⟩
      · intro p ha
        rw [ha]
        refine ⟨?_, ?_⟩
        · intro err he
          simp only [he]
          exact ⟨trivial, trivial⟩
        · intro he
          have h := analyzeTools_off E cfg p false
            { globals := ((resolveAnalyze cfg flags).run m).2.globals,
              trace := m.trace ++ [Event.stat (args.headD m.globals.analyzePath),
                  Event.abs (args.headD m.globals.analyzePath)]
                ++ outputDirEvents E
                  (m.trace ++ [Event.stat (args.headD m.globals.analyzePath),
                    Event.abs (args.headD m.globals.analyzePath)])
                  ((resolveAnalyze cfg flags).run m).2.globals.analyzeOutput } hG hR
          simp only [he, h, and_self]

/-- Instance of amended C9: both tools disabled on the command line, the target `README.md`
is a regular file and the output directory has to be created; the result is the validation
error. -/
theorem runAnalyze_tools_off_witness :
    ((resolveAnalyze {} noTool).run startMachine).2.globals.analyzeGitingest = false
      ∧ ((resolveAnalyze {} noTool).run startMachine).2.globals.analyzeRepomix = false
      ∧ ((runAnalyze fileEnv {} noTool ["README.md".toList]).run startMachine).1
          = .error "at least one analysis tool must be enabled".toList
      ∧ ((runAnalyze fileEnv {} noTool ["README.md".toList]).run startMachine).2.trace
          = [Event.stat "README.md".toList, Event.abs "README.md".toList,
              Event.stat "analysis-results".toList, Event.mkdirAll "analysis-results".toList] :=
  ⟨by decide, by decide,
    ((runAnalyze_tools_off fileEnv {} noTool ["README.md".toList] startMachine
      "README.md".toList "analysis-results".toList (by decide) (by decide) rfl
      (by decide)).2.2.2 (by decide)).2 (by decide) |>.2 "/work/README.md".toList rfl |>.2
      (by decide)⟩

/-- C10, evaluated on the code.  When `os.Stat` reports that the target does not exist
(`os.IsNotExist`, the error `ENOENT`), `runGitingest`, `runRepomix` (with an empty
`--remote`) and `runAnalyze` (for a target that is not classified as remote) return the
error `target path does not exist: <path>`, and the stat of the target is the only thing they
have done: no output directory, no environment check, no tool.  When `os.Stat` fails with
another error, as it does with `ENOTDIR` for a path that leads through a regular file and so
does not exist either, none of the three stops at the check: `runGitingest` and `runAnalyze`
go on to `filepath.Abs`, `runRepomix` to the output directory. -/
theorem missing_target_is_reported_first (E : Env) (cfg : Config) (flags : FlagArgs)
    (args : List GoString) (m : Machine) :
    (E.stat m.trace (args.headD m.globals.gitingestPath) = .notExist →
        (runGitingest E args).run m
          = (.error ("target path does not exist: ".toList
                ++ args.headD m.globals.gitingestPath),
              { m with trace := m.trace ++ [Event.stat (args.headD m.globals.gitingestPath)] }))
      ∧ (m.globals.repomixRemote = [] →
          E.stat m.trace (args.headD m.globals.repomixPath) = .notExist →
          (runRepomix E args).run m
            = (.error ("target path does not exist: ".toList
                  ++ args.headD m.globals.repomixPath),
                { m with trace := m.trace ++ [Event.stat (args.headD m.globals.repomixPath)] }))
      ∧ (isRemoteRepository (args.headD m.globals.analyzePath) = false →
          E.stat m.trace (args.headD m.globals.analyzePath) = .notExist →
          ((runAnalyze E cfg flags args).run m).1
              = .error ("target path does not exist: ".toList
                  ++ args.headD m.globals.analyzePath)
            ∧ ((runAnalyze E cfg flags args).run m).2.trace
              = m.trace ++ [Event.stat (args.headD m.globals.analyzePath)])
      ∧ (E.stat m.trace (args.headD m.globals.gitingestPath) = .failed →
          ∃ evs : List Event,
            ((runGitingest E args).run m).2.trace
              = m.trace ++ Event.stat (args.headD m.globals.gitingestPath)
                  :: Event.abs (args.headD m.globals.gitingestPath) :: evs)
      ∧ (m.globals.repomixRemote = [] →
          E.stat m.trace (args.headD m.globals.repomixPath) = .failed →
          ∃ evs : List Event,
            ((runRepomix E args).run m).2.trace
              = m.trace ++ Event.stat (args.headD m.globals.repomixPath)
                  :: Event.stat m.globals.repomixOutput :: evs)
      ∧ (isRemoteRepository (args.headD m.globals.analyzePath) = false →
          E.stat m.trace (args.headD m.globals.analyzePath) = .failed →
          ∃ evs : List Event,
            ((runAnalyze E cfg flags args).run m).2.trace
              = m.trace ++ Event.stat (args.headD m.globals.analyzePath)
                  :: Event.abs (args.headD m.globals.analyzePath) :: evs) := by
  refine ⟨?_, ?_, ?_, runGitingest_stat_failed E args m, runRepomix_stat_failed E args m,
    runAnalyze_stat_failed E cfg flags args m⟩
  · intro h
    simp only [runGitingest, osStat, run_bind, run_getGlobals, run_pure, run_ite, run_perform,
      h, StatResult.isNotExist, if_true]
  · intro hr h
    simp only [runRepomix, osStat, run_bind, run_getGlobals, run_pure, run_ite, run_perform,
      h, hr, StatResult.isNotExist, if_true]
  · intro hr h
    obtain ⟨ht, -, -⟩ := resolveAnalyze_run cfg flags m
    simp only [runAnalyze, run_bind, run_getGlobals, run_pure, run_ite, hr, osStat,
      run_perform]
    generalize (resolveAnalyze cfg flags).run m = x at ht ⊢
    obtain ⟨u, m1⟩ := x
    simp only at ht ⊢
    rw [ht]
    simp only [h, StatResult.isNotExist, if_true, Bool.false_eq_true, if_false, and_self]

/-- The two cases of C10 on concrete targets.  In an environment without any file the target
`nope` is reported with the stat as the only system call.  Where `README.md` is a regular
file, the target `README.md/x` does not exist and its stat fails with `ENOTDIR`: the three
functions go on, each creates its output directory, and the error they return is that of a
later step (with gitingest enabled in the config for `runAnalyze`). -/
theorem missing_target_is_reported_first_witness :
    ((runGitingest bareEnv ["nope".toList]).run startMachine
        = (.error "target path does not exist: nope".toList,
            { startMachine with trace := [Event.stat "nope".toList] })
      ∧ (runRepomix bareEnv ["nope".toList]).run startMachine
        = (.error "target path does not exist: nope".toList,
            { startMachine with trace := [Event.stat "nope".toList] })
      ∧ ((runAnalyze bareEnv {} [] ["nope".toList]).run startMachine).1
          = .error "target path does not exist: nope".toList
      ∧ ((runAnalyze bareEnv {} [] ["nope".toList]).run startMachine).2.trace
          = [Event.stat "nope".toList])
      ∧ ((∃ evs : List Event,
            ((runGitingest notDirEnv ["README.md/x".toList]).run startMachine).2.trace
              = Event.stat "README.md/x".toList :: Event.abs "README.md/x".toList :: evs)
        ∧ ((runGitingest notDirEnv ["README.md/x".toList]).run startMachine).1
          = .error ("Python is not available: Python virtual environment not found. "
              ++ "Please run: ./repo-analyzer setup").toList
        ∧ ((runGitingest notDirEnv ["README.md/x".toList]).run startMachine).2.trace
          = [Event.stat "README.md/x".toList, Event.abs "README.md/x".toList,
              Event.stat "output".toList, Event.mkdirAll "output".toList,
              Event.stat "/app/.venv".toList, Event.getwd,
              Event.stat "/work/.venv/bin/python".toList]
        ∧ ((runRepomix notDirEnv ["README.md/x".toList]).run startMachine).1
          = .error ("Node.js/npm is not available: Node.js ecosystem not found. "
              ++ "Please install Node.js and npm").toList
        ∧ ((runRepomix notDirEnv ["README.md/x".toList]).run startMachine).2.trace
          = [Event.stat "README.md/x".toList, Event.stat "output".toList,
              Event.mkdirAll "output".toList, Event.lookPath "npx".toList,
              Event.lookPath "npm".toList, Event.lookPath "node".toList]
        ∧ ((runAnalyze notDirEnv { analyzeEnableGitingest := some true } []
              ["README.md/x".toList]).run startMachine).1
          = .error "analysis completed with errors".toList
        ∧ ((runAnalyze notDirEnv { analyzeEnableGitingest := some true } []
              ["README.md/x".toList]).run startMachine).2.trace
          = [Event.stat "README.md/x".toList, Event.abs "README.md/x".toList,
              Event.stat "analysis-results".toList, Event.mkdirAll "analysis-results".toList,
              Event.call gitingestDriver, Event.stat "/app/.venv".toList, Event.getwd,
              Event.stat "/work/.venv/bin/python".toList]) :=
  ⟨⟨(missing_target_is_reported_first bareEnv {} [] ["nope".toList] startMachine).1 rfl,
      (missing_target_is_reported_first bareEnv {} [] ["nope".toList] startMachine).2.1 rfl rfl,
      (missing_target_is_reported_first bareEnv {} [] ["nope".toList] startMachine).2.2.1
        (by decide) rfl⟩,
    (missing_target_is_reported_first notDirEnv {} [] ["README.md/x".toList]
      startMachine).2.2.2.1 (by decide),
    by decide, by decide, by decide, by decide, by decide, by decide⟩

/-! ## The Node.js check -/

/-- What `checkNodeAvailable` answers when the lookups do not depend on the history: no
error exactly when one of `npx`, `npm`, `node` is found. -/
theorem checkNodeAvailable_run (E : Env) (path : GoString → Bool)
    (hP : ∀ h f, E.lookPath h f = path f) (m : Machine) :
    ((checkNodeAvailable E).run m).1
      = if path "npx".toList || path "npm".toList || path "node".toList then none
        else some "Node.js ecosystem not found. Please install Node.js and npm".toList := by
  simp only [checkNodeAvailable, execLookPath, run_bind, run_perform, run_ite, run_pure, hP]
  cases path "npx".toList <;> cases path "npm".toList <;> cases path "node".toList <;> rfl

/-- C13, evaluated on the code: for every state of PATH, `checkNodeAvailable` returns no
error as soon as one of `npx`, `npm` and `node` is found, also when `node` is missing or
when neither `npm` nor `npx` is there; only when none of the three is found does it return
`Node.js ecosystem not found. Please install Node.js and npm`. -/
theorem checkNodeAvailable_any_of (E : Env) (path : GoString → Bool)
    (hP : ∀ h f, E.lookPath h f = path f) (m : Machine) :
    (((checkNodeAvailable E).run m).1 = none ↔
        path "npx".toList = true ∨ path "npm".toList = true ∨ path "node".toList = true)
      ∧ (((checkNodeAvailable E).run m).1 ≠ none →
          ((checkNodeAvailable E).run m).1
            = some "Node.js ecosystem not found. Please install Node.js and npm".toList) := by
  rw [checkNodeAvailable_run E path hP m]
  cases path "npx".toList <;> cases path "npm".toList <;> cases path "node".toList <;> simp

/-- Instance of C13 with `node` as the only executable found: the check returns no error
although neither `npm` nor `npx` is found, and `runRepomix` goes on to start `npx`, which
fails. -/
theorem checkNodeAvailable_any_of_witness :
    ((checkNodeAvailable nodeOnlyEnv).run startMachine).1 = none
      ∧ ((runRepomix nodeOnlyEnv []).run startMachine).1
          = .error ("failed to run repomix analysis: repomix command failed: "
              ++ "executable file not found").toList :=
  ⟨(checkNodeAvailable_any_of nodeOnlyEnv (fun f => f == "node".toList) (fun _ _ => rfl)
      startMachine).1.mpr (Or.inr (Or.inr (by decide))),
    by decide⟩

/-! ## The `npx` command line -/

theorem ite_append_same {α : Type} (c : Prop) [Decidable c] (a x : List α) :
    (if c then a ++ x else a) = a ++ (if c then x else []) := by
  split <;> simp

theorem ite_append_both {α : Type} (c : Prop) [Decidable c] (a x y : List α) :
    (if c then a ++ x else a ++ y) = a ++ (if c then x else y) := by
  split <;> rfl

theorem mem_ite_nil {α : Type} {c : Prop} [Decidable c] {x : α} {l : List α}
    (h : x ∈ (if c then l else [])) : x ∈ l := by
  split at h
  · exact h
  · simp at h

/-- The argument list is the head of the spec followed by the optional arguments. -/
theorem repomixArgs_eq (g : Globals) (targetPath outputFile : GoString) :
    repomixArgs g targetPath outputFile
      = repomixHead g.repomixRemote targetPath outputFile ++ repomixOptions g := by
  simp only [repomixArgs, repomixHead, repomixOptions, ite_append_same, ite_append_both,
    List.append_assoc, List.cons_append, List.nil_append, List.singleton_append]
  by_cases h1 : g.repomixRemote = [] <;> by_cases h2 : g.repomixIncludePatterns = [] <;>
    simp [h1, h2]

theorem digitChar_ne_c (d : Nat) (h : d < 10) : Nat.digitChar d ≠ 'c' := by
  interval_cases d <;> decide

theorem toDigitsCore_no_c : ∀ (fuel n : Nat) (ds : List Char), 'c' ∉ ds →
    'c' ∉ Nat.toDigitsCore 10 fuel n ds := by
  intro fuel
  induction fuel with
  | zero => intro n ds h; simpa [Nat.toDigitsCore] using h
  | succ k ih =>
    intro n ds h
    have hd : 'c' ∉ Nat.digitChar (n % 10) :: ds := by
      intro hc
      rcases List.mem_cons.mp hc with e | e
      · exact digitChar_ne_c (n % 10) (Nat.mod_lt _ (by decide)) e.symm
      · exact h e
    simp only [Nat.toDigitsCore]
    split
    · exact hd
    · exact ih _ _ hd

/-- The decimal text of an integer (`%d`) has no letter `c`. -/
theorem toString_int_no_c (i : Int) : 'c' ∉ (toString i).toList := by
  cases i with
  | ofNat m =>
    show 'c' ∉ (Nat.toDigits 10 m)
    exact toDigitsCore_no_c _ _ _ (by simp)
  | negSucc m =>
    show 'c' ∉ '-' :: (Nat.toDigits 10 (m + 1))
    intro hc
    rcases List.mem_cons.mp hc with e | e
    · exact absurd e (by decide)
    · exact toDigitsCore_no_c _ _ _ (by simp) e

/-- The program adds no `--compress`: among the optional arguments only a value given by
the user (include patterns, ignore patterns, header text) can be that text. -/
theorem compress_not_added (g : Globals) (h : "--compress".toList ∈ repomixOptions g) :
    "--compress".toList = g.repomixIncludePatterns
      ∨ "--compress".toList = g.repomixIgnorePatterns
      ∨ "--compress".toList = g.repomixHeaderText := by
  simp only [repomixOptions, List.mem_append] at h
  rcases h with ((((((((h | h) | h) | h) | h) | h) | h) | h) | h) | h
  all_goals have h2 := mem_ite_nil h
  all_goals simp only [List.mem_cons, List.mem_singleton, List.not_mem_nil, or_false] at h2
  · rcases h2 with e | e
    · exact absurd e (by decide)
    · exact Or.inl e
  · rcases h2 with e | e
    · exact absurd e (by decide)
    · exact Or.inr (Or.inl e)
  · exact absurd h2 (by decide)
  · exact absurd h2 (by decide)
  · exact absurd h2 (by decide)
  · exact absurd h2 (by decide)
  · exact absurd h2 (by decide)
  · exact absurd h2 (by decide)
  · rcases h2 with e | e
    · exact absurd e (by decide)
    · exact absurd (e ▸ (by decide : 'c' ∈ "--compress".toList)) (toString_int_no_c _)
  · rcases h2 with e | e
    · exact absurd e (by decide)
    · exact Or.inr (Or.inr e)


/-- A trace extension with one subprocess, `npx` with the given arguments. -/
theorem single_npx_run (h0 pre post tr : List Event) (args : List GoString) (dir : GoString)
    (htr : tr = h0 ++ pre ++ [Event.run "npx".toList args dir] ++ post)
    (hpre : ∀ n a d, Event.run n a d ∉ pre) (hpost : ∀ n a d, Event.run n a d ∉ post) :
    ∃ evs : List Event, tr = h0 ++ evs
      ∧ (∃ d, Event.run "npx".toList args d ∈ evs)
      ∧ (∀ n a d, Event.run n a d ∈ evs → n = "npx".toList ∧ a = args) := by
  refine ⟨pre ++ [Event.run "npx".toList args dir] ++ post, ?_, ⟨dir, ?_⟩, ?_⟩
  · rw [htr]
    simp only [List.append_assoc]
  · simp
  · intro n a d h
    simp only [List.mem_append, List.mem_singleton] at h
    rcases h with (h | h) | h
    · exact absurd h (hpre n a d)
    · cases h
      exact ⟨rfl, rfl⟩
    · exact absurd h (hpost n a d)

/-- C11: for every setting of the repomix options, `runRepomixAnalysis` starts one
subprocess, `npx`, whose argument list is `repomix`, then `--remote` and the remote when
`repomixRemote` is non-empty and else the target path alone, then `--style markdown
--output <output file>`, then the optional arguments; the program adds no `--compress`:
among the optional arguments only an include pattern, ignore pattern or header text given
by the user can be that text. -/
theorem runRepomixAnalysis_command_line (E : Env) (targetPath : GoString) (m : Machine) :
    (∃ evs : List Event,
        ((runRepomixAnalysis E targetPath).run m).2.trace = m.trace ++ evs
          ∧ (∃ dir, Event.run "npx".toList
                (repomixHead m.globals.repomixRemote targetPath
                    (repomixOutputFile E m.globals targetPath (E.now m.trace))
                  ++ repomixOptions m.globals) dir ∈ evs)
          ∧ (∀ n a d, Event.run n a d ∈ evs →
              n = "npx".toList
                ∧ a = repomixHead m.globals.repomixRemote targetPath
                      (repomixOutputFile E m.globals targetPath (E.now m.trace))
                    ++ repomixOptions m.globals))
      ∧ ("--compress".toList ∈ repomixOptions m.globals →
          "--compress".toList = m.globals.repomixIncludePatterns
            ∨ "--compress".toList = m.globals.repomixIgnorePatterns
            ∨ "--compress".toList = m.globals.repomixHeaderText) := by
  refine ⟨?_, compress_not_added m.globals⟩
  rw [← repomixArgs_eq]
  simp only [runRepomixAnalysis, getTimestamp, osStat, execRun, run_bind, run_getGlobals,
    run_perform, run_pure, run_ite, repomixOutputFile]
  generalize E.join _ = out
  generalize repomixArgs m.globals targetPath out = args
  split
  · split
    · split
      · exact single_npx_run _ [Event.now, Event.stat targetPath] [] _ _ targetPath
          (by simp [run_pure]) (by simp) (by simp)
      · exact single_npx_run _ [Event.now, Event.stat targetPath] [Event.stat out] _ _ targetPath
          (by simp [run_pure, run_bind, run_perform]) (by simp) (by simp)
    · split
      · exact single_npx_run _ [Event.now, Event.stat targetPath] [] _ _ (E.dir targetPath)
          (by simp [run_pure]) (by simp) (by simp)
      · exact single_npx_run _ [Event.now, Event.stat targetPath] [Event.stat out] _ _
          (E.dir targetPath) (by simp [run_pure, run_bind, run_perform]) (by simp) (by simp)
  · split
    · exact single_npx_run _ [Event.now] [] _ _ []
        (by simp [run_pure]) (by simp) (by simp)
    · exact single_npx_run _ [Event.now] [Event.stat out] _ _ []
        (by simp [run_pure, run_bind, run_perform]) (by simp) (by simp)

/-- Instance of C11 with the header text `--compress` given by the user: it is the only
way this text gets among the optional arguments. -/
theorem runRepomixAnalysis_command_line_witness :
    "--compress".toList
        ∈ repomixOptions { startMachine.globals with repomixHeaderText := "--compress".toList }
      ∧ ("--compress".toList = startMachine.globals.repomixIncludePatterns
        ∨ "--compress".toList = startMachine.globals.repomixIgnorePatterns
        ∨ "--compress".toList = "--compress".toList) :=
  ⟨by decide,
    (runRepomixAnalysis_command_line bareEnv ".".toList
      { globals := { startMachine.globals with repomixHeaderText := "--compress".toList },
        trace := [] }).2 (by decide)⟩

/-! ## The files of a gitingest result -/

theorem writeCleanFile_run (E : Env) (f c : GoString) (m : Machine) :
    (writeCleanFile E f c).run m
      = ((E.writeFile m.trace f (cleanTextForFile E.unicode c)).map
            (fun err => "failed to write file ".toList ++ f ++ ": ".toList ++ err),
          { m with trace := m.trace ++ [Event.writeFile f (cleanTextForFile E.unicode c)] }) := by
  simp only [writeCleanFile, osWriteFile, run_bind, run_perform]
  cases E.writeFile m.trace f (cleanTextForFile E.unicode c) <;> rfl

theorem writeCleanJSONFile_run (E : Env) (f c : GoString) (m : Machine) :
    (writeCleanJSONFile E f c).run m
      = ((E.writeFile m.trace f
              (replaceAll (replaceAll c [LS] escapedNewline) [PS] escapedNewline)).map
            (fun err => "failed to write JSON file ".toList ++ f ++ ": ".toList ++ err),
          { m with trace := m.trace
              ++ [Event.writeFile f
                    (replaceAll (replaceAll c [LS] escapedNewline) [PS] escapedNewline)] }) := by
  simp only [writeCleanJSONFile, osWriteFile, run_bind, run_perform]
  cases E.writeFile m.trace f
    (replaceAll (replaceAll c [LS] escapedNewline) [PS] escapedNewline) <;> rfl

theorem plannedWrites_events (E : Env) (o j T B su tr c : GoString) (jsonOnly : Bool) :
    (plannedWrites E o j T B su tr c jsonOnly).map PlannedWrite.event
      = expectedWrites E o j T B su tr c jsonOnly := by
  cases jsonOnly <;> rfl

theorem writeGitingestResults_run (E : Env) (j T B su tr c : GoString) (jsonOnly : Bool)
    (m : Machine) :
    (writeGitingestResults E j T B su tr c jsonOnly).run m
      = ((writeInOrder E m.trace
            (plannedWrites E m.globals.gitingestOutput j T B su tr c jsonOnly)).1,
          { m with trace := m.trace ++ (writeInOrder E m.trace
              (plannedWrites E m.globals.gitingestOutput j T B su tr c jsonOnly)).2 }) := by
  simp only [writeGitingestResults, plannedWrites, run_bind, run_getGlobals, run_ite, run_pure]
  generalize E.join [m.globals.gitingestOutput, B ++ "_summary_".toList ++ T ++ ".txt".toList] = f1
  generalize E.join [m.globals.gitingestOutput, B ++ "_tree_".toList ++ T ++ ".txt".toList] = f2
  generalize E.join [m.globals.gitingestOutput, B ++ "_content_".toList ++ T ++ ".txt".toList] = f3
  generalize E.join [m.globals.gitingestOutput, B ++ "_results_".toList ++ T ++ ".json".toList] = f4
  cases jsonOnly with
  | true =>
    simp only [Bool.not_true, Bool.false_eq_true, if_false, if_true, List.nil_append, run_bind,
      run_pure, writeCleanJSONFile_run, writeInOrder, PlannedWrite.event, PlannedWrite.failure]
    cases h4 : E.writeFile m.trace f4
        (replaceAll (replaceAll j [LS] escapedNewline) [PS] escapedNewline) <;> rfl
  | false =>
    simp only [Bool.not_false, Bool.false_eq_true, if_false, if_true, run_bind, run_pure,
      writeCleanFile_run, writeCleanJSONFile_run, writeInOrder, PlannedWrite.event,
      PlannedWrite.failure, List.cons_append, List.nil_append]
    cases h1 : E.writeFile m.trace f1 (cleanTextForFile E.unicode su) with
    | some e1 => rfl
    | none =>
      simp only [Option.map, run_pure, run_bind, writeCleanFile_run, writeCleanJSONFile_run]
      cases h2 : E.writeFile (m.trace ++ [Event.writeFile f1 (cleanTextForFile E.unicode su)]) f2
          (cleanTextForFile E.unicode tr) with
      | some e2 =>
        simp only [List.append_assoc, List.singleton_append, List.cons_append, List.nil_append]
        rfl
      | none =>
        simp only [Option.map, run_pure, run_bind, writeCleanFile_run, writeCleanJSONFile_run]
        cases h3 : E.writeFile
            (m.trace ++ [Event.writeFile f1 (cleanTextForFile E.unicode su)]
              ++ [Event.writeFile f2 (cleanTextForFile E.unicode tr)]) f3
            (cleanTextForFile E.unicode c) with
        | some e3 =>
          simp only [List.append_assoc, List.singleton_append, List.cons_append, List.nil_append]
          rfl
        | none =>
          simp only [Option.map, run_pure, run_bind, writeCleanFile_run, writeCleanJSONFile_run]
          cases h4 : E.writeFile
              (m.trace ++ [Event.writeFile f1 (cleanTextForFile E.unicode su)]
                ++ [Event.writeFile f2 (cleanTextForFile E.unicode tr)]
                ++ [Event.writeFile f3 (cleanTextForFile E.unicode c)]) f4
              (replaceAll (replaceAll j [LS] escapedNewline) [PS] escapedNewline) with
          | some e4 =>
            simp only [List.append_assoc, List.singleton_append, List.cons_append,
              List.nil_append]
            rfl
          | none =>
            simp only [List.append_assoc, List.singleton_append, List.cons_append,
              List.nil_append]
            rfl

theorem writeInOrder_ok (E : Env) (hW : ∀ h n d, E.writeFile h n d = none) :
    ∀ (ws : List PlannedWrite) (h : List Event),
      writeInOrder E h ws = (.nil, ws.map PlannedWrite.event)
  | [], _ => rfl
  | w :: ws, h => by
    simp only [writeInOrder, hW, writeInOrder_ok E hW ws, List.map_cons]

theorem writeInOrder_initial (E : Env) :
    ∀ (ws : List PlannedWrite) (h : List Event),
      (writeInOrder E h ws).2 <+: ws.map PlannedWrite.event
  | [], _ => List.prefix_refl _
  | w :: ws, h => by
    simp only [writeInOrder, List.map_cons]
    cases E.writeFile h w.name w.data with
    | some err => exact ⟨ws.map PlannedWrite.event, rfl⟩
    | none => exact (List.prefix_cons_inj _).2 (writeInOrder_initial E ws _)

theorem writeInOrder_ne_nil (E : Env) (w : PlannedWrite) (ws : List PlannedWrite)
    (h : List Event) : (writeInOrder E h (w :: ws)).2 ≠ [] := by
  simp only [writeInOrder]
  cases E.writeFile h w.name w.data <;> exact List.cons_ne_nil _ _

theorem writeInOrder_nil (E : Env) :
    ∀ (ws : List PlannedWrite) (h : List Event), (writeInOrder E h ws).1 = .nil →
      (writeInOrder E h ws).2 = ws.map PlannedWrite.event
  | [], _, _ => rfl
  | w :: ws, h, hn => by
    simp only [writeInOrder, List.map_cons] at hn ⊢
    cases hw : E.writeFile h w.name w.data with
    | some err =>
      rw [hw] at hn
      cases hn
    | none =>
      rw [hw] at hn
      simp only at hn ⊢
      rw [writeInOrder_nil E ws _ hn]

/-- The first write that fails ends `writeInOrder`: when the writes of `pre` succeed and the
write of `w` fails with `err`, the result is the error of `w` and the calls are those of
`pre` and `w`. -/
theorem writeInOrder_fails (E : Env) (w : PlannedWrite) (post : List PlannedWrite)
    (err : GoString) :
    ∀ (pre : List PlannedWrite) (h : List Event),
      (∀ i (hi : i < pre.length),
        E.writeFile (h ++ (pre.take i).map PlannedWrite.event) (pre.get ⟨i, hi⟩).name
          (pre.get ⟨i, hi⟩).data = none) →
      E.writeFile (h ++ pre.map PlannedWrite.event) w.name w.data = some err →
      writeInOrder E h (pre ++ w :: post)
        = (w.failure err, (pre ++ [w]).map PlannedWrite.event)
  | [], h, _, hw => by
    simp only [List.map_nil, List.append_nil] at hw
    simp only [List.nil_append, writeInOrder, hw, List.map_cons, List.map_nil]
  | p :: pre, h, hpre, hw => by
    have h0 := hpre 0 (Nat.succ_pos _)
    simp only [List.take_zero, List.map_nil, List.append_nil, List.get_eq_getElem,
      List.getElem_cons_zero] at h0
    have ih := writeInOrder_fails E w post err pre (h ++ [p.event])
      (fun i hi => by
        have := hpre (i + 1) (Nat.succ_lt_succ hi)
        simpa only [List.take_succ_cons, List.map_cons, List.get_eq_getElem,
          List.getElem_cons_succ, List.append_assoc, List.singleton_append] using this)
      (by simpa only [List.map_cons, List.append_assoc, List.singleton_append] using hw)
    simp only [List.cons_append, writeInOrder, h0, List.append_eq, ih, List.map_cons]

/-- When every planned write succeeds at its point of the history, all are made and the
result is no error. -/
theorem writeInOrder_all (E : Env) :
    ∀ (ws : List PlannedWrite) (h : List Event),
      (∀ i (hi : i < ws.length),
        E.writeFile (h ++ (ws.take i).map PlannedWrite.event) (ws.get ⟨i, hi⟩).name
          (ws.get ⟨i, hi⟩).data = none) →
      writeInOrder E h ws = (.nil, ws.map PlannedWrite.event)
  | [], _, _ => rfl
  | p :: ws, h, hall => by
    have h0 := hall 0 (Nat.succ_pos _)
    simp only [List.take_zero, List.map_nil, List.append_nil, List.get_eq_getElem,
      List.getElem_cons_zero] at h0
    have ih := writeInOrder_all E ws (h ++ [p.event])
      (fun i hi => by
        have := hall (i + 1) (Nat.succ_lt_succ hi)
        simpa only [List.take_succ_cons, List.map_cons, List.get_eq_getElem,
          List.getElem_cons_succ, List.append_assoc, List.singleton_append] using this)
    simp only [writeInOrder, h0, ih, List.map_cons]

theorem getVenvPython_globals (E : Env) (m : Machine) :
    ((getVenvPython E).run m).2.globals = m.globals := by
  simp only [getVenvPython, getVenvPath, osStat, osGetwd, run_bind, run_perform, run_ite,
    run_pure]
  split <;> split <;> (try split) <;> rfl

theorem writeInOrder_jsonOnly (E : Env) (o j T B su tr c : GoString) (h : List Event) :
    (writeInOrder E h (plannedWrites E o j T B su tr c true)).2
      = expectedWrites E o j T B su tr c true := by
  simp only [plannedWrites, expectedWrites, if_true, List.nil_append, writeInOrder,
    PlannedWrite.event]
  cases E.writeFile h (E.join [o, B ++ "_results_".toList ++ T ++ ".json".toList])
    (replaceAll (replaceAll j [LS] escapedNewline) [PS] escapedNewline) <;> rfl

theorem writeInOrder_planned_ne_nil (E : Env) (o j T B su tr c : GoString) (jsonOnly : Bool)
    (h : List Event) :
    (writeInOrder E h (plannedWrites E o j T B su tr c jsonOnly)).2 ≠ [] := by
  cases jsonOnly <;> exact writeInOrder_ne_nil E _ _ h

/-- The run of `runGitingestAnalysis` when the script succeeds and its result decodes: the
planned writes in order up to the first failure, then the removal of the temporary file. -/
theorem runGitingestAnalysis_run (E : Env) (targetPath : GoString) (m m1 : Machine)
    (py jsonData T B su tr c : GoString) (results stats : List (GoString × JSONValue))
    (jsonOnly : Bool)
    (hpy : (getVenvPython E).run m = (py, m1))
    (hrun : (E.run m1.trace py (gitingestCommand E m.globals targetPath) []).err = none)
    (hdone : contains (E.run m1.trace py (gitingestCommand E m.globals targetPath) []).stdout
        "GITINGEST_COMPLETED".toList = true)
    (hread : E.readFile
        (m1.trace ++ [Event.run py (gitingestCommand E m.globals targetPath) []])
        (gitingestTempFile E) = .ok jsonData)
    (hdec : E.jsonUnmarshal jsonData = .ok results)
    (hT : assertString results "timestamp".toList = some T)
    (hB : assertString results "base_name".toList = some B)
    (hS : assertString results "summary".toList = some su)
    (hTr : assertString results "tree".toList = some tr)
    (hC : assertString results "content".toList = some c)
    (hJ : assertBool results "json_only".toList = some jsonOnly)
    (hSt : assertObject results "stats".toList = some stats) :
    (runGitingestAnalysis E targetPath).run m
      = ((writeInOrder E (gitingestHistory E m1 py m.globals targetPath)
            (plannedWrites E m.globals.gitingestOutput jsonData T B su tr c jsonOnly)).1,
          { globals := m.globals,
            trace := gitingestHistory E m1 py m.globals targetPath
              ++ (writeInOrder E (gitingestHistory E m1 py m.globals targetPath)
                  (plannedWrites E m.globals.gitingestOutput jsonData T B su tr c jsonOnly)).2
              ++ [Event.remove (gitingestTempFile E)] }) := by
  have hg : m1.globals = m.globals := by
    have h := getVenvPython_globals E m
    rw [hpy] at h
    exact h
  obtain ⟨g1, t1⟩ := m1
  simp only at hg hrun hdone hread ⊢
  subst hg
  simp only [gitingestCommand, gitingestTempFile, gitingestHistory] at hrun hdone hread ⊢
  simp only [runGitingestAnalysis, runGitingestAnalysisBody, run_bind, run_getGlobals, run_pure,
    run_ite, execRun, osReadFile, osRemove, run_perform, hpy, hrun, hdone, hread, hdec, hT, hB,
    hS, hTr, hC, hJ, hSt, Bool.not_true, Bool.false_eq_true, if_false, writeGitingestResults_run]
  simp only [List.append_assoc, List.singleton_append, List.cons_append, List.nil_append]

/-- C12, as stated, fails: with a decoded result whose `json_only` is false and an output
directory that cannot be written, `runGitingestAnalysis` stops at the summary file; the
JSON file is not written. -/
theorem gitingest_results_not_written_counterexample :
    readOnlyEnv.jsonUnmarshal "data".toList = .ok sampleResults
      ∧ assertBool sampleResults "json_only".toList = some false
      ∧ ((runGitingestAnalysis readOnlyEnv ".".toList).run startMachine).1
          = .error ("failed to write summary file: failed to write file "
              ++ "output/B_summary_T.txt: permission denied").toList
      ∧ ((runGitingestAnalysis readOnlyEnv ".".toList).run startMachine).2.trace.filter
            Event.isWriteFile
          = [Event.writeFile "output/B_summary_T.txt".toList "s".toList] :=
  ⟨rfl, by decide, by decide, by decide⟩

/-- C12, amended: for a successfully decoded gitingest result with base name `B` and
timestamp `T`, the files `runGitingestAnalysis` writes are, in this order, the summary, tree
and content files with `cleanTextForFile` of their fields (not when `json_only` is true) and
then the JSON file, each only after the earlier writes succeeded.  The first write that
fails ends the function with the error of that write, and no further file is written; when
every write succeeds all the files are written and the function returns no error.  When
`json_only` is true the JSON file is the only file written. -/
theorem runGitingestAnalysis_writes (E : Env) (targetPath : GoString) (m m1 : Machine)
    (py jsonData T B su tr c : GoString) (results stats : List (GoString × JSONValue))
    (jsonOnly : Bool)
    (hpy : (getVenvPython E).run m = (py, m1))
    (hrun : (E.run m1.trace py (gitingestCommand E m.globals targetPath) []).err = none)
    (hdone : contains (E.run m1.trace py (gitingestCommand E m.globals targetPath) []).stdout
        "GITINGEST_COMPLETED".toList = true)
    (hread : E.readFile
        (m1.trace ++ [Event.run py (gitingestCommand E m.globals targetPath) []])
        (gitingestTempFile E) = .ok jsonData)
    (hdec : E.jsonUnmarshal jsonData = .ok results)
    (hT : assertString results "timestamp".toList = some T)
    (hB : assertString results "base_name".toList = some B)
    (hS : assertString results "summary".toList = some su)
    (hTr : assertString results "tree".toList = some tr)
    (hC : assertString results "content".toList = some c)
    (hJ : assertBool results "json_only".toList = some jsonOnly)
    (hSt : assertObject results "stats".toList = some stats) :
    (∃ evs : List Event,
      ((runGitingestAnalysis E targetPath).run m).2.trace
          = m1.trace
            ++ [Event.run py (gitingestCommand E m.globals targetPath) [],
                Event.readFile (gitingestTempFile E)]
            ++ evs ++ [Event.remove (gitingestTempFile E)]
        ∧ evs <+: expectedWrites E m.globals.gitingestOutput jsonData T B su tr c jsonOnly
        ∧ evs ≠ []
        ∧ (jsonOnly = true →
            evs = expectedWrites E m.globals.gitingestOutput jsonData T B su tr c jsonOnly)
        ∧ (((runGitingestAnalysis E targetPath).run m).1 = .nil →
            evs = expectedWrites E m.globals.gitingestOutput jsonData T B su tr c jsonOnly)
        ∧ ((∀ h n d, E.writeFile h n d = none) →
            ((runGitingestAnalysis E targetPath).run m).1 = .nil))
      ∧ (plannedWrites E m.globals.gitingestOutput jsonData T B su tr c jsonOnly).map
            PlannedWrite.event
          = expectedWrites E m.globals.gitingestOutput jsonData T B su tr c jsonOnly
      ∧ (∀ (pre : List PlannedWrite) (w : PlannedWrite) (post : List PlannedWrite)
          (err : GoString),
          plannedWrites E m.globals.gitingestOutput jsonData T B su tr c jsonOnly
            = pre ++ w :: post →
          (∀ i (hi : i < pre.length),
            E.writeFile
              (gitingestHistory E m1 py m.globals targetPath
                ++ (pre.take i).map PlannedWrite.event)
              (pre.get ⟨i, hi⟩).name (pre.get ⟨i, hi⟩).data = none) →
          E.writeFile
              (gitingestHistory E m1 py m.globals targetPath ++ pre.map PlannedWrite.event)
              w.name w.data = some err →
          ((runGitingestAnalysis E targetPath).run m).1 = w.failure err
            ∧ ((runGitingestAnalysis E targetPath).run m).2.trace
                = gitingestHistory E m1 py m.globals targetPath
                  ++ (pre ++ [w]).map PlannedWrite.event
                  ++ [Event.remove (gitingestTempFile E)])
      ∧ ((∀ i (hi : i
            < (plannedWrites E m.globals.gitingestOutput jsonData T B su tr c jsonOnly).length),
            E.writeFile
              (gitingestHistory E m1 py m.globals targetPath
                ++ ((plannedWrites E m.globals.gitingestOutput jsonData T B su tr c
                      jsonOnly).take i).map PlannedWrite.event)
              ((plannedWrites E m.globals.gitingestOutput jsonData T B su tr c jsonOnly).get
                ⟨i, hi⟩).name
              ((plannedWrites E m.globals.gitingestOutput jsonData T B su tr c jsonOnly).get
                ⟨i, hi⟩).data = none) →
          ((runGitingestAnalysis E targetPath).run m).1 = .nil
            ∧ ((runGitingestAnalysis E targetPath).run m).2.trace
                = gitingestHistory E m1 py m.globals targetPath
                  ++ (plannedWrites E m.globals.gitingestOutput jsonData T B su tr c
                      jsonOnly).map PlannedWrite.event
                  ++ [Event.remove (gitingestTempFile E)]) := by
  have key := runGitingestAnalysis_run E targetPath m m1 py jsonData T B su tr c results stats
    jsonOnly hpy hrun hdone hread hdec hT hB hS hTr hC hJ hSt
  rw [key]
  refine ⟨⟨_, rfl, ?_, ?_, ?_, ?_, ?_⟩, plannedWrites_events _ _ _ _ _ _ _ _ _, ?_, ?_⟩
  · rw [← plannedWrites_events]
    exact writeInOrder_initial E _ _
  · exact writeInOrder_planned_ne_nil E _ _ _ _ _ _ _ _ _
  · intro hj
    subst hj
    exact writeInOrder_jsonOnly E _ _ _ _ _ _ _ _
  · intro hn
    rw [← plannedWrites_events]
    exact writeInOrder_nil E _ _ hn
  · intro hW
    rw [writeInOrder_ok E hW]
  · intro pre w post err hws hpre hw
    rw [hws, writeInOrder_fails E w post err pre _ hpre hw]
    exact ⟨rfl, rfl⟩
  · intro hall
    rw [writeInOrder_all E _ _ hall]
    exact ⟨rfl, rfl⟩

/-- Instance of amended C12 in an environment where the script succeeds, the result decodes
to `sampleResults` (`json_only` false) and the write of the tree file fails: the summary
file and the tree file are the only writes, and the function returns the error of the tree
file. -/
theorem runGitingestAnalysis_writes_witness :
    ((runGitingestAnalysis treeFailEnv ".".toList).run startMachine).1
        = .error ("failed to write tree file: failed to write file "
            ++ "output/B_tree_T.txt: no space left on device").toList
      ∧ ((runGitingestAnalysis treeFailEnv ".".toList).run startMachine).2.trace
        = [Event.stat "/app/.venv".toList, Event.getwd,
            Event.run "/work/.venv/bin/python".toList
              ["-c".toList, ".False/tmp/gitingest_results.json".toList] [],
            Event.readFile "/tmp/gitingest_results.json".toList,
            Event.writeFile "output/B_summary_T.txt".toList "s".toList,
            Event.writeFile "output/B_tree_T.txt".toList "t".toList,
            Event.remove "/tmp/gitingest_results.json".toList] :=
  (runGitingestAnalysis_writes treeFailEnv ".".toList startMachine _ _ _ _ _ _ _ _
    sampleResults [] false rfl rfl (by decide) rfl rfl rfl rfl rfl rfl rfl rfl rfl).2.2.1
    [⟨"failed to write summary file: ".toList, "failed to write file ".toList,
      "output/B_summary_T.txt".toList, "s".toList⟩]
    ⟨"failed to write tree file: ".toList, "failed to write file ".toList,
      "output/B_tree_T.txt".toList, "t".toList⟩
    [⟨"failed to write content file: ".toList, "failed to write file ".toList,
      "output/B_content_T.txt".toList, "c".toList⟩,
     ⟨"failed to write JSON file: ".toList, "failed to write JSON file ".toList,
      "output/B_results_T.json".toList, "data".toList⟩]
    "no space left on device".toList rfl
    (fun i hi => by
      cases i with
      | zero => rfl
      | succ n => exact absurd (Nat.lt_of_succ_lt_succ hi) (Nat.not_lt_zero n))
    (by decide)

/-! ## One tool enabled, the other disabled -/

theorem createOutputDir_gitingestOnly (E : Env) (d : GoString) :
    Emits GitingestOnly (createOutputDir E d) := by
  unfold createOutputDir osStat osMkdirAll
  repeat' first
    | rfl
    | exact rfl
    | with_reducible apply Emits.pure
    | with_reducible apply Emits.perform
    | with_reducible apply Emits.getGlobals
    | with_reducible apply Emits.setGlobals
    | with_reducible apply Emits.bind
    | dsimp only
    | split
    | intro _

theorem createOutputDir_repomixOnly (E : Env) (d : GoString) :
    Emits RepomixOnly (createOutputDir E d) := by
  unfold createOutputDir osStat osMkdirAll
  repeat' first
    | rfl
    | exact rfl
    | with_reducible apply Emits.pure
    | with_reducible apply Emits.perform
    | with_reducible apply Emits.getGlobals
    | with_reducible apply Emits.setGlobals
    | with_reducible apply Emits.bind
    | dsimp only
    | split
    | intro _

theorem getVenvPython_gitingestOnly (E : Env) :
    Emits GitingestOnly (getVenvPython E) := by
  unfold getVenvPython getVenvPath osStat osGetwd
  repeat' first
    | rfl
    | exact rfl
    | with_reducible apply Emits.pure
    | with_reducible apply Emits.perform
    | with_reducible apply Emits.getGlobals
    | with_reducible apply Emits.setGlobals
    | with_reducible apply Emits.bind
    | dsimp only
    | split
    | intro _

theorem checkPythonAvailable_gitingestOnly (E : Env) :
    Emits GitingestOnly (checkPythonAvailable E) := by
  unfold checkPythonAvailable osStat execRun
  repeat' first
    | rfl
    | exact rfl
    | with_reducible apply getVenvPython_gitingestOnly
    | with_reducible apply Emits.pure
    | with_reducible apply Emits.perform
    | with_reducible apply Emits.getGlobals
    | with_reducible apply Emits.setGlobals
    | with_reducible apply Emits.bind
    | dsimp only
    | split
    | intro _

theorem checkGitingestAvailable_gitingestOnly (E : Env) :
    Emits GitingestOnly (checkGitingestAvailable E) := by
  unfold checkGitingestAvailable osStat execRun
  repeat' first
    | rfl
    | exact rfl
    | with_reducible apply getVenvPython_gitingestOnly
    | with_reducible apply Emits.pure
    | with_reducible apply Emits.perform
    | with_reducible apply Emits.getGlobals
    | with_reducible apply Emits.setGlobals
    | with_reducible apply Emits.bind
    | dsimp only
    | split
    | intro _

theorem writeCleanFile_gitingestOnly (E : Env) (f c : GoString) :
    Emits GitingestOnly (writeCleanFile E f c) := by
  unfold writeCleanFile osWriteFile
  repeat' first
    | rfl
    | exact rfl
    | with_reducible apply Emits.pure
    | with_reducible apply Emits.perform
    | with_reducible apply Emits.getGlobals
    | with_reducible apply Emits.setGlobals
    | with_reducible apply Emits.bind
    | dsimp only
    | split
    | intro _

theorem writeCleanJSONFile_gitingestOnly (E : Env) (f c : GoString) :
    Emits GitingestOnly (writeCleanJSONFile E f c) := by
  unfold writeCleanJSONFile osWriteFile
  repeat' first
    | rfl
    | exact rfl
    | with_reducible apply Emits.pure
    | with_reducible apply Emits.perform
    | with_reducible apply Emits.getGlobals
    | with_reducible apply Emits.setGlobals
    | with_reducible apply Emits.bind
    | dsimp only
    | split
    | intro _

theorem writeGitingestResults_gitingestOnly (E : Env) (j t b s tr c : GoString) (o : Bool) :
    Emits GitingestOnly (writeGitingestResults E j t b s tr c o) := by
  unfold writeGitingestResults
  repeat' first
    | rfl
    | exact rfl
    | with_reducible apply writeCleanFile_gitingestOnly
    | with_reducible apply writeCleanJSONFile_gitingestOnly
    | with_reducible apply Emits.pure
    | with_reducible apply Emits.perform
    | with_reducible apply Emits.getGlobals
    | with_reducible apply Emits.setGlobals
    | with_reducible apply Emits.bind
    | dsimp only
    | split
    | intro _

theorem runGitingestAnalysis_gitingestOnly (E : Env) (p : GoString) :
    Emits GitingestOnly (runGitingestAnalysis E p) := by
  unfold runGitingestAnalysis runGitingestAnalysisBody osReadFile osRemove execRun
  repeat' first
    | rfl
    | exact rfl
    | with_reducible apply getVenvPython_gitingestOnly
    | with_reducible apply writeGitingestResults_gitingestOnly
    | with_reducible apply Emits.pure
    | with_reducible apply Emits.perform
    | with_reducible apply Emits.getGlobals
    | with_reducible apply Emits.setGlobals
    | with_reducible apply Emits.bind
    | dsimp only
    | split
    | intro _

theorem runGitingestForAnalyze_gitingestOnly (E : Env) (p : GoString) (r : Bool) :
    Emits GitingestOnly (runGitingestForAnalyze E p r) := by
  unfold runGitingestForAnalyze
  repeat' first
    | rfl
    | exact rfl
    | with_reducible apply checkPythonAvailable_gitingestOnly
    | with_reducible apply checkGitingestAvailable_gitingestOnly
    | with_reducible apply runGitingestAnalysis_gitingestOnly
    | with_reducible apply Emits.pure
    | with_reducible apply Emits.perform
    | with_reducible apply Emits.getGlobals
    | with_reducible apply Emits.setGlobals
    | with_reducible apply Emits.bind
    | dsimp only
    | split
    | intro _

theorem checkNodeAvailable_repomixOnly (E : Env) :
    Emits RepomixOnly (checkNodeAvailable E) := by
  unfold checkNodeAvailable execLookPath
  repeat' first
    | rfl
    | exact rfl
    | with_reducible apply Emits.pure
    | with_reducible apply Emits.perform
    | with_reducible apply Emits.getGlobals
    | with_reducible apply Emits.setGlobals
    | with_reducible apply Emits.bind
    | dsimp only
    | split
    | intro _

theorem repomixArgs_head (g : Globals) (targetPath outputFile : GoString) :
    (repomixArgs g targetPath outputFile).head? = some "repomix".toList := by
  rw [repomixArgs_eq]
  rfl

theorem repomixOnly_npx (g : Globals) (targetPath outputFile dir : GoString) :
    RepomixOnly (Event.run "npx".toList (repomixArgs g targetPath outputFile) dir) := by
  simp only [RepomixOnly, Event.ofRepomixRun, repomixArgs_head, beq_self_eq_true, Bool.and_self]

theorem runRepomixAnalysis_repomixOnly (E : Env) (p : GoString) :
    Emits RepomixOnly (runRepomixAnalysis E p) := by
  unfold runRepomixAnalysis getTimestamp osStat execRun
  repeat' first
    | rfl
    | exact rfl
    | exact repomixOnly_npx _ _ _ _
    | with_reducible apply Emits.pure
    | with_reducible apply Emits.perform
    | with_reducible apply Emits.getGlobals
    | with_reducible apply Emits.setGlobals
    | with_reducible apply Emits.bind
    | dsimp only
    | split
    | intro _

theorem runRepomixForAnalyze_repomixOnly (E : Env) (cfg : Config) (p : GoString) (r : Bool) :
    Emits RepomixOnly (runRepomixForAnalyze E cfg p r) := by
  unfold runRepomixForAnalyze
  repeat' first
    | rfl
    | exact rfl
    | with_reducible apply checkNodeAvailable_repomixOnly
    | with_reducible apply runRepomixAnalysis_repomixOnly
    | with_reducible apply Emits.pure
    | with_reducible apply Emits.perform
    | with_reducible apply Emits.getGlobals
    | with_reducible apply Emits.setGlobals
    | with_reducible apply Emits.bind
    | dsimp only
    | split
    | intro _

theorem resolveGitingest_output (cfg : Config) (flags : FlagArgs) (m : Machine) :
    ((resolveGitingest cfg flags).run m).2.globals.analyzeOutput = m.globals.analyzeOutput := by
  simp only [resolveGitingest, run_bind, run_ite, run_pure, run_setGlobals, run_getGlobals]
  split_ifs <;> rfl

theorem resolveRepomix_output (cfg : Config) (flags : FlagArgs) (m : Machine) :
    ((resolveRepomix cfg flags).run m).2.globals.analyzeOutput = m.globals.analyzeOutput := by
  simp only [resolveRepomix, run_bind, run_ite, run_pure, run_setGlobals, run_getGlobals]
  split_ifs <;> rfl

theorem resolveHeaderText_output (cfg : Config) (flags : FlagArgs) (m : Machine) :
    ((resolveHeaderText cfg flags).run m).2.globals.analyzeOutput = m.globals.analyzeOutput := by
  simp only [resolveHeaderText, run_bind, run_ite, run_pure, run_setGlobals, run_getGlobals]
  split_ifs <;> rfl

theorem resolveOutput_output (cfg : Config) (flags : FlagArgs) (m : Machine)
    (hf : changed flags "output" = false) :
    ((resolveOutput cfg flags).run m).2.globals.analyzeOutput
      = if viperGetUnbound [] cfg.analyzeOutputDir ≠ [] then
          viperGetUnbound [] cfg.analyzeOutputDir
        else m.globals.analyzeOutput := by
  simp only [resolveOutput, run_bind, run_ite, run_pure, run_setGlobals, run_getGlobals, hf]
  split_ifs <;> first | rfl | simp_all

/-- The output directory after the resolution, when no `--output` flag was given: the
value of the config when it is not empty, else the value the variable had. -/
theorem resolveAnalyze_output (cfg : Config) (flags : FlagArgs) (m : Machine)
    (hf : changed flags "output" = false) :
    ((resolveAnalyze cfg flags).run m).2.globals.analyzeOutput
      = if viperGetUnbound [] cfg.analyzeOutputDir ≠ [] then
          viperGetUnbound [] cfg.analyzeOutputDir
        else m.globals.analyzeOutput := by
  simp only [resolveAnalyze, run_bind]
  rw [resolveHeaderText_output, resolveRepomix_output, resolveGitingest_output,
    resolveOutput_output cfg flags m hf]

/-- The tool phase with only gitingest switched on is the run of the gitingest driver. -/
theorem analyzeTools_gitingest_eq (E : Env) (cfg : Config) (p : GoString) (r : Bool)
    (m : Machine)
    (hG : m.globals.analyzeGitingest = true) (hR : m.globals.analyzeRepomix = false) :
    (analyzeTools E cfg p r).run m
      = (toolOutcome ((runGitingestForAnalyze E p r).run m).1,
          ((runGitingestForAnalyze E p r).run m).2) := by
  obtain ⟨evs, h1, h2, h3, h4⟩ := runGitingestForAnalyze_events E p r m
  simp only [analyzeTools, run_bind, run_getGlobals, run_pure, run_ite, hG, hR]
  generalize (runGitingestForAnalyze E p r).run m = x at h1 h3 h4 ⊢
  obtain ⟨res, m1⟩ := x
  simp only at h1 h3 h4
  have hR1 : m1.globals.analyzeRepomix = false := h4.trans hR
  cases res <;>
    simp [hR1, run_bind, run_getGlobals, run_pure, run_ite, toolOutcome]

/-- The tool phase with only repomix switched on is the run of the repomix driver. -/
theorem analyzeTools_repomix_eq (E : Env) (cfg : Config) (p : GoString) (r : Bool)
    (m : Machine)
    (hG : m.globals.analyzeGitingest = false) (hR : m.globals.analyzeRepomix = true) :
    (analyzeTools E cfg p r).run m
      = (toolOutcome ((runRepomixForAnalyze E cfg p r).run m).1,
          ((runRepomixForAnalyze E cfg p r).run m).2) := by
  simp only [analyzeTools, run_bind, run_getGlobals, run_pure, run_ite, hG, hR]
  generalize (runRepomixForAnalyze E cfg p r).run m = x
  obtain ⟨res, m1⟩ := x
  cases res <;>
    simp [run_bind, run_getGlobals, run_pure, run_ite, toolOutcome]

theorem getVenvPython_static (E : Env) (inContainer : Bool) (cwd : Except GoString GoString)
    (hv : ∀ h, (E.stat h "/app/.venv".toList).isOk = inContainer)
    (hw : ∀ h, E.getwd h = cwd) (m : Machine) :
    (getVenvPython E).run m
      = (venvPythonOf E inContainer cwd,
          { m with trace := m.trace ++ venvEvents inContainer }) := by
  cases inContainer <;> cases cwd <;> cases hwin : E.windows <;>
    simp only [getVenvPython, getVenvPath, osStat, osGetwd, run_bind, run_perform, run_ite,
      run_pure, hv, hw, hwin, venvPythonOf, venvEvents, Bool.false_eq_true, if_false, if_true,
      List.append_assoc, List.singleton_append]

theorem checkPythonAvailable_ready (E : Env) (inContainer : Bool)
    (cwd : Except GoString GoString)
    (hv : ∀ h, (E.stat h "/app/.venv".toList).isOk = inContainer)
    (hw : ∀ h, E.getwd h = cwd)
    (hpy : PythonReady E (venvPythonOf E inContainer cwd)) (m : Machine) :
    (checkPythonAvailable E).run m
      = (none,
          { m with trace := m.trace ++ venvEvents inContainer
              ++ [Event.stat (venvPythonOf E inContainer cwd),
                Event.run (venvPythonOf E inContainer cwd) ["--version".toList] []] }) := by
  simp only [checkPythonAvailable, run_bind, getVenvPython_static E inContainer cwd hv hw,
    osStat, execRun, run_perform, run_ite, run_pure, hpy.1, hpy.2.1, Bool.false_eq_true,
    if_false, Option.isSome_none, List.append_assoc, List.singleton_append]

theorem checkGitingestAvailable_ready (E : Env) (inContainer : Bool)
    (cwd : Except GoString GoString)
    (hv : ∀ h, (E.stat h "/app/.venv".toList).isOk = inContainer)
    (hw : ∀ h, E.getwd h = cwd)
    (hpy : PythonReady E (venvPythonOf E inContainer cwd)) (m : Machine) :
    (checkGitingestAvailable E).run m
      = (none,
          { m with trace := m.trace ++ venvEvents inContainer
              ++ [Event.stat (venvPythonOf E inContainer cwd),
                Event.run (venvPythonOf E inContainer cwd)
                  ["-c".toList,
                    "import gitingest; print(\x27gitingest available\x27)".toList] []] }) := by
  simp only [checkGitingestAvailable, run_bind, getVenvPython_static E inContainer cwd hv hw,
    osStat, execRun, run_perform, run_ite, run_pure, hpy.1, hpy.2.2, Bool.false_eq_true,
    if_false, Option.isSome_none, List.append_assoc, List.singleton_append]

/-- An event of the history stays in the history. -/
theorem mem_trace_of_emits {α : Type} (P : Event → Prop) {x : Act α} (hx : Emits P x)
    {m : Machine} {e : Event} (he : e ∈ m.trace) : e ∈ (x.run m).2.trace := by
  obtain ⟨evs, h⟩ := trace_grows P hx m
  rw [h]
  exact List.mem_append_left _ he

theorem mem_trace_bind {α β : Type} (P : Event → Prop) {x : Act α} {k : α → Act β}
    (hk : ∀ a, Emits P (k a)) {m : Machine} {e : Event} (he : e ∈ (x.run m).2.trace) :
    e ∈ ((x >>= k).run m).2.trace := by
  rw [run_bind]
  exact mem_trace_of_emits P (hk _) he

theorem runGitingestAnalysisBody_starts (E : Env) (inContainer : Bool)
    (cwd : Except GoString GoString)
    (hv : ∀ h, (E.stat h "/app/.venv".toList).isOk = inContainer)
    (hw : ∀ h, E.getwd h = cwd) (p t : GoString) (m : Machine) :
    Event.run (venvPythonOf E inContainer cwd)
        ["-c".toList,
          E.script p (if m.globals.gitingestJSONOnly then "True".toList else "False".toList) t]
        []
      ∈ ((runGitingestAnalysisBody E p t).run m).2.trace := by
  simp only [runGitingestAnalysisBody, run_bind, run_getGlobals,
    getVenvPython_static E inContainer cwd hv hw, execRun, run_perform]
  refine mem_trace_of_emits NotCall ?_ (List.mem_append_right _ (List.mem_singleton.2 rfl))
  unfold osReadFile
  repeat' first
    | rfl
    | with_reducible apply writeGitingestResults_emits
    | with_reducible apply Emits.pure
    | with_reducible apply Emits.perform
    | with_reducible apply Emits.getGlobals
    | with_reducible apply Emits.setGlobals
    | with_reducible apply Emits.bind
    | dsimp only
    | split
    | intro _
  all_goals contradiction

/-- The function `runGitingestAnalysis` starts the gitingest script with the interpreter of
the virtual environment. -/
theorem runGitingestAnalysis_starts (E : Env) (inContainer : Bool)
    (cwd : Except GoString GoString)
    (hv : ∀ h, (E.stat h "/app/.venv".toList).isOk = inContainer)
    (hw : ∀ h, E.getwd h = cwd) (p : GoString) (m : Machine) :
    Event.run (venvPythonOf E inContainer cwd) (gitingestCommand E m.globals p) []
      ∈ ((runGitingestAnalysis E p).run m).2.trace := by
  unfold runGitingestAnalysis
  refine mem_trace_bind NotCall ?_
    (runGitingestAnalysisBody_starts E inContainer cwd hv hw p _ m)
  intro a
  unfold osRemove
  repeat' first
    | rfl
    | with_reducible apply Emits.pure
    | with_reducible apply Emits.perform
    | with_reducible apply Emits.bind
    | dsimp only
    | intro _
  all_goals contradiction

/-- With the interpreter ready, the gitingest driver starts the gitingest script on its
target, with `json_only` off. -/
theorem runGitingestForAnalyze_starts (E : Env) (inContainer : Bool)
    (cwd : Except GoString GoString)
    (hv : ∀ h, (E.stat h "/app/.venv".toList).isOk = inContainer)
    (hw : ∀ h, E.getwd h = cwd)
    (hpy : PythonReady E (venvPythonOf E inContainer cwd))
    (p : GoString) (r : Bool) (m : Machine) :
    Event.run (venvPythonOf E inContainer cwd)
        ["-c".toList, E.script p "False".toList (gitingestTempFile E)] []
      ∈ ((runGitingestForAnalyze E p r).run m).2.trace := by
  simp only [runGitingestForAnalyze, run_bind, run_perform, run_setGlobals, run_pure,
    checkPythonAvailable_ready E inContainer cwd hv hw hpy,
    checkGitingestAvailable_ready E inContainer cwd hv hw hpy]
  exact runGitingestAnalysis_starts E inContainer cwd hv hw p _

theorem checkNodeAvailable_found (E : Env) (path : GoString → Bool)
    (hP : ∀ h f, E.lookPath h f = path f)
    (hf : (path "npx".toList || path "npm".toList || path "node".toList) = true)
    (m : Machine) :
    (checkNodeAvailable E).run m = (none, { m with trace := m.trace ++ nodeLookups path }) := by
  simp only [checkNodeAvailable, execLookPath, run_bind, run_perform, run_ite, run_pure, hP,
    nodeLookups]
  revert hf
  cases path "npx".toList <;> cases path "npm".toList <;> cases path "node".toList <;>
    simp

/-- The function `runRepomixAnalysis` starts `npx` with the command line of C11. -/
theorem runRepomixAnalysis_npx (E : Env) (targetPath : GoString) (m : Machine) :
    ∃ dir, Event.run "npx".toList
        (repomixHead m.globals.repomixRemote targetPath
            (repomixOutputFile E m.globals targetPath (E.now m.trace))
          ++ repomixOptions m.globals) dir
      ∈ ((runRepomixAnalysis E targetPath).run m).2.trace := by
  have key : ∃ evs : List Event,
      ((runRepomixAnalysis E targetPath).run m).2.trace = m.trace ++ evs
        ∧ (∃ dir, Event.run "npx".toList
              (repomixHead m.globals.repomixRemote targetPath
                  (repomixOutputFile E m.globals targetPath (E.now m.trace))
                ++ repomixOptions m.globals) dir ∈ evs)
        ∧ (∀ n a d, Event.run n a d ∈ evs →
            n = "npx".toList
              ∧ a = repomixHead m.globals.repomixRemote targetPath
                    (repomixOutputFile E m.globals targetPath (E.now m.trace))
                  ++ repomixOptions m.globals) := by
    rw [← repomixArgs_eq]
    simp only [runRepomixAnalysis, getTimestamp, osStat, execRun, run_bind, run_getGlobals,
      run_perform, run_pure, run_ite, repomixOutputFile]
    generalize E.join _ = out
    generalize repomixArgs m.globals targetPath out = args
    split
    · split
      · split
        · exact single_npx_run _ [Event.now, Event.stat targetPath] [] _ _ targetPath
            (by simp [run_pure]) (by simp) (by simp)
        · exact single_npx_run _ [Event.now, Event.stat targetPath] [Event.stat out] _ _
            targetPath (by simp [run_pure, run_bind, run_perform]) (by simp) (by simp)
      · split
        · exact single_npx_run _ [Event.now, Event.stat targetPath] [] _ _ (E.dir targetPath)
            (by simp [run_pure]) (by simp) (by simp)
        · exact single_npx_run _ [Event.now, Event.stat targetPath] [Event.stat out] _ _
            (E.dir targetPath) (by simp [run_pure, run_bind, run_perform]) (by simp) (by simp)
    · split
      · exact single_npx_run _ [Event.now] [] _ _ []
          (by simp [run_pure]) (by simp) (by simp)
      · exact single_npx_run _ [Event.now] [Event.stat out] _ _ []
          (by simp [run_pure, run_bind, run_perform]) (by simp) (by simp)
  obtain ⟨evs, h1, ⟨dir, h2⟩, -⟩ := key
  exact ⟨dir, by rw [h1]; exact List.mem_append_right _ h2⟩

/-- With one of `npx`, `npm`, `node` on `PATH`, the repomix driver starts `npx repomix` on
its target: after `--remote` for a remote target, as the path itself for a local one. -/
theorem runRepomixForAnalyze_starts (E : Env) (cfg : Config) (path : GoString → Bool)
    (hP : ∀ h f, E.lookPath h f = path f)
    (hf : (path "npx".toList || path "npm".toList || path "node".toList) = true)
    (p : GoString) (r : Bool) (m : Machine) :
    ∃ (out : GoString) (opts : List GoString) (dir : GoString),
      Event.run "npx".toList (repomixHead (if r then p else []) p out ++ opts) dir
        ∈ ((runRepomixForAnalyze E cfg p r).run m).2.trace := by
  simp only [runRepomixForAnalyze, run_bind, run_perform, run_setGlobals, run_pure, run_ite,
    run_getGlobals, checkNodeAvailable_found E path hP hf]
  cases r <;> simp only [Bool.false_eq_true, if_false, if_true, run_setGlobals] <;> split <;>
    exact ⟨_, _, runRepomixAnalysis_npx E p _⟩

theorem outputDirEvents_gitingestOnly (E : Env) (h : List Event) (d : GoString) :
    ∀ e ∈ outputDirEvents E h d, GitingestOnly e := by
  intro e he
  simp only [outputDirEvents, List.mem_cons] at he
  rcases he with he | he
  · rw [he]; rfl
  · split at he
    · rw [List.mem_singleton.1 he]; rfl
    · cases he

theorem outputDirEvents_repomixOnly (E : Env) (h : List Event) (d : GoString) :
    ∀ e ∈ outputDirEvents E h d, RepomixOnly e := by
  intro e he
  simp only [outputDirEvents, List.mem_cons] at he
  rcases he with he | he
  · rw [he]; rfl
  · split at he
    · rw [List.mem_singleton.1 he]; rfl
    · cases he

theorem emits_run {α : Type} {P : Event → Prop} {x : Act α} (h : Emits P x) (m : Machine) :
    ∃ evs : List Event, (x.run m).2.trace = m.trace ++ evs ∧ (∀ e ∈ evs, P e)
      ∧ (x.run m).2.globals.analyzeGitingest = m.globals.analyzeGitingest
      ∧ (x.run m).2.globals.analyzeRepomix = m.globals.analyzeRepomix := by
  unfold Emits at h
  exact h m

/-- With only gitingest on after the resolution, every event of `runAnalyze` is one of a
gitingest run, and the switches stay. -/
theorem runAnalyze_gitingestOnly (E : Env) (cfg : Config) (flags : FlagArgs)
    (args : List GoString) (m : Machine)
    (hG : ((resolveAnalyze cfg flags).run m).2.globals.analyzeGitingest = true)
    (hR : ((resolveAnalyze cfg flags).run m).2.globals.analyzeRepomix = false) :
    (∃ evs : List Event, ((runAnalyze E cfg flags args).run m).2.trace = m.trace ++ evs
        ∧ ∀ e ∈ evs, GitingestOnly e)
      ∧ ((runAnalyze E cfg flags args).run m).2.globals.analyzeGitingest = true
      ∧ ((runAnalyze E cfg flags args).run m).2.globals.analyzeRepomix = false := by
  have tools : ∀ (p : GoString) (r : Bool) (pre : List Event),
      (∀ e ∈ pre, GitingestOnly e) →
      (∃ evs : List Event,
        ((analyzeTools E cfg p r).run
            { globals := ((resolveAnalyze cfg flags).run m).2.globals,
              trace := m.trace ++ pre }).2.trace = m.trace ++ evs
          ∧ ∀ e ∈ evs, GitingestOnly e)
        ∧ ((analyzeTools E cfg p r).run
            { globals := ((resolveAnalyze cfg flags).run m).2.globals,
              trace := m.trace ++ pre }).2.globals.analyzeGitingest = true
        ∧ ((analyzeTools E cfg p r).run
            { globals := ((resolveAnalyze cfg flags).run m).2.globals,
              trace := m.trace ++ pre }).2.globals.analyzeRepomix = false := by
    intro p r pre hpre
    rw [analyzeTools_gitingest_eq E cfg p r
      { globals := ((resolveAnalyze cfg flags).run m).2.globals, trace := m.trace ++ pre }
      hG hR]
    obtain ⟨evs, h1, h2, h3, h4⟩ := emits_run (runGitingestForAnalyze_gitingestOnly E p r)
      { globals := ((resolveAnalyze cfg flags).run m).2.globals, trace := m.trace ++ pre }
    refine ⟨⟨pre ++ evs, by rw [h1]; simp, ?_⟩, h3.trans hG, h4.trans hR⟩
    intro e he
    rcases List.mem_append.1 he with he | he
    · exact hpre e he
    · exact h2 e he
  cases hrem : isRemoteRepository (args.headD m.globals.analyzePath) with
  | true =>
    rw [runAnalyze_remote E cfg flags args m hrem]
    cases outputDirError E m.trace ((resolveAnalyze cfg flags).run m).2.globals.analyzeOutput with
    | some err => exact ⟨⟨_, rfl, outputDirEvents_gitingestOnly E _ _⟩, hG, hR⟩
    | none => exact tools _ _ _ (outputDirEvents_gitingestOnly E _ _)
  | false =>
    rw [runAnalyze_local E cfg flags args m hrem]
    generalize args.headD m.globals.analyzePath = target
    have hsa : ∀ e ∈ [Event.stat target, Event.abs target], GitingestOnly e := by
      intro e he
      simp only [List.mem_cons, List.mem_singleton, List.not_mem_nil, or_false] at he
      rcases he with he | he <;> rw [he] <;> rfl
    cases (E.stat m.trace target).isNotExist with
    | true =>
      refine ⟨⟨[Event.stat target], rfl, ?_⟩, hG, hR⟩
      intro e he
      rw [List.mem_singleton.1 he]
      rfl
    | false =>
      simp only [Bool.false_eq_true, if_false]
      cases E.abs (m.trace ++ [Event.stat target]) target with
      | error err => exact ⟨⟨_, rfl, hsa⟩, hG, hR⟩
      | ok p =>
        have hpre : ∀ e ∈ [Event.stat target, Event.abs target]
            ++ outputDirEvents E (m.trace ++ [Event.stat target, Event.abs target])
              ((resolveAnalyze cfg flags).run m).2.globals.analyzeOutput, GitingestOnly e := by
          intro e he
          rcases List.mem_append.1 he with he | he
          · exact hsa e he
          · exact outputDirEvents_gitingestOnly E _ _ e he
        simp only []
        cases outputDirError E (m.trace ++ [Event.stat target, Event.abs target])
            ((resolveAnalyze cfg flags).run m).2.globals.analyzeOutput with
        | some err => exact ⟨⟨_, (List.append_assoc _ _ _), hpre⟩, hG, hR⟩
        | none =>
          have := tools p false _ hpre
          simpa only [List.append_assoc] using this

/-- With only repomix on after the resolution, every event of `runAnalyze` is one of a
repomix run, and the switches stay. -/
theorem runAnalyze_repomixOnly (E : Env) (cfg : Config) (flags : FlagArgs)
    (args : List GoString) (m : Machine)
    (hG : ((resolveAnalyze cfg flags).run m).2.globals.analyzeGitingest = false)
    (hR : ((resolveAnalyze cfg flags).run m).2.globals.analyzeRepomix = true) :
    (∃ evs : List Event, ((runAnalyze E cfg flags args).run m).2.trace = m.trace ++ evs
        ∧ ∀ e ∈ evs, RepomixOnly e)
      ∧ ((runAnalyze E cfg flags args).run m).2.globals.analyzeGitingest = false
      ∧ ((runAnalyze E cfg flags args).run m).2.globals.analyzeRepomix = true := by
  have tools : ∀ (p : GoString) (r : Bool) (pre : List Event),
      (∀ e ∈ pre, RepomixOnly e) →
      (∃ evs : List Event,
        ((analyzeTools E cfg p r).run
            { globals := ((resolveAnalyze cfg flags).run m).2.globals,
              trace := m.trace ++ pre }).2.trace = m.trace ++ evs
          ∧ ∀ e ∈ evs, RepomixOnly e)
        ∧ ((analyzeTools E cfg p r).run
            { globals := ((resolveAnalyze cfg flags).run m).2.globals,
              trace := m.trace ++ pre }).2.globals.analyzeGitingest = false
        ∧ ((analyzeTools E cfg p r).run
            { globals := ((resolveAnalyze cfg flags).run m).2.globals,
              trace := m.trace ++ pre }).2.globals.analyzeRepomix = true := by
    intro p r pre hpre
    rw [analyzeTools_repomix_eq E cfg p r
      { globals := ((resolveAnalyze cfg flags).run m).2.globals, trace := m.trace ++ pre }
      hG hR]
    obtain ⟨evs, h1, h2, h3, h4⟩ := emits_run (runRepomixForAnalyze_repomixOnly E cfg p r)
      { globals := ((resolveAnalyze cfg flags).run m).2.globals, trace := m.trace ++ pre }
    refine ⟨⟨pre ++ evs, by rw [h1]; simp, ?_⟩, h3.trans hG, h4.trans hR⟩
    intro e he
    rcases List.mem_append.1 he with he | he
    · exact hpre e he
    · exact h2 e he
  cases hrem : isRemoteRepository (args.headD m.globals.analyzePath) with
  | true =>
    rw [runAnalyze_remote E cfg flags args m hrem]
    cases outputDirError E m.trace ((resolveAnalyze cfg flags).run m).2.globals.analyzeOutput with
    | some err => exact ⟨⟨_, rfl, outputDirEvents_repomixOnly E _ _⟩, hG, hR⟩
    | none => exact tools _ _ _ (outputDirEvents_repomixOnly E _ _)
  | false =>
    rw [runAnalyze_local E cfg flags args m hrem]
    generalize args.headD m.globals.analyzePath = target
    have hsa : ∀ e ∈ [Event.stat target, Event.abs target], RepomixOnly e := by
      intro e he
      simp only [List.mem_cons, List.mem_singleton, List.not_mem_nil, or_false] at he
      rcases he with he | he <;> rw [he] <;> rfl
    cases (E.stat m.trace target).isNotExist with
    | true =>
      refine ⟨⟨[Event.stat target], rfl, ?_⟩, hG, hR⟩
      intro e he
      rw [List.mem_singleton.1 he]
      rfl
    | false =>
      simp only [Bool.false_eq_true, if_false]
      cases E.abs (m.trace ++ [Event.stat target]) target with
      | error err => exact ⟨⟨_, rfl, hsa⟩, hG, hR⟩
      | ok p =>
        have hpre : ∀ e ∈ [Event.stat target, Event.abs target]
            ++ outputDirEvents E (m.trace ++ [Event.stat target, Event.abs target])
              ((resolveAnalyze cfg flags).run m).2.globals.analyzeOutput, RepomixOnly e := by
          intro e he
          rcases List.mem_append.1 he with he | he
          · exact hsa e he
          · exact outputDirEvents_repomixOnly E _ _ e he
        simp only []
        cases outputDirError E (m.trace ++ [Event.stat target, Event.abs target])
            ((resolveAnalyze cfg flags).run m).2.globals.analyzeOutput with
        | some err => exact ⟨⟨_, (List.append_assoc _ _ _), hpre⟩, hG, hR⟩
        | none =>
          have := tools p false _ hpre
          simpa only [List.append_assoc] using this

/-- With only gitingest on after the resolution, a target that is ready, an output
directory that is there or can be created and an interpreter that is ready, `runAnalyze`
does the checks before the tool phase, enters the gitingest driver and starts the gitingest
script on the target. -/
theorem runAnalyze_gitingest_starts (E : Env) (cfg : Config) (flags : FlagArgs)
    (args : List GoString) (m : Machine) (toolPath : GoString) (inContainer : Bool)
    (cwd : Except GoString GoString)
    (hG : ((resolveAnalyze cfg flags).run m).2.globals.analyzeGitingest = true)
    (hR : ((resolveAnalyze cfg flags).run m).2.globals.analyzeRepomix = false)
    (hT : TargetReady E (args.headD m.globals.analyzePath) toolPath)
    (hO : ∀ h, outputDirError E h ((resolveAnalyze cfg flags).run m).2.globals.analyzeOutput
      = none)
    (hv : ∀ h, (E.stat h "/app/.venv".toList).isOk = inContainer)
    (hw : ∀ h, E.getwd h = cwd)
    (hpy : PythonReady E (venvPythonOf E inContainer cwd)) :
    (∃ post : List Event,
        ((runAnalyze E cfg flags args).run m).2.trace
          = m.trace
            ++ preToolEvents E m.trace (args.headD m.globals.analyzePath)
              ((resolveAnalyze cfg flags).run m).2.globals.analyzeOutput
            ++ Event.call gitingestDriver :: post)
      ∧ Event.run (venvPythonOf E inContainer cwd)
            ["-c".toList, E.script toolPath "False".toList (gitingestTempFile E)] []
          ∈ ((runAnalyze E cfg flags args).run m).2.trace := by
  have tools : ∀ (r : Bool) (pre : List Event),
      (∃ post : List Event,
        ((analyzeTools E cfg toolPath r).run
            { globals := ((resolveAnalyze cfg flags).run m).2.globals,
              trace := m.trace ++ pre }).2.trace
          = m.trace ++ pre ++ Event.call gitingestDriver :: post)
        ∧ Event.run (venvPythonOf E inContainer cwd)
              ["-c".toList, E.script toolPath "False".toList (gitingestTempFile E)] []
            ∈ ((analyzeTools E cfg toolPath r).run
                { globals := ((resolveAnalyze cfg flags).run m).2.globals,
                  trace := m.trace ++ pre }).2.trace := by
    intro r pre
    rw [analyzeTools_gitingest_eq E cfg toolPath r
      { globals := ((resolveAnalyze cfg flags).run m).2.globals, trace := m.trace ++ pre }
      hG hR]
    obtain ⟨evs, h1, -⟩ := runGitingestForAnalyze_events E toolPath r
      { globals := ((resolveAnalyze cfg flags).run m).2.globals, trace := m.trace ++ pre }
    exact ⟨⟨evs, h1⟩, runGitingestForAnalyze_starts E inContainer cwd hv hw hpy toolPath r _⟩
  rcases hT with ⟨hrem, htp⟩ | ⟨hloc, hst, habs⟩
  · subst htp
    rw [runAnalyze_remote E cfg flags args m hrem]
    simp only [hO, preToolEvents, hrem, if_true]
    exact tools true _
  · rw [runAnalyze_local E cfg flags args m hloc]
    simp only [hO, hst, habs, preToolEvents, hloc, Bool.false_eq_true, if_false]
    have := tools false ([Event.stat (args.headD m.globals.analyzePath),
        Event.abs (args.headD m.globals.analyzePath)]
      ++ outputDirEvents E (m.trace ++ [Event.stat (args.headD m.globals.analyzePath),
          Event.abs (args.headD m.globals.analyzePath)])
        ((resolveAnalyze cfg flags).run m).2.globals.analyzeOutput)
    simpa only [List.append_assoc] using this

/-- With only repomix on after the resolution, a target that is ready, an output directory
that is there or can be created and one of `npx`, `npm`, `node` on `PATH`, `runAnalyze` does
the checks before the tool phase, enters the repomix driver and starts `npx repomix` on the
target. -/
theorem runAnalyze_repomix_starts (E : Env) (cfg : Config) (flags : FlagArgs)
    (args : List GoString) (m : Machine) (toolPath : GoString) (path : GoString → Bool)
    (hG : ((resolveAnalyze cfg flags).run m).2.globals.analyzeGitingest = false)
    (hR : ((resolveAnalyze cfg flags).run m).2.globals.analyzeRepomix = true)
    (hT : TargetReady E (args.headD m.globals.analyzePath) toolPath)
    (hO : ∀ h, outputDirError E h ((resolveAnalyze cfg flags).run m).2.globals.analyzeOutput
      = none)
    (hP : ∀ h f, E.lookPath h f = path f)
    (hf : (path "npx".toList || path "npm".toList || path "node".toList) = true) :
    (∃ post : List Event,
        ((runAnalyze E cfg flags args).run m).2.trace
          = m.trace
            ++ preToolEvents E m.trace (args.headD m.globals.analyzePath)
              ((resolveAnalyze cfg flags).run m).2.globals.analyzeOutput
            ++ Event.call repomixDriver :: post)
      ∧ ∃ (out : GoString) (opts : List GoString) (dir : GoString),
          Event.run "npx".toList
              (repomixHead
                  (if isRemoteRepository (args.headD m.globals.analyzePath) then toolPath
                    else [])
                  toolPath out ++ opts) dir
            ∈ ((runAnalyze E cfg flags args).run m).2.trace := by
  have tools : ∀ (r : Bool) (pre : List Event),
      (∃ post : List Event,
        ((analyzeTools E cfg toolPath r).run
            { globals := ((resolveAnalyze cfg flags).run m).2.globals,
              trace := m.trace ++ pre }).2.trace
          = m.trace ++ pre ++ Event.call repomixDriver :: post)
        ∧ ∃ (out : GoString) (opts : List GoString) (dir : GoString),
            Event.run "npx".toList
                (repomixHead (if r then toolPath else []) toolPath out ++ opts) dir
              ∈ ((analyzeTools E cfg toolPath r).run
                  { globals := ((resolveAnalyze cfg flags).run m).2.globals,
                    trace := m.trace ++ pre }).2.trace := by
    intro r pre
    rw [analyzeTools_repomix_eq E cfg toolPath r
      { globals := ((resolveAnalyze cfg flags).run m).2.globals, trace := m.trace ++ pre }
      hG hR]
    obtain ⟨evs, h1, -⟩ := runRepomixForAnalyze_events E cfg toolPath r
      { globals := ((resolveAnalyze cfg flags).run m).2.globals, trace := m.trace ++ pre }
    exact ⟨⟨evs, h1⟩, runRepomixForAnalyze_starts E cfg path hP hf toolPath r _⟩
  rcases hT with ⟨hrem, htp⟩ | ⟨hloc, hst, habs⟩
  · subst htp
    rw [runAnalyze_remote E cfg flags args m hrem]
    simp only [hO, preToolEvents, hrem, if_true]
    exact tools true _
  · rw [runAnalyze_local E cfg flags args m hloc]
    simp only [hO, hst, habs, preToolEvents, hloc, Bool.false_eq_true, if_false]
    have := tools false ([Event.stat (args.headD m.globals.analyzePath),
        Event.abs (args.headD m.globals.analyzePath)]
      ++ outputDirEvents E (m.trace ++ [Event.stat (args.headD m.globals.analyzePath),
          Event.abs (args.headD m.globals.analyzePath)])
        ((resolveAnalyze cfg flags).run m).2.globals.analyzeOutput)
    simpa only [List.append_assoc, Bool.false_eq_true, if_false] using this

theorem resolved_onlyGitingest (cfg : Config) :
    ((resolveAnalyze cfg onlyGitingest).run
        { startMachine with globals :=
            { startMachine.globals with analyzeGitingest := true, analyzeRepomix := true } }
      ).2.globals.analyzeGitingest = true
      ∧ ((resolveAnalyze cfg onlyGitingest).run
        { startMachine with globals :=
            { startMachine.globals with analyzeGitingest := true, analyzeRepomix := true } }
        ).2.globals.analyzeRepomix = false
      ∧ ((resolveAnalyze cfg onlyGitingest).run
        { startMachine with globals :=
            { startMachine.globals with analyzeGitingest := true, analyzeRepomix := true } }
        ).2.globals.analyzeOutput = analyzeOutputDir cfg := by
  refine ⟨?_, ?_, ?_⟩
  · rw [(resolveAnalyze_run cfg onlyGitingest _).2.1]
    rfl
  · rw [(resolveAnalyze_run cfg onlyGitingest _).2.2]
    rfl
  · rw [resolveAnalyze_output cfg onlyGitingest _ rfl]
    rfl

theorem resolved_onlyRepomix (cfg : Config) :
    ((resolveAnalyze cfg onlyRepomix).run
        { startMachine with globals :=
            { startMachine.globals with analyzeGitingest := true, analyzeRepomix := true } }
      ).2.globals.analyzeGitingest = false
      ∧ ((resolveAnalyze cfg onlyRepomix).run
        { startMachine with globals :=
            { startMachine.globals with analyzeGitingest := true, analyzeRepomix := true } }
        ).2.globals.analyzeRepomix = true
      ∧ ((resolveAnalyze cfg onlyRepomix).run
        { startMachine with globals :=
            { startMachine.globals with analyzeGitingest := true, analyzeRepomix := true } }
        ).2.globals.analyzeOutput = analyzeOutputDir cfg := by
  refine ⟨?_, ?_, ?_⟩
  · rw [(resolveAnalyze_run cfg onlyRepomix _).2.1]
    rfl
  · rw [(resolveAnalyze_run cfg onlyRepomix _).2.2]
    rfl
  · rw [resolveAnalyze_output cfg onlyRepomix _ rfl]
    rfl

/-- What a history of events of a gitingest run does not hold. -/
theorem gitingestOnly_excludes (tr : List Event) (h : ∀ e ∈ tr, GitingestOnly e) :
    (∀ f, Event.lookPath f ∉ tr) ∧ Event.now ∉ tr ∧ Event.call repomixDriver ∉ tr
      ∧ (∀ n a d, Event.run n ("repomix".toList :: a) d ∉ tr) := by
  refine ⟨fun f hm => ?_, fun hm => ?_, fun hm => ?_, fun n a d hm => ?_⟩
  · exact Bool.false_ne_true (h _ hm)
  · exact Bool.false_ne_true (h _ hm)
  · exact Bool.false_ne_true (h _ hm)
  · have := h _ hm
    simp [GitingestOnly, Event.ofGitingestRun] at this

/-- What a history of events of a repomix run does not hold. -/
theorem repomixOnly_excludes (tr : List Event) (h : ∀ e ∈ tr, RepomixOnly e) :
    Event.getwd ∉ tr ∧ (∀ f, Event.readFile f ∉ tr) ∧ (∀ f d, Event.writeFile f d ∉ tr)
      ∧ (∀ f, Event.remove f ∉ tr) ∧ Event.call gitingestDriver ∉ tr
      ∧ (∀ n a d, Event.run n a d ∈ tr →
          n = "npx".toList ∧ a.head? = some "repomix".toList) := by
  refine ⟨fun hm => ?_, fun f hm => ?_, fun f d hm => ?_, fun f hm => ?_, fun hm => ?_,
    fun n a d hm => ?_⟩
  · exact Bool.false_ne_true (h _ hm)
  · exact Bool.false_ne_true (h _ hm)
  · exact Bool.false_ne_true (h _ hm)
  · exact Bool.false_ne_true (h _ hm)
  · exact Bool.false_ne_true (h _ hm)
  · have := h _ hm
    simpa [RepomixOnly, Event.ofRepomixRun] using this

/-- C8, as stated, fails: with `--enable-gitingest --disable-repomix` gitingest is not run
when the target does not exist, and not when the target is there but the virtual
environment is not; with `--enable-repomix --disable-gitingest` repomix is not run when no
Node.js is found.  In each case no subprocess is started at all. -/
theorem enabled_tool_not_run_counterexample :
    ((executeAnalyze bareEnv {} onlyGitingest ["nope".toList]).run startMachine).1
        = .error "target path does not exist: nope".toList
      ∧ ((executeAnalyze bareEnv {} onlyGitingest ["nope".toList]).run startMachine).2.trace
          = [Event.stat "nope".toList]
      ∧ ((executeAnalyze homeEnv {} onlyGitingest []).run startMachine).1
          = .error "analysis completed with errors".toList
      ∧ ((executeAnalyze homeEnv {} onlyGitingest []).run startMachine).2.trace
          = [Event.stat ".".toList, Event.abs ".".toList, Event.stat "analysis-results".toList,
              Event.call gitingestDriver, Event.stat "/app/.venv".toList, Event.getwd,
              Event.stat "/work/.venv/bin/python".toList]
      ∧ ((executeAnalyze homeEnv {} onlyRepomix []).run startMachine).1
          = .error "analysis completed with errors".toList
      ∧ ((executeAnalyze homeEnv {} onlyRepomix []).run startMachine).2.trace
          = [Event.stat ".".toList, Event.abs ".".toList, Event.stat "analysis-results".toList,
              Event.call repomixDriver, Event.lookPath "npx".toList,
              Event.lookPath "npm".toList, Event.lookPath "node".toList] :=
  ⟨by decide, by decide, by decide, by decide, by decide, by decide⟩

/-- C8, amended.  For every config, environment and target, `analyze --enable-gitingest
--disable-repomix` reaches the tool phase with gitingest on and repomix off and does
nothing of repomix: no lookup on `PATH`, no reading of the clock, no entry into the repomix
driver, no subprocess whose first argument is `repomix`.  When the target is ready, the
output directory is there or can be created and the interpreter of the virtual environment
is ready, it does the checks before the tool phase (creating the output directory when it is
missing), enters the gitingest driver and starts the gitingest script on the target.  With
`--enable-repomix --disable-gitingest` the same holds with the tools exchanged: nothing of
gitingest is done (no working directory, no file read, written or removed, no entry into
the gitingest driver, no subprocess other than `npx repomix`), and with the target and the
output directory ready and one of `npx`, `npm`, `node` on `PATH`, `npx repomix` is started
on the target.  The config has no part in this: the flags decide. -/
theorem analyze_enable_one_disable_other (E : Env) (cfg : Config) (args : List GoString) :
    (((∀ e ∈ ((executeAnalyze E cfg onlyGitingest args).run startMachine).2.trace,
            GitingestOnly e)
        ∧ (∀ f, Event.lookPath f
            ∉ ((executeAnalyze E cfg onlyGitingest args).run startMachine).2.trace)
        ∧ Event.now ∉ ((executeAnalyze E cfg onlyGitingest args).run startMachine).2.trace
        ∧ Event.call repomixDriver
            ∉ ((executeAnalyze E cfg onlyGitingest args).run startMachine).2.trace
        ∧ (∀ n a d, Event.run n ("repomix".toList :: a) d
            ∉ ((executeAnalyze E cfg onlyGitingest args).run startMachine).2.trace))
      ∧ ((executeAnalyze E cfg onlyGitingest args).run startMachine).2.globals.analyzeGitingest
          = true
      ∧ ((executeAnalyze E cfg onlyGitingest args).run startMachine).2.globals.analyzeRepomix
          = false
      ∧ (∀ (toolPath : GoString) (inContainer : Bool) (cwd : Except GoString GoString),
          TargetReady E (args.headD ".".toList) toolPath →
          (∀ h, outputDirError E h (analyzeOutputDir cfg) = none) →
          (∀ h, (E.stat h "/app/.venv".toList).isOk = inContainer) →
          (∀ h, E.getwd h = cwd) →
          PythonReady E (venvPythonOf E inContainer cwd) →
          (∃ post : List Event,
              ((executeAnalyze E cfg onlyGitingest args).run startMachine).2.trace
                = preToolEvents E [] (args.headD ".".toList) (analyzeOutputDir cfg)
                  ++ Event.call gitingestDriver :: post)
            ∧ Event.run (venvPythonOf E inContainer cwd)
                  ["-c".toList, E.script toolPath "False".toList (gitingestTempFile E)] []
                ∈ ((executeAnalyze E cfg onlyGitingest args).run startMachine).2.trace))
    ∧ (((∀ e ∈ ((executeAnalyze E cfg onlyRepomix args).run startMachine).2.trace,
            RepomixOnly e)
        ∧ Event.getwd ∉ ((executeAnalyze E cfg onlyRepomix args).run startMachine).2.trace
        ∧ (∀ f, Event.readFile f
            ∉ ((executeAnalyze E cfg onlyRepomix args).run startMachine).2.trace)
        ∧ (∀ f d, Event.writeFile f d
            ∉ ((executeAnalyze E cfg onlyRepomix args).run startMachine).2.trace)
        ∧ (∀ f, Event.remove f
            ∉ ((executeAnalyze E cfg onlyRepomix args).run startMachine).2.trace)
        ∧ Event.call gitingestDriver
            ∉ ((executeAnalyze E cfg onlyRepomix args).run startMachine).2.trace
        ∧ (∀ n a d, Event.run n a d
              ∈ ((executeAnalyze E cfg onlyRepomix args).run startMachine).2.trace →
            n = "npx".toList ∧ a.head? = some "repomix".toList))
      ∧ ((executeAnalyze E cfg onlyRepomix args).run startMachine).2.globals.analyzeGitingest
          = false
      ∧ ((executeAnalyze E cfg onlyRepomix args).run startMachine).2.globals.analyzeRepomix
          = true
      ∧ (∀ (toolPath : GoString) (path : GoString → Bool),
          TargetReady E (args.headD ".".toList) toolPath →
          (∀ h, outputDirError E h (analyzeOutputDir cfg) = none) →
          (∀ h f, E.lookPath h f = path f) →
          (path "npx".toList || path "npm".toList || path "node".toList) = true →
          (∃ post : List Event,
              ((executeAnalyze E cfg onlyRepomix args).run startMachine).2.trace
                = preToolEvents E [] (args.headD ".".toList) (analyzeOutputDir cfg)
                  ++ Event.call repomixDriver :: post)
            ∧ ∃ (out : GoString) (opts : List GoString) (dir : GoString),
                Event.run "npx".toList
                    (repomixHead
                        (if isRemoteRepository (args.headD ".".toList) then toolPath else [])
                        toolPath out ++ opts) dir
                  ∈ ((executeAnalyze E cfg onlyRepomix args).run startMachine).2.trace)) := by
  rw [executeAnalyze_onlyGitingest, executeAnalyze_onlyRepomix]
  obtain ⟨gG, gR, gO⟩ := resolved_onlyGitingest cfg
  obtain ⟨rG, rR, rO⟩ := resolved_onlyRepomix cfg
  constructor
  · obtain ⟨⟨evs, h1, h2⟩, h3, h4⟩ := runAnalyze_gitingestOnly E cfg onlyGitingest args _ gG gR
    have hall : ∀ e ∈ ((runAnalyze E cfg onlyGitingest args).run
        { startMachine with globals :=
            { startMachine.globals with analyzeGitingest := true, analyzeRepomix := true } }
        ).2.trace, GitingestOnly e := by
      rw [h1]
      exact h2
    refine ⟨⟨hall, gitingestOnly_excludes _ hall⟩, h3, h4, ?_⟩
    intro toolPath inContainer cwd hT hO hv hw hpy
    have := runAnalyze_gitingest_starts E cfg onlyGitingest args _ toolPath inContainer cwd
      gG gR hT (by rw [gO]; exact hO) hv hw hpy
    rw [gO] at this
    exact this
  · obtain ⟨⟨evs, h1, h2⟩, h3, h4⟩ := runAnalyze_repomixOnly E cfg onlyRepomix args _ rG rR
    have hall : ∀ e ∈ ((runAnalyze E cfg onlyRepomix args).run
        { startMachine with globals :=
            { startMachine.globals with analyzeGitingest := true, analyzeRepomix := true } }
        ).2.trace, RepomixOnly e := by
      rw [h1]
      exact h2
    refine ⟨⟨hall, repomixOnly_excludes _ hall⟩, h3, h4, ?_⟩
    intro toolPath path hT hO hP hf
    have := runAnalyze_repomix_starts E cfg onlyRepomix args _ toolPath path
      rG rR hT (by rw [rO]; exact hO) hP hf
    rw [rO] at this
    exact this

/-- Instance of amended C8 where both tools are ready and the config says the opposite of
the flags (gitingest disabled and repomix enabled, resp. the reverse).  With
`--enable-gitingest --disable-repomix` the output directory is created, the gitingest
driver is entered, the gitingest script is started on the absolute path of the target, and
the repomix driver is not entered; with `--enable-repomix --disable-gitingest` the repomix
driver is entered and `npx repomix` is started on that path. -/
theorem analyze_enable_one_disable_other_witness :
    ((∃ post : List Event,
          ((executeAnalyze readyEnv
              { analyzeEnableGitingest := some false, analyzeEnableRepomix := some true }
              onlyGitingest []).run startMachine).2.trace
            = [Event.stat ".".toList, Event.abs ".".toList,
                Event.stat "analysis-results".toList, Event.mkdirAll "analysis-results".toList]
              ++ Event.call gitingestDriver :: post)
        ∧ Event.run "/app/.venv/bin/python".toList
              ["-c".toList, "/work/.False/tmp/gitingest_results.json".toList] []
            ∈ ((executeAnalyze readyEnv
                { analyzeEnableGitingest := some false, analyzeEnableRepomix := some true }
                onlyGitingest []).run startMachine).2.trace)
      ∧ Event.call repomixDriver
          ∉ ((executeAnalyze readyEnv
              { analyzeEnableGitingest := some false, analyzeEnableRepomix := some true }
              onlyGitingest []).run startMachine).2.trace
      ∧ ((∃ post : List Event,
          ((executeAnalyze readyEnv
              { analyzeEnableGitingest := some true, analyzeEnableRepomix := some false }
              onlyRepomix []).run startMachine).2.trace
            = [Event.stat ".".toList, Event.abs ".".toList,
                Event.stat "analysis-results".toList, Event.mkdirAll "analysis-results".toList]
              ++ Event.call repomixDriver :: post)
        ∧ ∃ (out : GoString) (opts : List GoString) (dir : GoString),
            Event.run "npx".toList (repomixHead [] "/work/.".toList out ++ opts) dir
              ∈ ((executeAnalyze readyEnv
                  { analyzeEnableGitingest := some true, analyzeEnableRepomix := some false }
                  onlyRepomix []).run startMachine).2.trace)
      ∧ Event.call gitingestDriver
          ∉ ((executeAnalyze readyEnv
              { analyzeEnableGitingest := some true, analyzeEnableRepomix := some false }
              onlyRepomix []).run startMachine).2.trace :=
  ⟨(analyze_enable_one_disable_other readyEnv
      { analyzeEnableGitingest := some false, analyzeEnableRepomix := some true } []).1.2.2.2
      "/work/.".toList true (.ok "/work".toList)
      (Or.inr ⟨by decide, fun _ => rfl, fun _ => rfl⟩) (fun _ => rfl) (fun _ => rfl)
      (fun _ => rfl) ⟨fun _ => rfl, fun _ => rfl, fun _ => rfl⟩,
    (analyze_enable_one_disable_other readyEnv
      { analyzeEnableGitingest := some false, analyzeEnableRepomix := some true } []).1.1.2.2.2.1,
    (analyze_enable_one_disable_other readyEnv
      { analyzeEnableGitingest := some true, analyzeEnableRepomix := some false } []).2.2.2.2
      "/work/.".toList (fun _ => true)
      (Or.inr ⟨by decide, fun _ => rfl, fun _ => rfl⟩) (fun _ => rfl) (fun _ _ => rfl) rfl,
    (analyze_enable_one_disable_other readyEnv
      { analyzeEnableGitingest := some true, analyzeEnableRepomix := some false }
      []).2.1.2.2.2.2.2.1⟩

end RA
